import Mathlib

/-!
# OrbbecSDK v2: host wire protocol, clock synchronizer and calibration resolver

Shallow embedding of

* `src/device/component/property/HostProtocol.cpp`
  (`checkStatus`, `getExpectedRespSize`, `validateResp`, `execute`,
  `generateRequestId`, the `init*Req` request builders, `getStructureDataSize`);
* `src/device/component/timestamp/GlobalTimestampFilter.cpp`
  (`fittingLoop`, `reFitting`, `pause`, `resume`);
* `src/device/component/param/AlgParseHelper.cpp`
  (`alignCalibParamParse`, `d2cProfileInfoParse`);
* `src/filter/publicfilters/IMUCorrector.cpp`
  (`parserIMUCalibParamRaw`, `getDefaultImuCalibParam`, `correctAccel`, `correctGyro`);
* `src/device/component/param/AlgParamManager.cpp`
  (`findBestMatchedD2CProfile`, `bindIntrinsic`, `fetchParamFromDevice`);
* `src/shared/utils/CameraParamProcess.cpp`
  (mirror, flip and rotation of camera parameters, `multiplyExtrinsic`, `inverseExtrinsic`).

Conventions.  A `uint16_t`, `uint32_t` or `uint64_t` value is a `Nat`; every place
where the C++ code truncates or wraps is written with an explicit `%`.  A `float` or
`double` is a rational number (`ℚ`).  The `float` operations on camera intrinsics
(`bindIntrinsic`, mirror, flip, rotation) round their result to the nearest `float`
(`roundToFloat`); the fit, the aspect-ratio test, the composition of extrinsics and
the IMU correction are given in exact arithmetic.  A read through a pointer outside its
buffer has no defined result; a function that makes one returns `none`.  A
`std::string` is the list of its bytes.  Logging and sleeping have no effect on the
values computed and are left out.
-/

namespace libobsensor
namespace protocol

/-! ## Declarations of `HostProtocol.hpp` used by the source file -/

/-- Number of values of a `uint16_t`. -/
def U16 : Nat := 65536

/-- The enumerators of `HpStatusCode` that `HostProtocol.cpp` names.  The enum is declared in
`HostProtocol.hpp`; `HP_STATUS_OTHER` stands for any enumerator the source file does not name
(such a value reaches the `default:` label of `checkStatus`). -/
inductive HpStatusCode where
  | HP_STATUS_OK
  | HP_STATUS_CONTROL_TRANSFER_FAILED
  | HP_STATUS_DEVICE_RESPONSE_WARNING
  | HP_STATUS_DEVICE_RESPONSE_ERROR
  | HP_STATUS_DEVICE_RESPONSE_ERROR_UNKNOWN
  | HP_STATUS_DEVICE_RESPONSE_BAD_MAGIC
  | HP_STATUS_DEVICE_RESPONSE_WRONG_ID
  | HP_STATUS_DEVICE_RESPONSE_WRONG_OPCODE
  | HP_STATUS_DEVICE_RESPONSE_WRONG_DATA_SIZE
  | HP_STATUS_OTHER (code : Nat)
  deriving DecidableEq, Repr

open HpStatusCode

/-- The struct `HpStatus`: status code, device-reported error code (`HpRespErrorCode`, kept as its
numeric value) and message. -/
structure HpStatus where
  statusCode : HpStatusCode
  respErrorCode : Nat
  msg : List Nat
  deriving DecidableEq, Repr

/-- The constants and defaults that `HostProtocol.cpp` takes from `HostProtocol.hpp`.  The header
is not part of the sources at hand, so every one of them is a parameter of the embedding. -/
structure HpConstants where
  HP_REQUEST_MAGIC : Nat
  HP_RESPONSE_MAGIC : Nat
  HP_RESP_HEADER_SIZE : Nat
  HP_NOT_READY_RETRIES : Nat
  HP_RESP_ERROR_UNKNOWN : Nat
  HP_RESP_ERROR_DEVICE_BUSY : Nat
  OPCODE_GET_PROPERTY : Nat
  OPCODE_SET_PROPERTY : Nat
  OPCODE_GET_STRUCTURE_DATA : Nat
  OPCODE_SET_STRUCTURE_DATA : Nat
  OPCODE_GET_COMMAND_VERSION : Nat
  OPCODE_GET_STRUCTURE_DATA_V1_1 : Nat
  OPCODE_HEARTBEAT_AND_STATE : Nat
  OPCODE_INIT_READ_STRUCT_DATA_LIST : Nat
  OPCODE_READ_STRUCT_DATA_LIST : Nat
  OPCODE_FINISH_READ_STRUCT_DATA_LIST : Nat
  OPCODE_INIT_READ_RAW_DATA : Nat
  OPCODE_READ_RAW_DATA : Nat
  OPCODE_FINISH_READ_RAW_DATA : Nat
  /-- Numeric value of a status code, as printed by `std::to_string(stat.statusCode)`. -/
  statusCodeValue : HpStatusCode → Nat
  /-- Value of a default-constructed `HpStatus` (the local `hpStatus` of `execute`). -/
  defaultHpStatus : HpStatus

/-- Modelled from the spec: the enumerator `HP_RESP_OK` of `HostProtocol.hpp` (absent);
the spec gives "Error code: 0 = success". -/
def HP_RESP_OK : Nat := 0

/-- Modelled from the spec: `sizeof(RespHeader::errorCode)`; the struct is declared in
`HostProtocol.hpp` (absent) and the spec describes a 16-bit error code, two bytes. -/
def sizeofErrorCode : Nat := 2

/-- The struct `ReqHeader`, four `uint16_t` fields. -/
structure ReqHeader where
  magic : Nat
  sizeInHalfWords : Nat
  opcode : Nat
  requestId : Nat
  deriving DecidableEq, Repr

/-- The struct `RespHeader`, five `uint16_t` fields. -/
structure RespHeader where
  magic : Nat
  sizeInHalfWords : Nat
  opcode : Nat
  requestId : Nat
  errorCode : Nat
  deriving DecidableEq, Repr

/-- A response buffer `uint8_t *dataBuf` as `validateResp` reads it: the leading bytes seen
through `(RespHeader *)dataBuf`, and the bytes from `dataBuf + sizeof(RespHeader)` on. -/
structure RespBuf where
  header : RespHeader
  body : List Nat
  deriving DecidableEq, Repr

/-- A request buffer `uint8_t *reqData` as `execute` reads it: the header seen through
`(ReqHeader *)reqData` and the bytes behind it. -/
structure ReqBuf where
  header : ReqHeader
  body : List Nat
  deriving DecidableEq, Repr

/-- The exception type `io_exception`, carrying its message. -/
structure io_exception where
  what : List Nat
  deriving DecidableEq, Repr

/-! ## Text helpers -/

/-- Bytes of an ASCII string literal. -/
def strBytes (s : String) : List Nat := s.toList.map Char.toNat

/-- Decimal text, as `std::to_string` and `operator<<` print an integer. -/
def decBytes (n : Nat) : List Nat := strBytes (toString n)

/-- Hexadecimal text, as `operator<<` prints an integer after `std::hex`. -/
def hexBytes (n : Nat) : List Nat := (Nat.toDigits 16 n).map Char.toNat

/-- The C string starting at a byte position: the bytes before the first NUL. -/
def cString (bytes : List Nat) : List Nat := bytes.takeWhile (fun b => b != 0)

/-! ## `checkStatus` -/

/-- `bool checkStatus(HpStatus stat, bool throwException)`; a thrown `io_exception` is
`Except.error`. -/
def checkStatus (k : HpConstants) (stat : HpStatus) (throwException : Bool) :
    Except io_exception Bool :=
  match stat.statusCode with
  | HP_STATUS_OK => .ok true
  | HP_STATUS_DEVICE_RESPONSE_WARNING => .ok false
  | HP_STATUS_DEVICE_RESPONSE_ERROR =>
    let retMsg := strBytes "Request failed, device response with error, errorCode: "
      ++ decBytes stat.respErrorCode ++ strBytes ", msg: " ++ stat.msg
    if throwException then .error ⟨retMsg⟩ else .ok false
  | HP_STATUS_DEVICE_RESPONSE_ERROR_UNKNOWN =>
    if throwException then
      .error ⟨strBytes "Request failed, device response with unknown error!"⟩
    else .ok false
  | code =>
    let retMsg := strBytes "Request failed, statusCode: "
      ++ decBytes (k.statusCodeValue code) ++ strBytes ", msg: " ++ stat.msg
    if throwException then .error ⟨retMsg⟩ else .ok false

/-! ## `getExpectedRespSize` and `validateResp` -/

/-- `uint16_t getExpectedRespSize(HpOpCodes opcode)`. -/
def getExpectedRespSize (k : HpConstants) (opcode : Nat) : Nat :=
  if opcode = k.OPCODE_GET_STRUCTURE_DATA ∨ opcode = k.OPCODE_GET_STRUCTURE_DATA_V1_1
      ∨ opcode = k.OPCODE_HEARTBEAT_AND_STATE then 512 else 64

/-- The local `uint16_t respDataSize = header->sizeInHalfWords * 2 - sizeof(RespHeader::errorCode)`
of `validateResp`: the difference is truncated to 16 bits by the assignment. -/
def respDataSizeOf (sizeInHalfWords : Nat) : Nat :=
  (((sizeInHalfWords : Int) * 2 - (sizeofErrorCode : Int)) % (U16 : Int)).toNat

/-- `HpStatus validateResp(uint8_t *dataBuf, uint16_t dataSize, uint16_t expectedOpcode,
uint16_t requestId)`. -/
def validateResp (k : HpConstants) (dataBuf : RespBuf) (dataSize expectedOpcode requestId : Nat) :
    HpStatus :=
  let header := dataBuf.header
  if header.magic ≠ k.HP_RESPONSE_MAGIC then
    { statusCode := HP_STATUS_DEVICE_RESPONSE_BAD_MAGIC
      respErrorCode := k.HP_RESP_ERROR_UNKNOWN
      msg := strBytes "device response with bad magic " ++ strBytes ", magic=0x"
        ++ hexBytes header.magic ++ strBytes ", expectOpCode=0x" ++ hexBytes k.HP_RESPONSE_MAGIC }
  else if header.requestId ≠ requestId then
    { statusCode := HP_STATUS_DEVICE_RESPONSE_WRONG_ID
      respErrorCode := k.HP_RESP_ERROR_UNKNOWN
      msg := strBytes "device response with inconsistent response requestId, cmdId="
        ++ decBytes header.requestId ++ strBytes ", requestId=" ++ decBytes requestId }
  else if header.opcode ≠ expectedOpcode then
    { statusCode := HP_STATUS_DEVICE_RESPONSE_WRONG_OPCODE
      respErrorCode := k.HP_RESP_ERROR_UNKNOWN
      msg := strBytes "device response with inconsistent opcode, opcode="
        ++ decBytes header.opcode ++ strBytes ", expectedOpcode=" ++ decBytes expectedOpcode }
  else
    let respDataSize := respDataSizeOf header.sizeInHalfWords
    if respDataSize + k.HP_RESP_HEADER_SIZE > dataSize then
      { statusCode := HP_STATUS_DEVICE_RESPONSE_WRONG_DATA_SIZE
        respErrorCode := k.HP_RESP_ERROR_UNKNOWN
        msg := strBytes "device response with wrong data size" }
    else if header.errorCode = HP_RESP_OK then
      { statusCode := HP_STATUS_OK, respErrorCode := HP_RESP_OK, msg := [] }
    else if header.errorCode = k.HP_RESP_ERROR_UNKNOWN then
      { statusCode := HP_STATUS_DEVICE_RESPONSE_ERROR_UNKNOWN
        respErrorCode := header.errorCode
        msg := strBytes "device response with unknown error" }
    else
      let msg := if respDataSize > 0 then cString dataBuf.body else []
      { statusCode :=
          if header.errorCode ≥ 0x8000 ∧ header.errorCode ≤ 0xfffe then
            HP_STATUS_DEVICE_RESPONSE_WARNING
          else HP_STATUS_DEVICE_RESPONSE_ERROR
        respErrorCode := header.errorCode
        msg := msg }

/-- `uint16_t getStructureDataSize(const GetStructureDataResp *resp)`: the same 16-bit
expression as `respDataSize`, over the header of the response. -/
def getStructureDataSize (header : RespHeader) : Nat :=
  (((header.sizeInHalfWords : Int) * 2 - (sizeofErrorCode : Int)) % (U16 : Int)).toNat

/-! ## `execute` -/

/-- The collaborator `IVendorDataPort`: `sendAndReceive(reqData, reqDataSize, respData,
exceptRecLen)` over a port in state `σ`.  The call yields the next state of the port, the
contents of the response buffer after the call, and the number of bytes received (`uint32_t`),
or `none` when it throws. -/
structure VendorDataPort (σ : Type) where
  sendAndReceive : σ → ReqBuf → Nat → RespBuf → Nat → σ × RespBuf × Option Nat

/-- One call of `sendAndReceive` as `execute` made it: the request and sizes handed to the port,
the response buffer after the call and the value returned (`none`: the call threw). -/
structure Attempt where
  reqData : ReqBuf
  reqDataSize : Nat
  exceptRecLen : Nat
  respData : RespBuf
  received : Option Nat
  deriving DecidableEq, Repr

/-- The variables of `execute` that change in its loop, the state of the port, and the record
of the calls made on the port so far (`attempts`, oldest first). -/
structure ExecState (σ : Type) where
  port : σ
  respData : RespBuf
  respDataSize : Nat
  hpStatus : HpStatus
  attempts : List Attempt

/-- The status `execute` assigns when `sendAndReceive` throws. -/
def transferFailedStatus (k : HpConstants) : HpStatus :=
  { statusCode := HP_STATUS_CONTROL_TRANSFER_FAILED
    respErrorCode := k.HP_RESP_ERROR_UNKNOWN
    msg := strBytes "send control transfer failed!" }

/-- The loop `while(nRetriesLeft-- > 0)` of `execute`, by recursion on `nRetriesLeft`. -/
def executeLoop {σ : Type} (k : HpConstants) (dataPort : VendorDataPort σ) (reqData : ReqBuf)
    (reqDataSize exceptRecLen opcode requestId : Nat) : Nat → ExecState σ → ExecState σ
  | 0, s => s
  | nRetriesLeft + 1, s =>
    let r := dataPort.sendAndReceive s.port reqData reqDataSize s.respData exceptRecLen
    let attempts := s.attempts ++ [⟨reqData, reqDataSize, exceptRecLen, r.2.1, r.2.2⟩]
    match r.2.2 with
    | some len =>
      let respDataSize := len % U16
      let hpStatus := validateResp k r.2.1 respDataSize opcode requestId
      let s' : ExecState σ := ⟨r.1, r.2.1, respDataSize, hpStatus, attempts⟩
      if hpStatus.statusCode ≠ HP_STATUS_DEVICE_RESPONSE_WRONG_ID
          ∧ hpStatus.respErrorCode ≠ k.HP_RESP_ERROR_DEVICE_BUSY then s'
      else executeLoop k dataPort reqData reqDataSize exceptRecLen opcode requestId nRetriesLeft s'
    | none => ⟨r.1, r.2.1, s.respDataSize, transferFailedStatus k, attempts⟩

/-- `HpStatus execute(dataPort, reqData, reqDataSize, respData, respDataSize)`: the result holds
the returned status in `hpStatus`, the out-parameters `respData` and `*respDataSize`, and the
calls made on the port. -/
def execute {σ : Type} (k : HpConstants) (dataPort : VendorDataPort σ) (port : σ)
    (reqData : ReqBuf) (reqDataSize : Nat) (respData : RespBuf) (respDataSize : Nat) :
    ExecState σ :=
  let requestId := reqData.header.requestId
  let opcode := reqData.header.opcode
  let nRetriesLeft := k.HP_NOT_READY_RETRIES % U16
  let exceptRecLen := getExpectedRespSize k opcode
  executeLoop k dataPort reqData reqDataSize exceptRecLen opcode requestId nRetriesLeft
    ⟨port, respData, respDataSize, k.defaultHpStatus, []⟩

/-- The status that `execute` assigns to `hpStatus` in the iteration that made the call `a`,
for a request with the given opcode and correlation id. -/
def attemptStatus (k : HpConstants) (opcode requestId : Nat) (a : Attempt) : HpStatus :=
  match a.received with
  | some len => validateResp k a.respData (len % U16) opcode requestId
  | none => transferFailedStatus k

/-- The call `a` returned without throwing and its validated status is wrong-correlation-id or
carries the device-busy error code: the condition under which `execute` does not `break`. -/
def attemptAsksRetry (k : HpConstants) (opcode requestId : Nat) (a : Attempt) : Prop :=
  a.received ≠ none
    ∧ ((attemptStatus k opcode requestId a).statusCode = HP_STATUS_DEVICE_RESPONSE_WRONG_ID
      ∨ (attemptStatus k opcode requestId a).respErrorCode = k.HP_RESP_ERROR_DEVICE_BUSY)

instance (k : HpConstants) (opcode requestId : Nat) (a : Attempt) :
    Decidable (attemptAsksRetry k opcode requestId a) := by
  unfold attemptAsksRetry
  infer_instance

/-! ## Request construction -/

/-- `uint16_t generateRequestId()`: the argument is the function-local `static uint16_t
requestId`; the result is the returned id and the new value of the static. -/
def generateRequestId (requestId : Nat) : Nat × Nat :=
  let requestId := (requestId + 1) % U16
  (requestId, requestId)

/-- Value of the static counter after `n` calls of `generateRequestId` in a process
(the static starts at 0). -/
def requestIdAfter : Nat → Nat
  | 0 => 0
  | n + 1 => (generateRequestId (requestIdAfter n)).2

/-- The id returned by the `n`-th call (`n ≥ 1`) of `generateRequestId` in a process. -/
def nthRequestId (n : Nat) : Nat := (generateRequestId (requestIdAfter (n - 1))).1

/-- The struct `GetPropertyReq`. -/
structure GetPropertyReq where
  header : ReqHeader
  propertyId : Nat
  deriving DecidableEq, Repr

/-- The struct `SetPropertyReq`. -/
structure SetPropertyReq where
  header : ReqHeader
  propertyId : Nat
  value : Nat
  deriving DecidableEq, Repr

/-- The struct `GetStructureDataReq`. -/
structure GetStructureDataReq where
  header : ReqHeader
  propertyId : Nat
  deriving DecidableEq, Repr

/-- The struct `SetStructureDataReq`; `data` is the byte area `req->data` up to the end of the
buffer. -/
structure SetStructureDataReq where
  header : ReqHeader
  propertyId : Nat
  data : List Nat
  deriving DecidableEq, Repr

/-- The struct `GetStructureDataV11Req`. -/
structure GetStructureDataV11Req where
  header : ReqHeader
  propertyId : Nat
  deriving DecidableEq, Repr

/-- The struct `GetStructureDataListReq`. -/
structure GetStructureDataListReq where
  header : ReqHeader
  propertyId : Nat
  offset : Nat
  size : Nat
  deriving DecidableEq, Repr

/-- The struct `ReadRawData`. -/
structure ReadRawData where
  header : ReqHeader
  propertyId : Nat
  offset : Nat
  size : Nat
  deriving DecidableEq, Repr

/-- `initGetPropertyReq(dataBuf, propertyId)`.  Here and below: `ctr` is the static of
`generateRequestId`, `dataBuf` the buffer seen through the request type, and the result is the
buffer after the call with the new value of the static. -/
def initGetPropertyReq (k : HpConstants) (ctr : Nat) (_dataBuf : GetPropertyReq)
    (propertyId : Nat) : GetPropertyReq × Nat :=
  let id := generateRequestId ctr
  (⟨⟨k.HP_REQUEST_MAGIC, 2, k.OPCODE_GET_PROPERTY, id.1⟩, propertyId⟩, id.2)

/-- `initSetPropertyReq(dataBuf, propertyId, value)`. -/
def initSetPropertyReq (k : HpConstants) (ctr : Nat) (_dataBuf : SetPropertyReq)
    (propertyId value : Nat) : SetPropertyReq × Nat :=
  let id := generateRequestId ctr
  (⟨⟨k.HP_REQUEST_MAGIC, 4, k.OPCODE_SET_PROPERTY, id.1⟩, propertyId, value⟩, id.2)

/-- `initGetStructureDataReq(dataBuf, propertyId)`. -/
def initGetStructureDataReq (k : HpConstants) (ctr : Nat) (_dataBuf : GetStructureDataReq)
    (propertyId : Nat) : GetStructureDataReq × Nat :=
  let id := generateRequestId ctr
  (⟨⟨k.HP_REQUEST_MAGIC, 2, k.OPCODE_GET_STRUCTURE_DATA, id.1⟩, propertyId⟩, id.2)

/-- `initSetStructureDataReq(dataBuf, propertyId, data, dataSize)`: the header field is a
`uint16_t`, so the `int` value `2 + (dataSize + 1) / 2` is truncated to 16 bits on assignment;
`memcpy` overwrites the first `dataSize` bytes of `req->data` with those of `data`. -/
def initSetStructureDataReq (k : HpConstants) (ctr : Nat) (dataBuf : SetStructureDataReq)
    (propertyId : Nat) (data : List Nat) (dataSize : Nat) : SetStructureDataReq × Nat :=
  let id := generateRequestId ctr
  (⟨⟨k.HP_REQUEST_MAGIC, (2 + (dataSize + 1) / 2) % U16, k.OPCODE_SET_STRUCTURE_DATA, id.1⟩,
    propertyId, data.take dataSize ++ dataBuf.data.drop dataSize⟩, id.2)

/-- `initGetCmdVersionReq(dataBuf, propertyId)`. -/
def initGetCmdVersionReq (k : HpConstants) (ctr : Nat) (_dataBuf : GetPropertyReq)
    (propertyId : Nat) : GetPropertyReq × Nat :=
  let id := generateRequestId ctr
  (⟨⟨k.HP_REQUEST_MAGIC, 2, k.OPCODE_GET_COMMAND_VERSION, id.1⟩, propertyId⟩, id.2)

/-- `initGetStructureDataV11Req(dataBuf, propertyId)`. -/
def initGetStructureDataV11Req (k : HpConstants) (ctr : Nat) (_dataBuf : GetStructureDataV11Req)
    (propertyId : Nat) : GetStructureDataV11Req × Nat :=
  let id := generateRequestId ctr
  (⟨⟨k.HP_REQUEST_MAGIC, 2, k.OPCODE_GET_STRUCTURE_DATA_V1_1, id.1⟩, propertyId⟩, id.2)

/-- `initGetStructureDataListV11Req(dataBuf, propertyId)`. -/
def initGetStructureDataListV11Req (k : HpConstants) (ctr : Nat)
    (_dataBuf : GetStructureDataV11Req) (propertyId : Nat) : GetStructureDataV11Req × Nat :=
  let id := generateRequestId ctr
  (⟨⟨k.HP_REQUEST_MAGIC, 2, k.OPCODE_INIT_READ_STRUCT_DATA_LIST, id.1⟩, propertyId⟩, id.2)

/-- `initStartGetStructureDataList(dataBuf, propertyId)`. -/
def initStartGetStructureDataList (k : HpConstants) (ctr : Nat) (_dataBuf : GetPropertyReq)
    (propertyId : Nat) : GetPropertyReq × Nat :=
  let id := generateRequestId ctr
  (⟨⟨k.HP_REQUEST_MAGIC, 2, k.OPCODE_INIT_READ_STRUCT_DATA_LIST, id.1⟩, propertyId⟩, id.2)

/-- `initReadStructureDataList(dataBuf, propertyId, offset, dataSize)`. -/
def initReadStructureDataList (k : HpConstants) (ctr : Nat) (_dataBuf : GetStructureDataListReq)
    (propertyId offset dataSize : Nat) : GetStructureDataListReq × Nat :=
  let id := generateRequestId ctr
  (⟨⟨k.HP_REQUEST_MAGIC, 6, k.OPCODE_READ_STRUCT_DATA_LIST, id.1⟩, propertyId, offset, dataSize⟩,
    id.2)

/-- `initFinishGetStructureDataList(dataBuf, propertyId)`. -/
def initFinishGetStructureDataList (k : HpConstants) (ctr : Nat) (_dataBuf : GetPropertyReq)
    (propertyId : Nat) : GetPropertyReq × Nat :=
  let id := generateRequestId ctr
  (⟨⟨k.HP_REQUEST_MAGIC, 2, k.OPCODE_FINISH_READ_STRUCT_DATA_LIST, id.1⟩, propertyId⟩, id.2)

/-- `initGetRawData(dataBuf, propertyId, cmd)`: the `switch` sets the opcode for `cmd` 0 and 1
and leaves the opcode already in the buffer for every other `cmd`. -/
def initGetRawData (k : HpConstants) (ctr : Nat) (dataBuf : GetPropertyReq)
    (propertyId cmd : Nat) : GetPropertyReq × Nat :=
  let opcode :=
    if cmd = 0 then k.OPCODE_INIT_READ_RAW_DATA
    else if cmd = 1 then k.OPCODE_FINISH_READ_RAW_DATA
    else dataBuf.header.opcode
  let id := generateRequestId ctr
  (⟨⟨k.HP_REQUEST_MAGIC, 0, opcode, id.1⟩, propertyId⟩, id.2)

/-- `initReadRawData(dataBuf, propertyId, offset, size)`. -/
def initReadRawData (k : HpConstants) (ctr : Nat) (_dataBuf : ReadRawData)
    (propertyId offset size : Nat) : ReadRawData × Nat :=
  let id := generateRequestId ctr
  (⟨⟨k.HP_REQUEST_MAGIC, 0, k.OPCODE_READ_RAW_DATA, id.1⟩, propertyId, offset, size⟩, id.2)

/-! ## Concrete data for evaluations -/

/-- A sample instance of the header constants: three attempts (the retry count used as an
example by the specification), a ten-byte response header, `0xffff` as the unknown-error
sentinel. -/
def sampleConstants : HpConstants where
  HP_REQUEST_MAGIC := 0x4d47
  HP_RESPONSE_MAGIC := 0x4252
  HP_RESP_HEADER_SIZE := 10
  HP_NOT_READY_RETRIES := 3
  HP_RESP_ERROR_UNKNOWN := 0xffff
  HP_RESP_ERROR_DEVICE_BUSY := 0x0006
  OPCODE_GET_PROPERTY := 1
  OPCODE_SET_PROPERTY := 2
  OPCODE_GET_STRUCTURE_DATA := 3
  OPCODE_SET_STRUCTURE_DATA := 4
  OPCODE_GET_COMMAND_VERSION := 5
  OPCODE_GET_STRUCTURE_DATA_V1_1 := 6
  OPCODE_HEARTBEAT_AND_STATE := 7
  OPCODE_INIT_READ_STRUCT_DATA_LIST := 8
  OPCODE_READ_STRUCT_DATA_LIST := 9
  OPCODE_FINISH_READ_STRUCT_DATA_LIST := 10
  OPCODE_INIT_READ_RAW_DATA := 11
  OPCODE_READ_RAW_DATA := 12
  OPCODE_FINISH_READ_RAW_DATA := 13
  statusCodeValue := fun _ => 0
  defaultHpStatus := ⟨HP_STATUS_OK, 0, []⟩

/-- A response buffer with the given header fields and no bytes behind the header. -/
def sampleResp (magic sizeInHalfWords opcode requestId errorCode : Nat) : RespBuf :=
  ⟨⟨magic, sizeInHalfWords, opcode, requestId, errorCode⟩, []⟩

/-- A get-property request with correlation id 1 under `sampleConstants`. -/
def sampleReq : ReqBuf := ⟨⟨0x4d47, 2, 1, 1⟩, [0, 0, 0, 0]⟩

/-- A port without state whose every answer is the same 64-byte response with the right magic
and opcode of `sampleReq` but correlation id 7. -/
def wrongIdPort : VendorDataPort Unit where
  sendAndReceive := fun _ _ _ _ _ => ((), sampleResp 0x4252 2 1 7 0, some 64)

end protocol

/-! ## `GlobalTimestampFilter`: the clock synchronizer -/

namespace GlobalTimestampFilter

/-- Number of values of a `uint64_t`. -/
def U64 : Nat := 18446744073709551616

/-- Difference `a - b` of two `uint64_t` values, as the machine computes it (modulo `2^64`):
`2^64` is added before subtracting so that the difference is taken without truncation at 0. -/
def subU64 (a b : Nat) : Nat := (a + U64 - b % U64) % U64

/-- Product of two `uint64_t` values, as the machine computes it (modulo `2^64`). -/
def mulU64 (a b : Nat) : Nat := (a * b) % U64

/-- Sum of two `uint64_t` values, as the machine computes it (modulo `2^64`). -/
def addU64 (a b : Nat) : Nat := (a + b) % U64

/-- An element of `samplingQueue_`: `{ systemTimestamp, deviceTimestamp }`, both `uint64_t`. -/
structure TimestampPair where
  systemTimestamp : Nat
  deviceTimestamp : Nat
  deriving DecidableEq, Repr

/-- The struct `LinearFuncParam`: the published model `y = coefficientA * x + constantB` and the
last sample it was computed at. -/
structure LinearFuncParam where
  coefficientA : ℚ
  constantB : ℚ
  checkDataX : Nat
  checkDataY : Nat
  deriving DecidableEq

/-- The configuration members `maxQueueSize_` and `refreshIntervalMsec_`; their defaults are in
`GlobalTimestampFilter.hpp`, which is not at hand, so they are parameters. -/
structure FilterConfig where
  maxQueueSize : Nat
  refreshIntervalMsec : Nat

/-- What one pass through the `try` block of `fittingLoop` observes: the host clock before the
read, the device time returned by `getStructureDataT<OBDeviceTime>(OB_STRUCT_DEVICE_TIME)`
(`none` when the read throws), and the host clock after the read. -/
structure DeviceTimeRead where
  sysTsp1Usec : Nat
  devTime : Option Nat
  sysTsp2Usec : Nat
  deriving DecidableEq, Repr

/-- The members `samplingQueue_` (front of the deque first) and `linearFuncParam_`, and the
local `retryCount` of `fittingLoop`. -/
structure FilterState where
  samplingQueue : List TimestampPair
  linearFuncParam : LinearFuncParam
  retryCount : Nat

/-- The constant `MAX_RETRY_COUNT` of `fittingLoop`. -/
def MAX_RETRY_COUNT : Nat := 5

/-- The accumulators `Ex`, `Exx`, `Ey`, `Exy` of the fit. -/
structure FitSums where
  Ex : ℚ
  Exx : ℚ
  Ey : ℚ
  Exy : ℚ
  deriving DecidableEq

/-- Body of the `while(it != samplingQueue_.end())` loop: the two differences and the two
products are `uint64_t` operations, their results are converted to `double` and added. -/
def accumulate (offset_x offset_y : Nat) (acc : FitSums) (it : TimestampPair) : FitSums :=
  let systemTimestamp := subU64 it.systemTimestamp offset_y
  let deviceTimestamp := subU64 it.deviceTimestamp offset_x
  { Ex := acc.Ex + (deviceTimestamp : ℚ)
    Exx := acc.Exx + ((mulU64 deviceTimestamp deviceTimestamp : Nat) : ℚ)
    Ey := acc.Ey + (systemTimestamp : ℚ)
    Exy := acc.Exy + ((mulU64 deviceTimestamp systemTimestamp : Nat) : ℚ) }

/-- The sums of the fit over the whole queue, offsets taken from its front. -/
def fitSums (queue : List TimestampPair) : FitSums :=
  match queue with
  | [] => ⟨0, 0, 0, 0⟩
  | front :: _ =>
    queue.foldl (accumulate front.deviceTimestamp front.systemTimestamp) ⟨0, 0, 0, 0⟩

/-- The denominator `samplingQueue_.size() * Exx - Ex * Ex` of both quotients. -/
def fitDenominator (queue : List TimestampPair) : ℚ :=
  (queue.length : ℚ) * (fitSums queue).Exx - (fitSums queue).Ex * (fitSums queue).Ex

/-- The model that `fittingLoop` publishes from a queue (lines 110 to 134): least squares over
the queued samples, the front sample subtracted as offset.  A division by zero has the value 0
here and not the value of the `double` division; the results about the quotients are stated for
a non-zero denominator. -/
def fitLinearFunc (queue : List TimestampPair) (devTime sysTspUsec : Nat) : LinearFuncParam :=
  let offset_x := (queue.headD ⟨0, 0⟩).deviceTimestamp
  let offset_y := (queue.headD ⟨0, 0⟩).systemTimestamp
  let s := fitSums queue
  let size : ℚ := (queue.length : ℚ)
  let coefficientA := (s.Exy * size - s.Ex * s.Ey) / (size * s.Exx - s.Ex * s.Ex)
  let constantB := (s.Exx * s.Ey - s.Exy * s.Ex) / (size * s.Exx - s.Ex * s.Ex)
    + (offset_y : ℚ) - coefficientA * (offset_x : ℚ)
  { coefficientA := coefficientA, constantB := constantB
    checkDataX := devTime, checkDataY := sysTspUsec }

/-- The sample that the `try` block of `fittingLoop` yields: `none` when the read throws or the
round trip `sysTsp2Usec - sysTsp1Usec` is above 2000, else the pair
`{ (sysTsp2Usec + sysTsp1Usec) / 2, devTime.time }`. -/
def takeSample (r : DeviceTimeRead) : Option TimestampPair :=
  match r.devTime with
  | none => none
  | some time =>
    let sysTspUsec := addU64 r.sysTsp2Usec r.sysTsp1Usec / 2
    let rtt := subU64 r.sysTsp2Usec r.sysTsp1Usec
    if rtt > 2000 then none else some ⟨sysTspUsec, time⟩

/-- The queue after the eviction at the top of an iteration. -/
def evictOldest (cfg : FilterConfig) (queue : List TimestampPair) : List TimestampPair :=
  if queue.length > cfg.maxQueueSize then queue.tail else queue

/-- The queue after the out-of-order check and `push_back` of a new sample. -/
def enqueueSample (queue : List TimestampPair) (p : TimestampPair) : List TimestampPair :=
  let queue :=
    match queue.getLast? with
    | some back => if p.deviceTimestamp < back.deviceTimestamp then [] else queue
    | none => queue
  queue ++ [p]

/-- One pass through the body of the `do ... while` loop of `fittingLoop`. -/
def iteration (cfg : FilterConfig) (s : FilterState) (r : DeviceTimeRead) : FilterState :=
  let queue := evictOldest cfg s.samplingQueue
  match takeSample r with
  | none => { s with samplingQueue := queue, retryCount := s.retryCount + 1 }
  | some p =>
    let queue := enqueueSample queue p
    if queue.length < 4 then
      { s with samplingQueue := queue, retryCount := 0 }
    else
      { samplingQueue := queue
        linearFuncParam := fitLinearFunc queue p.deviceTimestamp p.systemTimestamp
        retryCount := 0 }

/-- The `do ... while(!sampleLoopExit_ && retryCount <= MAX_RETRY_COUNT)` loop from a given
state, over the observations of its successive iterations; each comes with the value of
`sampleLoopExit_` read by the loop condition after that iteration.  The result is the state when
the loop has ended or the observations are used up. -/
def runLoop (cfg : FilterConfig) : FilterState → List (DeviceTimeRead × Bool) → FilterState
  | s, [] => s
  | s, (r, sampleLoopExit) :: rest =>
    let s := iteration cfg s r
    if !sampleLoopExit && decide (s.retryCount ≤ MAX_RETRY_COUNT) then runLoop cfg s rest else s

/-- `void GlobalTimestampFilter::fittingLoop()`: the loop entered with `retryCount = 0` on the
members as they are. -/
def fittingLoop (cfg : FilterConfig) (samplingQueue : List TimestampPair)
    (linearFuncParam : LinearFuncParam) (reads : List (DeviceTimeRead × Bool)) : FilterState :=
  runLoop cfg ⟨samplingQueue, linearFuncParam, 0⟩ reads

/-! ## Concrete data for evaluations -/

/-- A sample configuration: at most 100 queued samples, refresh every 1000 ms. -/
def sampleConfig : FilterConfig := ⟨100, 1000⟩

/-- A read that succeeds with a round trip of zero: the host clock shows `host` before and after
the read and the device reports `dev`. -/
def readAt (host dev : Nat) : DeviceTimeRead := ⟨host, some dev, host⟩

/-- Four samples on the line `host = 2 * device + 1000`, device times 0 to 3. -/
def lineWindow : List TimestampPair := [⟨1000, 0⟩, ⟨1002, 1⟩, ⟨1004, 2⟩, ⟨1006, 3⟩]

/-- The reads that produce `lineWindow`, the loop not being asked to exit. -/
def lineReads : List DeviceTimeRead := [readAt 1000 0, readAt 1002 1, readAt 1004 2, readAt 1006 3]

/-- Four samples on the line `host = 2 * device + 1000` in increasing order, the last one
`2^32 - 1` device ticks after the first. -/
def wideWindow : List TimestampPair :=
  [⟨1000, 0⟩, ⟨1002, 1⟩, ⟨1004, 2⟩, ⟨8589935590, 4294967295⟩]

/-- The reads that produce `wideWindow`, the loop not being asked to exit. -/
def wideReads : List (DeviceTimeRead × Bool) :=
  [(readAt 1000 0, false), (readAt 1002 1, false), (readAt 1004 2, false),
    (readAt 8589935590 4294967295, false)]

/-! ## Re-fit requests, pause and resume -/

/-- `void GlobalTimestampFilter::reFitting()`: clears the sample queue. -/
def reFitting (s : FilterState) : FilterState := { s with samplingQueue := [] }

/-- What changes the members once the loop runs: a pass through the loop body with what its
`try` block observes, or a call of `reFitting` from another thread (it takes the queue's mutex,
which the loop releases only while it waits between two passes). -/
inductive FilterEvent where
  | loopIteration (r : DeviceTimeRead)
  | reFittingCall
  deriving DecidableEq, Repr

/-- The state after an event. -/
def applyEvent (cfg : FilterConfig) (s : FilterState) : FilterEvent → FilterState
  | .loopIteration r => iteration cfg s r
  | .reFittingCall => reFitting s

/-- The samples that a sequence of events collects, in order. -/
def eventSamples (es : List FilterEvent) : List TimestampPair :=
  es.filterMap fun e =>
    match e with
    | .loopIteration r => takeSample r
    | .reFittingCall => none

/-- Number of passes through the loop body that `runLoop` makes on the given observations. -/
def iterationsRun (cfg : FilterConfig) : FilterState → List (DeviceTimeRead × Bool) → Nat
  | _, [] => 0
  | s, (r, sampleLoopExit) :: rest =>
    let s := iteration cfg s r
    if !sampleLoopExit && decide (s.retryCount ≤ MAX_RETRY_COUNT) then
      1 + iterationsRun cfg s rest
    else 1

/-- `void GlobalTimestampFilter::pause()`: sets `sampleLoopExit_` and joins the thread.  The loop
is in state `s`; it completes the pass it is in, if it is in one (`pending` is what that pass
observes), reads the flag as set and ends.  The result is the state the members are left in. -/
def pause (cfg : FilterConfig) (s : FilterState) (pending : Option DeviceTimeRead) :
    FilterState :=
  match pending with
  | none => s
  | some r => runLoop cfg s [(r, true)]

/-- `void GlobalTimestampFilter::resume()`: clears `sampleLoopExit_` and starts a thread that
runs `fittingLoop` on the members as they are; `s` is the state `pause` left. -/
def resume (cfg : FilterConfig) (s : FilterState) (reads : List (DeviceTimeRead × Bool)) :
    FilterState :=
  fittingLoop cfg s.samplingQueue s.linearFuncParam reads

/-- A read that fails: the device-time request throws. -/
def failedRead : DeviceTimeRead := ⟨0, none, 0⟩

/-- Five failed reads followed by a read that succeeds, the loop not being asked to exit. -/
def fiveFailuresThenSample : List (DeviceTimeRead × Bool) :=
  [(failedRead, false), (failedRead, false), (failedRead, false), (failedRead, false),
    (failedRead, false), (readAt 1000 0, false)]

/-- A state at pause time: three samples on `host = 2 * device + 1000` in the queue, nothing
published yet. -/
def pausedState : FilterState := ⟨[⟨1000, 0⟩, ⟨1002, 1⟩, ⟨1004, 2⟩], ⟨0, 0, 0, 0⟩, 0⟩

/-! ## Order of the queue and further windows -/

/-- The queued samples are in non-decreasing order of device timestamp, front first. -/
def nonDecreasing (queue : List TimestampPair) : Prop :=
  queue.Pairwise fun a b => a.deviceTimestamp ≤ b.deviceTimestamp

instance (queue : List TimestampPair) : Decidable (nonDecreasing queue) := by
  unfold nonDecreasing; infer_instance

/-- Reads in increasing device time whose host clock has been set back by the fourth read. -/
def setBackReads : List (DeviceTimeRead × Bool) :=
  [(readAt 1000 0, false), (readAt 1002 1, false), (readAt 1004 2, false),
    (readAt 900 3, false)]

/-- The queue that `setBackReads` leaves: the last host time is below the first one. -/
def setBackWindow : List TimestampPair := [⟨1000, 0⟩, ⟨1002, 1⟩, ⟨1004, 2⟩, ⟨900, 3⟩]

/-- Reads in increasing device time, the last one `2^32` device ticks after the first. -/
def longReads : List (DeviceTimeRead × Bool) :=
  [(readAt 1000 0, false), (readAt 1002 1, false), (readAt 1004 2, false),
    (readAt 8589935592 4294967296, false)]

/-- The queue that `longReads` leaves. -/
def longWindow : List TimestampPair :=
  [⟨1000, 0⟩, ⟨1002, 1⟩, ⟨1004, 2⟩, ⟨8589935592, 4294967296⟩]

/-- Four reads that all report the device time 5. -/
def equalTimeReads : List (DeviceTimeRead × Bool) :=
  [(readAt 1000 5, false), (readAt 1002 5, false), (readAt 1004 5, false),
    (readAt 1006 5, false)]

/-- The queue that `equalTimeReads` leaves. -/
def equalTimeWindow : List TimestampPair := [⟨1000, 5⟩, ⟨1002, 5⟩, ⟨1004, 5⟩, ⟨1006, 5⟩]

end GlobalTimestampFilter

/-! ## Calibration records

The record types of `ObTypes.h` and `InternalTypes.hpp`, with the members that the source
files name.  A `float` or `double` member is a rational number, an `int16_t` member an `Int`, a
`uint8_t` or `uint32_t` member a `Nat`. -/

/-- The struct `OBCameraIntrinsic`: focal lengths and principal point (`float`), image size
(`int16_t`). -/
structure OBCameraIntrinsic where
  fx : ℚ
  fy : ℚ
  cx : ℚ
  cy : ℚ
  width : Int
  height : Int
  deriving DecidableEq

/-- The enum `OBCameraDistortionModel`; `OB_DISTORTION_OTHER` stands for the enumerators that the
source files do not name. -/
inductive OBCameraDistortionModel where
  | OB_DISTORTION_BROWN_CONRADY
  | OB_DISTORTION_BROWN_CONRADY_K6
  | OB_DISTORTION_OTHER (code : Nat)
  deriving DecidableEq, Repr

/-- The struct `OBCameraDistortion`: radial coefficients `k1` to `k6`, tangential coefficients
`p1` and `p2` (`float`), and the distortion model. -/
structure OBCameraDistortion where
  k1 : ℚ
  k2 : ℚ
  k3 : ℚ
  k4 : ℚ
  k5 : ℚ
  k6 : ℚ
  p1 : ℚ
  p2 : ℚ
  model : OBCameraDistortionModel
  deriving DecidableEq

/-- The struct `OBExtrinsic` (also named `OBD2CTransform`): a row-major 3x3 rotation `rot[9]` and
a translation `trans[3]`, both `float`. -/
structure OBExtrinsic where
  rot : Fin 9 → ℚ
  trans : Fin 3 → ℚ
  deriving DecidableEq

/-- The struct `OBCameraParam`: one camera-parameter record. -/
structure OBCameraParam where
  depthIntrinsic : OBCameraIntrinsic
  rgbIntrinsic : OBCameraIntrinsic
  depthDistortion : OBCameraDistortion
  rgbDistortion : OBCameraDistortion
  transform : OBExtrinsic
  isMirrored : Bool
  deriving DecidableEq

/-- The values of the member `alignType` of a D2C profile; `ALIGN_OTHER` stands for a byte that is
none of the four named values. -/
inductive D2CAlignType where
  | ALIGN_UNSUPPORTED
  | ALIGN_D2C_HW_MODE
  | ALIGN_D2C_SW
  | ALIGN_D2C_HW_SW_BOTH
  | ALIGN_OTHER (code : Nat)
  deriving DecidableEq, Repr

/-- The member `postProcessParam` of a D2C profile: scale factor (`float`) and the four paddings
(`int16_t`). -/
structure OBD2CPostProcessParam where
  depthScale : ℚ
  alignLeft : Int
  alignTop : Int
  alignRight : Int
  alignBottom : Int
  deriving DecidableEq

/-- The struct `OBD2CProfile`. -/
structure OBD2CProfile where
  colorWidth : Int
  colorHeight : Int
  depthWidth : Int
  depthHeight : Int
  alignType : D2CAlignType
  paramIndex : Nat
  postProcessParam : OBD2CPostProcessParam
  deriving DecidableEq

/-- The struct `OBAccelIntrinsic`: the members `bias[3]` and `scaleMisalignment[9]` (`double`)
that the source files name, and, in `otherMembers`, the bytes of all its other members. -/
structure OBAccelIntrinsic where
  bias : Fin 3 → ℚ
  scaleMisalignment : Fin 9 → ℚ
  otherMembers : Nat → Nat

/-- The struct `OBGyroIntrinsic`: the members `bias[3]` and `scaleMisalignment[9]` (`double`)
that the source files name, and, in `otherMembers`, the bytes of all its other members. -/
structure OBGyroIntrinsic where
  bias : Fin 3 → ℚ
  scaleMisalignment : Fin 9 → ℚ
  otherMembers : Nat → Nat

/-- The struct `OBSingleIMUParams`, the parameter block of one IMU unit: the members that the
source files name (`double` arrays) and, in `otherMembers`, the bytes of all its other
members. -/
structure OBSingleIMUParams where
  body_to_gyroscope : Fin 9 → ℚ
  acc_to_gyro_factor : Fin 9 → ℚ
  acc : OBAccelIntrinsic
  gyro : OBGyroIntrinsic
  imu_to_cam_extrinsics : Fin 16 → ℚ
  otherMembers : Nat → Nat

/-- The struct `OBIMUCalibrateParams`: `validNum` (`uint8_t`) and `singleIMUParams[3]`. -/
structure OBIMUCalibrateParams where
  validNum : Nat
  singleIMUParams : Fin 3 → OBSingleIMUParams

/-- What the source files take from the declarations of the record types: the `sizeof` of the
three record types and the value that a pointer cast `*(T *)p` reads from the `sizeof(T)` bytes
at `p`.  The declarations are in `ObTypes.h` and `InternalTypes.hpp`, which are not at hand, so
these are parameters. -/
structure RecordLayout where
  sizeofOBCameraParam : Nat
  sizeofOBD2CProfile : Nat
  sizeofOBSingleIMUParams : Nat
  castOBCameraParam : List Nat → OBCameraParam
  castOBD2CProfile : List Nat → OBD2CProfile
  castOBSingleIMUParams : List Nat → OBSingleIMUParams

/-- The macro `D2C_PARAMS_ITEM_SIZE` of `AlgParseHelper.hpp`. -/
def D2C_PARAMS_ITEM_SIZE : Nat := 0xB0

/-- The macro `IMU_CALIBRATION_FILE_OFFSET` of `AlgParseHelper.hpp`. -/
def IMU_CALIBRATION_FILE_OFFSET : Nat := 60

/-- Number of values of a `uint32_t`. -/
def U32 : Nat := 4294967296

/-- The `len` bytes at `offset` of a buffer that holds the bytes `data`; `none` when the range
is not inside the buffer (the read has no defined result). -/
def readBytes (data : List Nat) (offset len : Nat) : Option (List Nat) :=
  if offset + len ≤ data.length then some ((data.drop offset).take len) else none

/-- The value of `static_cast<int>(n)` for an unsigned `n`: the low 32 bits read as a signed
number. -/
def castToInt (n : Nat) : Int :=
  if n % U32 < 2147483648 then ((n % U32 : Nat) : Int) else ((n % U32 : Nat) : Int) - (U32 : Int)

/-- The loop `for(int i = 0; i < count; i++) output.push_back(*(T *)(data + i * stride))`, entered
at index `i` with `output` and `remaining = count - i` passes to go. -/
def parseRecordsFrom {α : Type} (cast : List Nat → α) (recordSize stride : Nat)
    (data : List Nat) : Nat → Nat → List α → Option (List α)
  | 0, _, output => some output
  | remaining + 1, i, output =>
    match readBytes data (i * stride) recordSize with
    | none => none
    | some bytes => parseRecordsFrom cast recordSize stride data remaining (i + 1)
        (output ++ [cast bytes])

namespace AlgParseHelper

/-- `AlgParseHelper::alignCalibParamParse(data, size)`: `data` are the bytes of the buffer that
the pointer refers to, `size` the `uint32_t` argument.  The offset `i * D2C_PARAMS_ITEM_SIZE` is
taken as the exact product. -/
def alignCalibParamParse (L : RecordLayout) (data : List Nat) (size : Nat) :
    Option (List OBCameraParam) :=
  parseRecordsFrom L.castOBCameraParam L.sizeofOBCameraParam D2C_PARAMS_ITEM_SIZE data
    (castToInt (size / D2C_PARAMS_ITEM_SIZE)).toNat 0 []

/-- `AlgParseHelper::d2cProfileInfoParse(data, size)`. -/
def d2cProfileInfoParse (L : RecordLayout) (data : List Nat) (size : Nat) :
    Option (List OBD2CProfile) :=
  parseRecordsFrom L.castOBD2CProfile L.sizeofOBD2CProfile L.sizeofOBD2CProfile data
    (castToInt (size / L.sizeofOBD2CProfile)).toNat 0 []

end AlgParseHelper

namespace IMUCorrector

/-- An accelerometer intrinsic whose bytes are all zero. -/
def zeroAccelIntrinsic : OBAccelIntrinsic := ⟨fun _ => 0, fun _ => 0, fun _ => 0⟩

/-- A gyroscope intrinsic whose bytes are all zero. -/
def zeroGyroIntrinsic : OBGyroIntrinsic := ⟨fun _ => 0, fun _ => 0, fun _ => 0⟩

/-- A per-unit parameter block whose bytes are all zero. -/
def zeroSingleIMUParams : OBSingleIMUParams :=
  ⟨fun _ => 0, fun _ => 0, zeroAccelIntrinsic, zeroGyroIntrinsic, fun _ => 0, fun _ => 0⟩

/-- The value of `OBIMUCalibrateParams params{}` and of the struct after
`memset(&params, 0, sizeof(OBIMUCalibrateParams))`: every byte is zero. -/
def zeroIMUCalibrateParams : OBIMUCalibrateParams := ⟨0, fun _ => zeroSingleIMUParams⟩

/-- The loop `for(int i = 0; i < params.validNum; i++)` of `parserIMUCalibParamRaw`, entered at
index `i` with `remaining = validNum - i` passes to go. -/
def copyUnitsFrom (L : RecordLayout) (data : List Nat) :
    Nat → Nat → OBIMUCalibrateParams → Option OBIMUCalibrateParams
  | 0, _, params => some params
  | remaining + 1, i, params =>
    match readBytes data (i * L.sizeofOBSingleIMUParams) L.sizeofOBSingleIMUParams with
    | none => none
    | some bytes =>
      if h : i < 3 then
        copyUnitsFrom L data remaining (i + 1)
          { params with
            singleIMUParams :=
              Function.update params.singleIMUParams ⟨i, h⟩ (L.castOBSingleIMUParams bytes) }
      else none

/-- `IMUCorrector::parserIMUCalibParamRaw(data, size)`: `paramCount` is the quotient truncated to
a `uint8_t`. -/
def parserIMUCalibParamRaw (L : RecordLayout) (data : List Nat) (size : Nat) :
    Option OBIMUCalibrateParams :=
  let singleIMUParamSize := L.sizeofOBSingleIMUParams
  let paramCount := (size / singleIMUParamSize) % 256
  let params := zeroIMUCalibrateParams
  let params := { params with validNum := if paramCount > 3 then 3 else paramCount }
  copyUnitsFrom L data params.validNum 0 params

/-- The array `IdentityMatrix3x3` of `getDefaultImuCalibParam`. -/
def IdentityMatrix3x3 : Fin 9 → ℚ := ![1, 0, 0, 0, 1, 0, 0, 0, 1]

/-- The array `IdentityMatrix4x4` of `getDefaultImuCalibParam`. -/
def IdentityMatrix4x4 : Fin 16 → ℚ := ![1, 0, 0, 0, 0, 1, 0, 0, 0, 0, 1, 0, 0, 0, 0, 1]

/-- `IMUCorrector::getDefaultImuCalibParam()`: the struct is zeroed by `memset` and five arrays of
unit 0 are overwritten by `memcpy`. -/
def getDefaultImuCalibParam : OBIMUCalibrateParams :=
  let params := zeroIMUCalibrateParams
  let unit0 := params.singleIMUParams 0
  let unit0 := { unit0 with imu_to_cam_extrinsics := IdentityMatrix4x4 }
  let unit0 := { unit0 with body_to_gyroscope := IdentityMatrix3x3 }
  let unit0 := { unit0 with acc_to_gyro_factor := IdentityMatrix3x3 }
  let unit0 := { unit0 with acc := { unit0.acc with scaleMisalignment := IdentityMatrix3x3 } }
  let unit0 := { unit0 with gyro := { unit0.gyro with scaleMisalignment := IdentityMatrix3x3 } }
  { params with singleIMUParams := Function.update params.singleIMUParams 0 unit0 }

end IMUCorrector


/-! ## Stream profiles and D2C matching -/

/-- The stream types that the source files name; `OB_STREAM_OTHER` stands for the others. -/
inductive OBStreamType where
  | OB_STREAM_DEPTH
  | OB_STREAM_IR
  | OB_STREAM_IR_LEFT
  | OB_STREAM_IR_RIGHT
  | OB_STREAM_COLOR
  | OB_STREAM_OTHER (code : Nat)
  deriving DecidableEq, Repr

open OBStreamType D2CAlignType

/-- A `VideoStreamProfile` as the resolver reads it: `getType()`, `getWidth()` and `getHeight()`
(both `uint32_t`). -/
structure VideoStreamProfile where
  type : OBStreamType
  width : Nat
  height : Nat
  deriving DecidableEq, Repr

/-- A stream profile handed to `bindIntrinsic`: an `AccelStreamProfile`, a `GyroStreamProfile`, or
a profile taken as a `VideoStreamProfile`. -/
inductive StreamProfile where
  | accel
  | gyro
  | video (vsp : VideoStreamProfile)
  deriving DecidableEq, Repr

/-- The value of `static_cast<uint32_t>(v)` for an `int16_t` value `v`. -/
def castToU32 (v : Int) : Nat := (v % (U32 : Int)).toNat

/-- The test `alignType != ALIGN_D2C_SW && alignType != ALIGN_D2C_HW_SW_BOTH` fails: the entry is
not skipped. -/
def usesSoftwareAlign (d2cProfile : OBD2CProfile) : Bool :=
  !(decide (d2cProfile.alignType ≠ ALIGN_D2C_SW)
    && decide (d2cProfile.alignType ≠ ALIGN_D2C_HW_SW_BOTH))

/-- The test on the stream type shared by both loops of `findBestMatchedD2CProfile`. -/
def isDepthClass (streamType : OBStreamType) : Bool :=
  decide (streamType = OB_STREAM_DEPTH) || decide (streamType = OB_STREAM_IR)
    || decide (streamType = OB_STREAM_IR_LEFT) || decide (streamType = OB_STREAM_IR_RIGHT)

/-- The condition under which the first loop of `findBestMatchedD2CProfile` takes an entry
("match same resolution"); the depth branch compares `depthWidth` with the width and with the
height of the profile, as the source does. -/
def matchesResolution (profile : VideoStreamProfile) (d2cProfile : OBD2CProfile) : Bool :=
  usesSoftwareAlign d2cProfile
    && ((isDepthClass profile.type
          && decide (castToU32 d2cProfile.depthWidth = profile.width)
          && decide (castToU32 d2cProfile.depthWidth = profile.height))
        || (decide (profile.type = OB_STREAM_COLOR)
          && decide (castToU32 d2cProfile.colorWidth = profile.width)
          && decide (castToU32 d2cProfile.colorHeight = profile.height)))

/-- The condition under which the second loop of `findBestMatchedD2CProfile` takes an entry
("match same ratio"); the `float` quotients are exact quotients here, and a quotient by zero
has the value 0 and not the value of the `float` division. -/
def matchesRatio (profile : VideoStreamProfile) (d2cProfile : OBD2CProfile) : Bool :=
  let ratio : ℚ := (profile.width : ℚ) / (profile.height : ℚ)
  usesSoftwareAlign d2cProfile
    && ((isDepthClass profile.type
          && decide ((d2cProfile.depthWidth : ℚ) / (d2cProfile.depthHeight : ℚ) = ratio))
        || (decide (profile.type = OB_STREAM_COLOR)
          && decide ((d2cProfile.colorWidth : ℚ) / (d2cProfile.colorHeight : ℚ) = ratio)))

/-- `bool findBestMatchedD2CProfile(d2cProfileList, profile, result)`: the returned flag and the
value of the reference argument `result` after the call.  Each loop stops at the first entry it
takes. -/
def findBestMatchedD2CProfile (d2cProfileList : List OBD2CProfile)
    (profile : VideoStreamProfile) (result : OBD2CProfile) : Bool × OBD2CProfile :=
  match d2cProfileList.find? (matchesResolution profile) with
  | some d2cProfile => (true, d2cProfile)
  | none =>
    match d2cProfileList.find? (matchesRatio profile) with
    | some d2cProfile => (true, d2cProfile)
    | none => (false, result)

/-! ## `AlgParamManagerBase::bindIntrinsic` -/

/-- The value of `OBD2CProfile d2cProfile{}`: every member zero (the zero byte of `alignType` is
taken to be `ALIGN_UNSUPPORTED`). -/
def zeroD2CProfile : OBD2CProfile := ⟨0, 0, 0, 0, ALIGN_UNSUPPORTED, 0, ⟨0, 0, 0, 0, 0⟩⟩

/-- The exceptions that leave `bindIntrinsic`: `unsupported_operation_exception` with its
message, `std::out_of_range` thrown by `std::vector::at`, and an exception that comes out of the
property server. -/
inductive BindException where
  | unsupported_operation_exception (msg : String)
  | out_of_range
  | propertyServerException (code : Nat)
  deriving DecidableEq, Repr

/-- What the block at the top of `bindIntrinsic` gets from the property server for
`OB_PROP_DEPTH_MIRROR_MODULE_STATUS_BOOL`: the property is not supported, or it is read with a
value, or a call throws. -/
inductive MirrorQuery where
  | notSupported
  | value (mirrored : Bool)
  | throws (code : Nat)
  deriving DecidableEq, Repr

/-- A call on the `StreamIntrinsicsManager` made by `bindIntrinsic`. -/
inductive Registration where
  | registerAccelStreamIntrinsics (sp : StreamProfile) (intrinsic : OBAccelIntrinsic)
  | registerGyroStreamIntrinsics (sp : StreamProfile) (intrinsic : OBGyroIntrinsic)
  | registerVideoStreamIntrinsics (sp : StreamProfile) (intrinsic : OBCameraIntrinsic)
  | registerVideoStreamDistortion (sp : StreamProfile) (distortion : OBCameraDistortion)

/-! ## `float` arithmetic

A `float` is an IEEE 754 binary32 number: 24 significant bits, exponents from -126 to 127,
results rounded to the nearest value, ties to even.  A result of magnitude `2^128` or more is an
infinity in the source and is not represented, nor are a NaN and the sign of a zero; no statement
relies on the value of `roundToFloat` there. -/

/-- The integer nearest to `x`, the even one of the two when `x` lies half-way between two
integers. -/
def roundHalfEven (x : ℚ) : Int :=
  if x - (⌊x⌋ : ℚ) < 1 / 2 then ⌊x⌋
  else if 1 / 2 < x - (⌊x⌋ : ℚ) then ⌊x⌋ + 1
  else if ⌊x⌋ % 2 = 0 then ⌊x⌋ else ⌊x⌋ + 1

/-- The exponent of the spacing of the `float` values around `x`: `⌊log2 |x|⌋ - 23`, and
`-149` for the subnormal values. -/
def spacingExponent (x : ℚ) : Int := max (Int.log 2 |x|) (-126) - 23

/-- The `float` nearest to `x`, ties to even: the value of a `float` operation whose exact
result is `x`. -/
def roundToFloat (x : ℚ) : ℚ :=
  (roundHalfEven (x / (2 : ℚ) ^ spacingExponent x) : ℚ) * (2 : ℚ) ^ spacingExponent x

/-- The rational `x` is a finite `float` value. -/
def isFloat (x : ℚ) : Prop := roundToFloat x = x ∧ |x| < (2 : ℚ) ^ (128 : Int)

instance (x : ℚ) : Decidable (isFloat x) := by
  unfold isFloat; infer_instance

/-- The value of `static_cast<int16_t>(x)` for a `float` `x`: the fraction is dropped.  The result
for an `x` outside the range of `int16_t` is not defined by the language; the integer part is
kept here. -/
def floatToInt16 (x : ℚ) : Int := if 0 ≤ x then ⌊x⌋ else ⌈x⌉

/-- The value of `static_cast<int16_t>(n)` for a `uint32_t` value `n`: the low 16 bits read as a
signed number. -/
def u32ToInt16 (n : Nat) : Int :=
  if n % 65536 < 32768 then ((n % 65536 : Nat) : Int) else ((n % 65536 : Nat) : Int) - 65536

/-- The `else` branch of the loop body of `bindIntrinsic`, for one video stream profile: the
intrinsic and the distortion that are registered, or the exception thrown.  Every `float`
operation rounds its result; an `int16_t` converts to `float` without rounding, and
`(float)1.0 * intrinsic.width` is the width as a `float`.  A quotient by zero has the value 0 and
not the value of the `float` division. -/
def resolveVideoIntrinsic (mirrored : Bool) (d2cProfileList : List OBD2CProfile)
    (calibrationCameraParamList : List OBCameraParam) (vsp : VideoStreamProfile) :
    Except BindException (OBCameraIntrinsic × OBCameraDistortion) :=
  let d2cProfile : OBD2CProfile := zeroD2CProfile
  let found := findBestMatchedD2CProfile d2cProfileList vsp d2cProfile
  if !found.1 then
    .error (.unsupported_operation_exception "Can not find matched camera param!")
  else
    let d2cProfile := found.2
    match calibrationCameraParamList.get? d2cProfile.paramIndex with
    | none => .error .out_of_range
    | some param =>
      let postProcessParam := d2cProfile.postProcessParam
      let streamType := vsp.type
      let intrinsic := if streamType = OB_STREAM_COLOR then param.rgbIntrinsic
        else param.depthIntrinsic
      let distortion := if streamType = OB_STREAM_COLOR then param.rgbDistortion
        else param.depthDistortion
      -- mirror intrinsic
      let intrinsic := if mirrored then
          { intrinsic with
            cx := roundToFloat (roundToFloat (1 * (intrinsic.width : ℚ) - intrinsic.cx) - 1) }
        else intrinsic
      let distortion := if mirrored then { distortion with p2 := -distortion.p2 }
        else distortion
      let postProcessParam := if mirrored then
          { postProcessParam with
            alignLeft := postProcessParam.alignRight, alignRight := postProcessParam.alignLeft }
        else postProcessParam
      let intrinsic := if streamType = OB_STREAM_COLOR then
          { fx := roundToFloat (postProcessParam.depthScale * intrinsic.fx)
            fy := roundToFloat (postProcessParam.depthScale * intrinsic.fy)
            cx := roundToFloat (roundToFloat (postProcessParam.depthScale * intrinsic.cx)
              + (postProcessParam.alignLeft : ℚ))
            cy := roundToFloat (roundToFloat (postProcessParam.depthScale * intrinsic.cy)
              + (postProcessParam.alignTop : ℚ))
            width := floatToInt16 (roundToFloat (roundToFloat
              (roundToFloat (postProcessParam.depthScale * (intrinsic.width : ℚ))
                + (postProcessParam.alignLeft : ℚ)) + (postProcessParam.alignRight : ℚ)))
            height := floatToInt16 (roundToFloat (roundToFloat
              (roundToFloat (postProcessParam.depthScale * (intrinsic.height : ℚ))
                + (postProcessParam.alignTop : ℚ)) + (postProcessParam.alignBottom : ℚ))) }
        else intrinsic
      let ratio : ℚ := roundToFloat (roundToFloat (vsp.width : ℚ) / (intrinsic.width : ℚ))
      let intrinsic : OBCameraIntrinsic :=
        { fx := roundToFloat (intrinsic.fx * ratio)
          fy := roundToFloat (intrinsic.fy * ratio)
          cx := roundToFloat (intrinsic.cx * ratio)
          cy := roundToFloat (intrinsic.cy * ratio)
          width := u32ToInt16 vsp.width
          height := floatToInt16 (roundToFloat ((intrinsic.height : ℚ) * ratio)) }
      .ok (intrinsic, distortion)

/-- What a call of `bindIntrinsic` does: the registrations made, in order, and the exception it
ends with, if it throws. -/
structure BindResult where
  registered : List Registration
  thrown : Option BindException

/-- The loop `for(const auto &sp: streamProfileList)` of `bindIntrinsic`. -/
def bindIntrinsicLoop (mirrored : Bool) (imuCalibParam : OBIMUCalibrateParams)
    (d2cProfileList : List OBD2CProfile) (calibrationCameraParamList : List OBCameraParam) :
    List StreamProfile → List Registration → BindResult
  | [], registered => ⟨registered, none⟩
  | sp :: rest, registered =>
    match sp with
    | .accel =>
      bindIntrinsicLoop mirrored imuCalibParam d2cProfileList calibrationCameraParamList rest
        (registered ++ [.registerAccelStreamIntrinsics sp (imuCalibParam.singleIMUParams 0).acc])
    | .gyro =>
      bindIntrinsicLoop mirrored imuCalibParam d2cProfileList calibrationCameraParamList rest
        (registered ++ [.registerGyroStreamIntrinsics sp (imuCalibParam.singleIMUParams 0).gyro])
    | .video vsp =>
      match resolveVideoIntrinsic mirrored d2cProfileList calibrationCameraParamList vsp with
      | .error e => ⟨registered, some e⟩
      | .ok (intrinsic, distortion) =>
        bindIntrinsicLoop mirrored imuCalibParam d2cProfileList calibrationCameraParamList rest
          (registered ++ [.registerVideoStreamIntrinsics sp intrinsic,
            .registerVideoStreamDistortion sp distortion])

/-- `void AlgParamManagerBase::bindIntrinsic(streamProfileList)` on the members
`imuCalibParam_`, `d2cProfileList_` and `calibrationCameraParamList_`. -/
def bindIntrinsic (mirrorQuery : MirrorQuery) (imuCalibParam : OBIMUCalibrateParams)
    (d2cProfileList : List OBD2CProfile) (calibrationCameraParamList : List OBCameraParam)
    (streamProfileList : List StreamProfile) : BindResult :=
  match mirrorQuery with
  | .throws code => ⟨[], some (.propertyServerException code)⟩
  | .notSupported =>
    bindIntrinsicLoop false imuCalibParam d2cProfileList calibrationCameraParamList
      streamProfileList []
  | .value mirrored =>
    bindIntrinsicLoop mirrored imuCalibParam d2cProfileList calibrationCameraParamList
      streamProfileList []


/-! ## `TOFDeviceCommandAlgParamManager::fetchParamFromDevice` -/

/-- One call of `propServer->getRawData(id, callback, PROP_ACCESS_INTERNAL)` inside
`BEGIN_TRY_EXECUTE`: the invocations of the callback, each with whether its state is
`DATA_TRAN_STAT_TRANSFERRING` and with the bytes of its chunk, and whether the block ends with an
exception. -/
structure RawDataTransfer where
  chunks : List (Bool × List Nat)
  throws : Bool
  deriving DecidableEq, Repr

/-- The vector `data` after the `try` block and its handler: the chunks received in state
`DATA_TRAN_STAT_TRANSFERRING` one after the other, or nothing when the block threw (the handler
clears `data`). -/
def collectRawData (t : RawDataTransfer) : List Nat :=
  if t.throws then []
  else (t.chunks.filter fun c => c.1).flatMap fun c => c.2

/-- The members `calibrationCameraParamList_`, `d2cProfileList_` and `imuCalibParam_`. -/
structure AlgParamMembers where
  calibrationCameraParamList : List OBCameraParam
  d2cProfileList : List OBD2CProfile
  imuCalibParam : OBIMUCalibrateParams

/-- The record that the first loop of `fetchParamFromDevice` appends for a parsed record. -/
def toCalibrationCameraParam (cameraParam : OBCameraParam) : OBCameraParam :=
  { depthIntrinsic := cameraParam.depthIntrinsic
    rgbIntrinsic := cameraParam.rgbIntrinsic
    depthDistortion :=
      { cameraParam.depthDistortion with
        model := OBCameraDistortionModel.OB_DISTORTION_BROWN_CONRADY_K6 }
    rgbDistortion :=
      { cameraParam.rgbDistortion with
        model := OBCameraDistortionModel.OB_DISTORTION_BROWN_CONRADY }
    transform := cameraParam.transform
    isMirrored := false }

/-- The first part of `fetchParamFromDevice`: the camera-parameter list after it. -/
def fetchCameraParams (L : RecordLayout) (calibrationCameraParamList : List OBCameraParam)
    (transfer : RawDataTransfer) : Option (List OBCameraParam) :=
  let data := collectRawData transfer
  if data ≠ [] then
    match AlgParseHelper.alignCalibParamParse L data (data.length % U32) with
    | none => none
    | some cameraParamList =>
      some (calibrationCameraParamList ++ cameraParamList.map toCalibrationCameraParam)
  else some calibrationCameraParamList

/-- The second part of `fetchParamFromDevice`: the D2C profile list after it. -/
def fetchD2CProfiles (L : RecordLayout) (d2cProfileList : List OBD2CProfile)
    (transfer : RawDataTransfer) : Option (List OBD2CProfile) :=
  let data := collectRawData transfer
  if data ≠ [] then AlgParseHelper.d2cProfileInfoParse L data (data.length % U32)
  else some d2cProfileList

/-- The third part of `fetchParamFromDevice`: the IMU calibration after it.  `realSize` is the
`uint32_t` difference, `realData` the buffer from byte 60 on. -/
def fetchImuCalibParam (L : RecordLayout) (transfer : RawDataTransfer) :
    Option OBIMUCalibrateParams :=
  let data := collectRawData transfer
  if data ≠ [] then
    let realData := data.drop IMU_CALIBRATION_FILE_OFFSET
    let realSize := (data.length % U32 + U32 - IMU_CALIBRATION_FILE_OFFSET) % U32
    IMUCorrector.parserIMUCalibParamRaw L realData realSize
  else some IMUCorrector.getDefaultImuCalibParam

/-- `void TOFDeviceCommandAlgParamManager::fetchParamFromDevice()` on the members, with the three
raw-data transfers it makes; `none` when a record is read from outside its buffer. -/
def fetchParamFromDevice (L : RecordLayout) (members : AlgParamMembers)
    (alignCalibParam d2cProfileList imuCalibParam : RawDataTransfer) : Option AlgParamMembers :=
  match fetchCameraParams L members.calibrationCameraParamList alignCalibParam with
  | none => none
  | some cameraParams =>
    match fetchD2CProfiles L members.d2cProfileList d2cProfileList with
    | none => none
    | some d2cProfiles =>
      match fetchImuCalibParam L imuCalibParam with
      | none => none
      | some imu => some ⟨cameraParams, d2cProfiles, imu⟩

/-- The members of a `TOFDeviceCommandAlgParamManager` when its constructor calls
`fetchParamFromDevice`: both lists are empty; the IMU calibration, which the function overwrites
in every case, is given as a zeroed struct. -/
def initialMembers : AlgParamMembers := ⟨[], [], IMUCorrector.zeroIMUCalibrateParams⟩

/-! ## Concrete data for evaluations -/

/-- A sample record layout: 164, 24 and 688 bytes for the three record types; the casts read
nothing from the bytes and return all-zero records. -/
def sampleLayout : RecordLayout where
  sizeofOBCameraParam := 164
  sizeofOBD2CProfile := 24
  sizeofOBSingleIMUParams := 688
  castOBCameraParam := fun _ =>
    ⟨⟨0, 0, 0, 0, 0, 0⟩, ⟨0, 0, 0, 0, 0, 0⟩,
      ⟨0, 0, 0, 0, 0, 0, 0, 0, OBCameraDistortionModel.OB_DISTORTION_OTHER 0⟩,
      ⟨0, 0, 0, 0, 0, 0, 0, 0, OBCameraDistortionModel.OB_DISTORTION_OTHER 0⟩,
      ⟨fun _ => 0, fun _ => 0⟩, false⟩
  castOBD2CProfile := fun _ => zeroD2CProfile
  castOBSingleIMUParams := fun _ => IMUCorrector.zeroSingleIMUParams

/-- A software-capable D2C entry with the given depth and color sizes, parameter index 0, scale 1
and no padding. -/
def swProfile (depthWidth depthHeight colorWidth colorHeight : Int) : OBD2CProfile :=
  ⟨colorWidth, colorHeight, depthWidth, depthHeight, ALIGN_D2C_SW, 0, ⟨1, 0, 0, 0, 0⟩⟩

/-- A transfer that delivers the given bytes in one chunk. -/
def oneChunk (bytes : List Nat) : RawDataTransfer := ⟨[(true, bytes)], false⟩

/-- A transfer that throws. -/
def failedTransfer : RawDataTransfer := ⟨[], true⟩


/-- Entry `(i, j)` of a 3x3 matrix stored row by row in an array of 9. -/
def entry3x3 (m : Fin 9 → ℚ) (i j : Fin 3) : ℚ := m ⟨3 * i.val + j.val, by omega⟩

/-- Entry `(i, j)` of a 4x4 matrix stored row by row in an array of 16. -/
def entry4x4 (m : Fin 16 → ℚ) (i j : Fin 4) : ℚ := m ⟨4 * i.val + j.val, by omega⟩

/-- A camera-parameter record with 640x576 depth and 1280x720 color intrinsics, no distortion
and the identity transform. -/
def sampleCameraParam : OBCameraParam :=
  ⟨⟨500, 500, 320, 288, 640, 576⟩, ⟨1000, 1000, 640, 360, 1280, 720⟩,
    ⟨0, 0, 0, 0, 0, 0, 0, 0, OBCameraDistortionModel.OB_DISTORTION_BROWN_CONRADY_K6⟩,
    ⟨0, 0, 0, 0, 0, 0, 0, 0, OBCameraDistortionModel.OB_DISTORTION_BROWN_CONRADY⟩,
    ⟨IMUCorrector.IdentityMatrix3x3, fun _ => 0⟩, false⟩


/-! ## `CameraParamProcessor`: mirror, flip, rotation, composition and inversion

The functions of `CameraParamProcess.cpp`.  A function that changes a record through a pointer
is the function from the record before the call to the record after it.  The subtractions on
the principal point round their results to `float`; `(float)1.0 * intrinsic->width` is the
`int16_t` width as a `float`, and a product with `1.0` or `-1.0` is exact.  `multiplyExtrinsic`
and `inverseExtrinsic` are given in exact arithmetic. -/

namespace CameraParamProcessor

/-- `void cameraIntrinsicParamsMirror(OBCameraIntrinsic *intrinsic)`. -/
def cameraIntrinsicParamsMirror (intrinsic : OBCameraIntrinsic) : OBCameraIntrinsic :=
  { intrinsic with
    cx := roundToFloat (roundToFloat (1 * (intrinsic.width : ℚ) - intrinsic.cx) - 1) }

/-- `void distortionParamMirror(OBCameraDistortion *distort)`. -/
def distortionParamMirror (distort : OBCameraDistortion) : OBCameraDistortion :=
  { distort with p2 := distort.p2 * (-1) }

/-- The assignment `array[i] *= factor` on an array of `float`. -/
def scaleEntry {n : Nat} (array : Fin n → ℚ) (i : Fin n) (factor : ℚ) : Fin n → ℚ :=
  Function.update array i (array i * factor)

/-- `void d2cTransformParamsMirror(OBD2CTransform *transform)`. -/
def d2cTransformParamsMirror (transform : OBExtrinsic) : OBExtrinsic :=
  let rot := scaleEntry transform.rot 1 (-1)
  let rot := scaleEntry rot 2 (-1)
  let rot := scaleEntry rot 3 (-1)
  let rot := scaleEntry rot 6 (-1)
  let trans := scaleEntry transform.trans 0 (-1)
  { rot := rot, trans := trans }

/-- `void cameraIntrinsicParamsFlip(OBCameraIntrinsic *intrinsic)`. -/
def cameraIntrinsicParamsFlip (intrinsic : OBCameraIntrinsic) : OBCameraIntrinsic :=
  { intrinsic with
    cy := roundToFloat (roundToFloat (1 * (intrinsic.height : ℚ) - intrinsic.cy) - 1) }

/-- `void distortionParamFlip(OBCameraDistortion *distort)`. -/
def distortionParamFlip (distort : OBCameraDistortion) : OBCameraDistortion :=
  { distort with p1 := distort.p1 * (-1) }

/-- `void d2cTransformParamsFlip(OBD2CTransform *transform)`. -/
def d2cTransformParamsFlip (transform : OBExtrinsic) : OBExtrinsic :=
  let rot := scaleEntry transform.rot 1 (-1)
  let rot := scaleEntry rot 3 (-1)
  let rot := scaleEntry rot 5 (-1)
  let rot := scaleEntry rot 7 (-1)
  let trans := scaleEntry transform.trans 1 (-1)
  { rot := rot, trans := trans }

/-- `void mirrorCameraParam(OBCameraParam *cameraParam)`. -/
def mirrorCameraParam (cameraParam : OBCameraParam) : OBCameraParam :=
  { cameraParam with
    rgbIntrinsic := cameraIntrinsicParamsMirror cameraParam.rgbIntrinsic
    depthIntrinsic := cameraIntrinsicParamsMirror cameraParam.depthIntrinsic
    rgbDistortion := distortionParamMirror cameraParam.rgbDistortion
    depthDistortion := distortionParamMirror cameraParam.depthDistortion
    transform := d2cTransformParamsMirror cameraParam.transform }

/-- `void flipCameraParam(OBCameraParam *cameraParam)`. -/
def flipCameraParam (cameraParam : OBCameraParam) : OBCameraParam :=
  { cameraParam with
    rgbIntrinsic := cameraIntrinsicParamsFlip cameraParam.rgbIntrinsic
    depthIntrinsic := cameraIntrinsicParamsFlip cameraParam.depthIntrinsic
    rgbDistortion := distortionParamFlip cameraParam.rgbDistortion
    depthDistortion := distortionParamFlip cameraParam.depthDistortion
    transform := d2cTransformParamsFlip cameraParam.transform }

/-- `void cameraIntrinsicParamsRotate90(OBCameraIntrinsic *intrinsic)`. -/
def cameraIntrinsicParamsRotate90 (intrinsic : OBCameraIntrinsic) : OBCameraIntrinsic :=
  let tmp := intrinsic.fx
  let fx := intrinsic.fy
  let fy := tmp
  let tmp := intrinsic.cx
  let cx := roundToFloat (roundToFloat (1 * (intrinsic.height : ℚ) - intrinsic.cy) - 1)
  let cy := tmp
  let resTmp := intrinsic.width
  let width := intrinsic.height
  let height := resTmp
  { fx := fx, fy := fy, cx := cx, cy := cy, width := width, height := height }

/-- `void distortionParamRotate90(OBCameraDistortion *distort)`. -/
def distortionParamRotate90 (distort : OBCameraDistortion) : OBCameraDistortion :=
  let tmp := distort.p1
  { distort with p1 := distort.p2, p2 := -1 * tmp }

/-- `void d2cTransformParamsRotate90(OBD2CTransform *transform)`. -/
def d2cTransformParamsRotate90 (transform : OBExtrinsic) : OBExtrinsic :=
  let rot := scaleEntry transform.rot 1 1
  let rot := scaleEntry rot 3 1
  let rot := scaleEntry rot 5 1
  let rot := scaleEntry rot 7 1
  let tmp := transform.trans 0
  let trans := Function.update transform.trans 0 (-1 * transform.trans 1)
  let trans := Function.update trans 1 tmp
  { rot := rot, trans := trans }

/-- `void cameraIntrinsicParamsRotate180(OBCameraIntrinsic *intrinsic)`. -/
def cameraIntrinsicParamsRotate180 (intrinsic : OBCameraIntrinsic) : OBCameraIntrinsic :=
  { intrinsic with
    cx := roundToFloat (roundToFloat (1 * (intrinsic.width : ℚ) - intrinsic.cx) - 1)
    cy := roundToFloat (roundToFloat (1 * (intrinsic.height : ℚ) - intrinsic.cy) - 1) }

/-- `void distortionParamRotate180(OBCameraDistortion *distort)`. -/
def distortionParamRotate180 (distort : OBCameraDistortion) : OBCameraDistortion :=
  { distort with p1 := distort.p1 * (-1), p2 := distort.p2 * (-1) }

/-- `void d2cTransformParamsRotate180(OBD2CTransform *transform)`. -/
def d2cTransformParamsRotate180 (transform : OBExtrinsic) : OBExtrinsic :=
  let rot := scaleEntry transform.rot 2 (-1)
  let rot := scaleEntry rot 5 (-1)
  let rot := scaleEntry rot 6 (-1)
  let rot := scaleEntry rot 7 (-1)
  let trans := scaleEntry transform.trans 0 (-1)
  let trans := scaleEntry trans 1 (-1)
  { rot := rot, trans := trans }

/-- `void cameraIntrinsicParamsRotate270(OBCameraIntrinsic *intrinsic)`. -/
def cameraIntrinsicParamsRotate270 (intrinsic : OBCameraIntrinsic) : OBCameraIntrinsic :=
  let tmp := intrinsic.fx
  let fx := intrinsic.fy
  let fy := tmp
  let tmp := intrinsic.cy
  let cy := roundToFloat (roundToFloat (1 * (intrinsic.width : ℚ) - intrinsic.cx) - 1)
  let cx := tmp
  let resTmp := intrinsic.width
  let width := intrinsic.height
  let height := resTmp
  { fx := fx, fy := fy, cx := cx, cy := cy, width := width, height := height }

/-- `void distortionParamRotate270(OBCameraDistortion *distort)`. -/
def distortionParamRotate270 (distort : OBCameraDistortion) : OBCameraDistortion :=
  let tmp := distort.p1
  { distort with p1 := -1 * distort.p2, p2 := tmp }

/-- `void d2cTransformParamsRotate270(OBD2CTransform *transform)`. -/
def d2cTransformParamsRotate270 (transform : OBExtrinsic) : OBExtrinsic :=
  let rot := scaleEntry transform.rot 2 1
  let rot := scaleEntry rot 5 1
  let rot := scaleEntry rot 6 1
  let rot := scaleEntry rot 7 1
  let tmp := transform.trans 0
  let trans := Function.update transform.trans 0 (transform.trans 1)
  let trans := Function.update trans 1 (-1 * tmp)
  { rot := rot, trans := trans }

/-- `void rotateCameraParam(OBCameraParam *cameraParam, int rotateAngle)`: the `switch` has the
cases 90, 180 and 270 and no default. -/
def rotateCameraParam (cameraParam : OBCameraParam) (rotateAngle : Int) : OBCameraParam :=
  if rotateAngle = 90 then
    { cameraParam with
      rgbIntrinsic := cameraIntrinsicParamsRotate90 cameraParam.rgbIntrinsic
      depthIntrinsic := cameraIntrinsicParamsRotate90 cameraParam.depthIntrinsic
      rgbDistortion := distortionParamRotate90 cameraParam.rgbDistortion
      depthDistortion := distortionParamRotate90 cameraParam.depthDistortion
      transform := d2cTransformParamsRotate90 cameraParam.transform }
  else if rotateAngle = 180 then
    { cameraParam with
      rgbIntrinsic := cameraIntrinsicParamsRotate180 cameraParam.rgbIntrinsic
      depthIntrinsic := cameraIntrinsicParamsRotate180 cameraParam.depthIntrinsic
      rgbDistortion := distortionParamRotate180 cameraParam.rgbDistortion
      depthDistortion := distortionParamRotate180 cameraParam.depthDistortion
      transform := d2cTransformParamsRotate180 cameraParam.transform }
  else if rotateAngle = 270 then
    { cameraParam with
      rgbIntrinsic := cameraIntrinsicParamsRotate270 cameraParam.rgbIntrinsic
      depthIntrinsic := cameraIntrinsicParamsRotate270 cameraParam.depthIntrinsic
      rgbDistortion := distortionParamRotate270 cameraParam.rgbDistortion
      depthDistortion := distortionParamRotate270 cameraParam.depthDistortion
      transform := d2cTransformParamsRotate270 cameraParam.transform }
  else cameraParam

/-- `OBExtrinsic multiplyExtrinsic(const OBExtrinsic &extrinsic1, const OBExtrinsic &extrinsic2)`:
the two loops assign `rot[i * 3 + j]` for `i, j < 3`, that is every entry of `rot` once. -/
def multiplyExtrinsic (extrinsic1 extrinsic2 : OBExtrinsic) : OBExtrinsic where
  rot := fun idx =>
    let i : Fin 3 := ⟨idx.val / 3, by omega⟩
    let j : Fin 3 := ⟨idx.val % 3, by omega⟩
    extrinsic1.rot ⟨i.val * 3, by omega⟩ * extrinsic2.rot ⟨j.val, by omega⟩
      + extrinsic1.rot ⟨i.val * 3 + 1, by omega⟩ * extrinsic2.rot ⟨j.val + 3, by omega⟩
      + extrinsic1.rot ⟨i.val * 3 + 2, by omega⟩ * extrinsic2.rot ⟨j.val + 6, by omega⟩
  trans :=
    ![extrinsic1.rot 0 * extrinsic2.trans 0 + extrinsic1.rot 1 * extrinsic2.trans 1
        + extrinsic1.rot 2 * extrinsic2.trans 2 + extrinsic1.trans 0,
      extrinsic1.rot 3 * extrinsic2.trans 0 + extrinsic1.rot 4 * extrinsic2.trans 1
        + extrinsic1.rot 5 * extrinsic2.trans 2 + extrinsic1.trans 1,
      extrinsic1.rot 6 * extrinsic2.trans 0 + extrinsic1.rot 7 * extrinsic2.trans 1
        + extrinsic1.rot 8 * extrinsic2.trans 2 + extrinsic1.trans 2]

/-- `OBExtrinsic inverseExtrinsic(const OBExtrinsic &extrinsic)`. -/
def inverseExtrinsic (extrinsic : OBExtrinsic) : OBExtrinsic :=
  let invRot : Fin 9 → ℚ :=
    ![extrinsic.rot 0, extrinsic.rot 3, extrinsic.rot 6,
      extrinsic.rot 1, extrinsic.rot 4, extrinsic.rot 7,
      extrinsic.rot 2, extrinsic.rot 5, extrinsic.rot 8]
  { rot := invRot
    trans :=
      ![-invRot 0 * extrinsic.trans 0 - invRot 1 * extrinsic.trans 1
          - invRot 2 * extrinsic.trans 2,
        -invRot 3 * extrinsic.trans 0 - invRot 4 * extrinsic.trans 1
          - invRot 5 * extrinsic.trans 2,
        -invRot 6 * extrinsic.trans 0 - invRot 7 * extrinsic.trans 1
          - invRot 8 * extrinsic.trans 2] }

/-- The 3x3 rotation of an extrinsic as a matrix: entry `(i, j)` is `rot[3 * i + j]`. -/
def rotation (extrinsic : OBExtrinsic) : Matrix (Fin 3) (Fin 3) ℚ :=
  Matrix.of fun i j => entry3x3 extrinsic.rot i j

/-- The identity extrinsic: identity rotation and zero translation. -/
def identityExtrinsic : OBExtrinsic :=
  ⟨IMUCorrector.IdentityMatrix3x3, fun _ => 0⟩

/-- A camera-parameter record with distinct values in its fields, the transform a rotation
about the optical axis with a translation. -/
def turnedCameraParam : OBCameraParam :=
  ⟨⟨500, 510, 321, 287, 640, 576⟩, ⟨1000, 1010, 641, 359, 1280, 720⟩,
    ⟨1, 2, 3, 4, 5, 6, 7, 8, OBCameraDistortionModel.OB_DISTORTION_BROWN_CONRADY_K6⟩,
    ⟨8, 7, 6, 5, 4, 3, 2, 1, OBCameraDistortionModel.OB_DISTORTION_BROWN_CONRADY⟩,
    ⟨![3 / 5, -4 / 5, 0, 4 / 5, 3 / 5, 0, 0, 0, 1], ![10, 20, 30]⟩, false⟩

/-- The subtractions `size - c` and `(size - c) - 1` of a mirror or of a quarter turn, and the
two subtractions of the function that undoes it, give `float` results without rounding: `c`,
`c + 1`, `size - c` and `size - c - 1` are finite `float` values. -/
def subtractsExactly (size : Int) (c : ℚ) : Prop :=
  isFloat c ∧ isFloat (c + 1) ∧ isFloat ((size : ℚ) - c) ∧ isFloat ((size : ℚ) - c - 1)

instance (size : Int) (c : ℚ) : Decidable (subtractsExactly size c) := by
  unfold subtractsExactly; infer_instance

/-- The `float` nearest to 200.3, written `200.3f` in C++: `13126861 * 2^-16`, about
200.300003. -/
def float200_3 : ℚ := 13126861 / 65536

/-- An intrinsic of a 640x576 image whose principal point is `(200.3f, 200.3f)`. -/
def offCentreIntrinsic : OBCameraIntrinsic := ⟨500, 500, float200_3, float200_3, 640, 576⟩

/-- A camera-parameter record with the intrinsic `offCentreIntrinsic` for depth and color, no
distortion and the identity transform. -/
def offCentreCameraParam : OBCameraParam :=
  ⟨offCentreIntrinsic, offCentreIntrinsic,
    ⟨0, 0, 0, 0, 0, 0, 0, 0, OBCameraDistortionModel.OB_DISTORTION_BROWN_CONRADY_K6⟩,
    ⟨0, 0, 0, 0, 0, 0, 0, 0, OBCameraDistortionModel.OB_DISTORTION_BROWN_CONRADY⟩,
    ⟨IMUCorrector.IdentityMatrix3x3, fun _ => 0⟩, false⟩

/-- A camera-parameter record with distinct values in its fields and principal points on half
pixels, the transform a quarter turn about the optical axis with a translation. -/
def halfPixelCameraParam : OBCameraParam :=
  ⟨⟨500, 510, 641 / 2, 575 / 2, 640, 576⟩, ⟨1000, 1010, 1281 / 2, 719 / 2, 1280, 720⟩,
    ⟨1, 2, 3, 4, 5, 6, 7, 8, OBCameraDistortionModel.OB_DISTORTION_BROWN_CONRADY_K6⟩,
    ⟨8, 7, 6, 5, 4, 3, 2, 1, OBCameraDistortionModel.OB_DISTORTION_BROWN_CONRADY⟩,
    ⟨![0, -1, 0, 1, 0, 0, 0, 0, 1], ![10, 20, 30]⟩, false⟩

end CameraParamProcessor

/-! ## `IMUCorrector`: correction of IMU samples -/

namespace IMUCorrector

end IMUCorrector


/-! ## The two halves of the video branch of `bindIntrinsic` -/

/-- The value of `roundHalfEven` from the integer part of its argument. -/
theorem roundHalfEven_of_floor (x : ℚ) (f : Int) (hf : ⌊x⌋ = f) :
    roundHalfEven x = if x - (f : ℚ) < 1 / 2 then f
      else if 1 / 2 < x - (f : ℚ) then f + 1
      else if f % 2 = 0 then f else f + 1 := by
  subst hf
  rfl

/-- An integer rounds to itself. -/
theorem roundHalfEven_intCast (n : Int) : roundHalfEven (n : ℚ) = n := by
  rw [roundHalfEven_of_floor _ n (Int.floor_intCast n)]
  simp

/-- The binary exponent of a number between `2^e` and `2^(e+1)`. -/
theorem log_eq_of_binade (x : ℚ) (e : Int) (h1 : (2 : ℚ) ^ e ≤ |x|)
    (h2 : |x| < (2 : ℚ) ^ (e + 1)) : Int.log 2 |x| = e := by
  have hpos : 0 < |x| := lt_of_lt_of_le (by positivity) h1
  have ha : e ≤ Int.log 2 |x| :=
    (Int.zpow_le_iff_le_log (by norm_num) hpos).1 (by exact_mod_cast h1)
  have hb : Int.log 2 |x| < e + 1 :=
    (Int.lt_zpow_iff_log_lt (by norm_num) hpos).1 (by exact_mod_cast h2)
  omega

/-- The `float` nearest to a number between `2^e` and `2^(e+1)`, `e ≥ -126`: the multiple of
`2^(e-23)` nearest to it. -/
theorem roundToFloat_of_binade (x : ℚ) (e : Int) (he : -126 ≤ e) (h1 : (2 : ℚ) ^ e ≤ |x|)
    (h2 : |x| < (2 : ℚ) ^ (e + 1)) :
    roundToFloat x = (roundHalfEven (x / (2 : ℚ) ^ (e - 23)) : ℚ) * (2 : ℚ) ^ (e - 23) := by
  unfold roundToFloat spacingExponent
  rw [log_eq_of_binade x e h1 h2, max_eq_left he]

/-- The spacing around `m * 2^k` with `|m| < 2^24` is at most `2^k`. -/
theorem spacingExponent_le (m k : Int) (hm : |m| < 2 ^ 24) (hm0 : m ≠ 0) (hk : -149 ≤ k) :
    spacingExponent ((m : ℚ) * (2 : ℚ) ^ k) ≤ k := by
  have h2k : (0 : ℚ) < (2 : ℚ) ^ k := by positivity
  have habs : |(m : ℚ) * (2 : ℚ) ^ k| = |(m : ℚ)| * (2 : ℚ) ^ k := by
    rw [abs_mul, abs_of_pos h2k]
  have hmq : |(m : ℚ)| < (2 : ℚ) ^ (24 : Int) := by
    have : ((|m| : Int) : ℚ) < ((2 ^ 24 : Int) : ℚ) := by exact_mod_cast hm
    rw [Int.cast_abs] at this
    norm_num at this ⊢
    exact this
  have hpos : 0 < |(m : ℚ) * (2 : ℚ) ^ k| := by
    rw [habs]
    have : 0 < |(m : ℚ)| := abs_pos.2 (by exact_mod_cast hm0)
    positivity
  have hlt : |(m : ℚ) * (2 : ℚ) ^ k| < (2 : ℚ) ^ (24 + k) := by
    rw [habs, zpow_add₀ (by norm_num : (2 : ℚ) ≠ 0)]
    exact mul_lt_mul_of_pos_right hmq h2k
  have hlog : Int.log 2 |(m : ℚ) * (2 : ℚ) ^ k| < 24 + k :=
    (Int.lt_zpow_iff_log_lt (by norm_num) hpos).1 (by exact_mod_cast hlt)
  unfold spacingExponent
  omega

/-- A number `m * 2^k` with `|m| < 2^24` and `k ≥ -149` rounds to itself. -/
theorem roundToFloat_exact (m k : Int) (hm : |m| < 2 ^ 24) (hk : -149 ≤ k) :
    roundToFloat ((m : ℚ) * (2 : ℚ) ^ k) = (m : ℚ) * (2 : ℚ) ^ k := by
  by_cases hm0 : m = 0
  · subst hm0
    simp [roundToFloat, roundHalfEven]
  · have hu := spacingExponent_le m k hm hm0 hk
    unfold roundToFloat
    generalize spacingExponent ((m : ℚ) * (2 : ℚ) ^ k) = u at hu
    obtain ⟨n, hn⟩ := Int.eq_ofNat_of_zero_le (show 0 ≤ k - u by omega)
    have hk' : k = u + (n : Int) := by omega
    have hquot : (m : ℚ) * (2 : ℚ) ^ k / (2 : ℚ) ^ u = ((m * 2 ^ n : Int) : ℚ) := by
      rw [hk', zpow_add₀ (by norm_num : (2 : ℚ) ≠ 0)]
      have : (2 : ℚ) ^ u ≠ 0 := by positivity
      field_simp
      ring
    rw [hquot, roundHalfEven_intCast, hk', zpow_add₀ (by norm_num : (2 : ℚ) ≠ 0),
      zpow_natCast]
    push_cast
    ring

/-- A number `m * 2^k` with `|m| < 2^24` and `-149 ≤ k ≤ 104` is a finite `float` value. -/
theorem isFloat_of_exact (m k : Int) (hm : |m| < 2 ^ 24) (hk : -149 ≤ k) (hk2 : k ≤ 104) :
    isFloat ((m : ℚ) * (2 : ℚ) ^ k) := by
  refine ⟨roundToFloat_exact m k hm hk, ?_⟩
  have h2k : (0 : ℚ) < (2 : ℚ) ^ k := by positivity
  have hmq : |(m : ℚ)| < (2 : ℚ) ^ (24 : Int) := by
    have : ((|m| : Int) : ℚ) < ((2 ^ 24 : Int) : ℚ) := by exact_mod_cast hm
    rw [Int.cast_abs] at this
    norm_num at this ⊢
    exact this
  have hle : (2 : ℚ) ^ k ≤ (2 : ℚ) ^ (104 : Int) := zpow_le_zpow_right₀ (by norm_num) hk2
  rw [abs_mul, abs_of_pos h2k]
  calc |(m : ℚ)| * (2 : ℚ) ^ k < (2 : ℚ) ^ (24 : Int) * (2 : ℚ) ^ k :=
        mul_lt_mul_of_pos_right hmq h2k
    _ ≤ (2 : ℚ) ^ (24 : Int) * (2 : ℚ) ^ (104 : Int) :=
        mul_le_mul_of_nonneg_left hle (by positivity)
    _ = (2 : ℚ) ^ (128 : Int) := by norm_num

/-- A multiple of `1/256` of magnitude at most 32768 is a finite `float` value. -/
theorem isFloat_of_multiple (x : ℚ) (m : Int) (hx : x = (m : ℚ) / 256) (hb : |x| ≤ 32768) :
    isFloat x := by
  have hm : |m| < 2 ^ 24 := by
    have h1 : |(m : ℚ)| ≤ 32768 * 256 := by
      have : (m : ℚ) = x * 256 := by rw [hx]; ring
      rw [this, abs_mul]
      have : |(256 : ℚ)| = 256 := abs_of_pos (by norm_num)
      rw [this]
      nlinarith [abs_nonneg x]
    have h2 : ((|m| : Int) : ℚ) ≤ 32768 * 256 := by rw [Int.cast_abs]; exact h1
    have h3 : |m| ≤ 32768 * 256 := by exact_mod_cast h2
    omega
  have := isFloat_of_exact m (-8) hm (by norm_num) (by norm_num)
  have hx2 : x = (m : ℚ) * (2 : ℚ) ^ (-8 : Int) := by rw [hx]; norm_num; ring
  rw [hx2]
  exact this


namespace protocol

open HpStatusCode

/-! ## `validateResp` -/

/-- C1: `validateResp` checks magic, correlation id, opcode, declared size and error code in
this order.  A wrong magic gives bad-magic whatever the other fields are; with the right magic a
wrong id gives wrong-id whatever opcode and size are; with magic and id right a wrong opcode
gives wrong-opcode whatever the size is; with these three right a declared size that does not
fit gives wrong-data-size whatever the error code is; and a status that is one of these four
carries the error code `HP_RESP_ERROR_UNKNOWN`. -/
theorem validateResp_check_order (k : HpConstants) (dataBuf : RespBuf)
    (dataSize expectedOpcode requestId : Nat) :
    (dataBuf.header.magic ≠ k.HP_RESPONSE_MAGIC →
      (validateResp k dataBuf dataSize expectedOpcode requestId).statusCode
        = HP_STATUS_DEVICE_RESPONSE_BAD_MAGIC)
    ∧ (dataBuf.header.magic = k.HP_RESPONSE_MAGIC → dataBuf.header.requestId ≠ requestId →
      (validateResp k dataBuf dataSize expectedOpcode requestId).statusCode
        = HP_STATUS_DEVICE_RESPONSE_WRONG_ID)
    ∧ (dataBuf.header.magic = k.HP_RESPONSE_MAGIC → dataBuf.header.requestId = requestId →
      dataBuf.header.opcode ≠ expectedOpcode →
      (validateResp k dataBuf dataSize expectedOpcode requestId).statusCode
        = HP_STATUS_DEVICE_RESPONSE_WRONG_OPCODE)
    ∧ (dataBuf.header.magic = k.HP_RESPONSE_MAGIC → dataBuf.header.requestId = requestId →
      dataBuf.header.opcode = expectedOpcode →
      respDataSizeOf dataBuf.header.sizeInHalfWords + k.HP_RESP_HEADER_SIZE > dataSize →
      (validateResp k dataBuf dataSize expectedOpcode requestId).statusCode
        = HP_STATUS_DEVICE_RESPONSE_WRONG_DATA_SIZE)
    ∧ ((validateResp k dataBuf dataSize expectedOpcode requestId).statusCode
          = HP_STATUS_DEVICE_RESPONSE_BAD_MAGIC
        ∨ (validateResp k dataBuf dataSize expectedOpcode requestId).statusCode
          = HP_STATUS_DEVICE_RESPONSE_WRONG_ID
        ∨ (validateResp k dataBuf dataSize expectedOpcode requestId).statusCode
          = HP_STATUS_DEVICE_RESPONSE_WRONG_OPCODE
        ∨ (validateResp k dataBuf dataSize expectedOpcode requestId).statusCode
          = HP_STATUS_DEVICE_RESPONSE_WRONG_DATA_SIZE →
      (validateResp k dataBuf dataSize expectedOpcode requestId).respErrorCode
        = k.HP_RESP_ERROR_UNKNOWN) := by
  refine ⟨?_, ?_, ?_, ?_, ?_⟩
  · intro h
    simp [validateResp, h]
  · intro h1 h2
    simp [validateResp, h1, h2]
  · intro h1 h2 h3
    simp [validateResp, h1, h2, h3]
  · intro h1 h2 h3 h4
    simp [validateResp, h1, h2, h3, h4]
  · unfold validateResp
    simp only []
    split_ifs <;> simp

/-- Witness of C1: a response whose magic is wrong and whose id, opcode and size are wrong as
well is reported as bad magic with the unknown error code. -/
theorem validateResp_check_order_witness :
    (validateResp sampleConstants (sampleResp 0 0xffff 9 9 5) 4 1 1).statusCode
        = HP_STATUS_DEVICE_RESPONSE_BAD_MAGIC
    ∧ (validateResp sampleConstants (sampleResp 0 0xffff 9 9 5) 4 1 1).respErrorCode
        = sampleConstants.HP_RESP_ERROR_UNKNOWN :=
  ⟨(validateResp_check_order sampleConstants (sampleResp 0 0xffff 9 9 5) 4 1 1).1 (by decide),
   (validateResp_check_order sampleConstants (sampleResp 0 0xffff 9 9 5) 4 1 1).2.2.2.2
     (Or.inl (by decide))⟩

/-- C2, as stated, fails: a response that declares `0x8001` half-words, received as 64 bytes
with matching magic, id and opcode and error code 0, passes the size check and is returned as Ok,
while its declared payload size `0x8001 * 2 - 2 = 65536` plus the header size exceeds 64. -/
theorem validateResp_declared_size_wraps :
    (validateResp sampleConstants (sampleResp 0x4252 0x8001 1 1 0) 64 1 1).statusCode
        = HP_STATUS_OK
    ∧ ¬ (((sampleResp 0x4252 0x8001 1 1 0).header.sizeInHalfWords : Int) * 2 - 2
          + (sampleConstants.HP_RESP_HEADER_SIZE : Int) ≤ 64) := by
  decide

/-- C2, amended: when `validateResp` gets past the size check (it returns Ok, DeviceWarning,
DeviceError or UnknownDeviceError), the payload size as the code computes it, the 16-bit value
`(sizeInHalfWords * 2 - 2) mod 2^16` that `getStructureDataSize` returns, plus the response
header size does not exceed the number of bytes received; and for every declared size of at most
`0x8000` half-words (0 included) the same bound holds for `sizeInHalfWords * 2 - 2` read over
the integers. -/
theorem validateResp_payload_within_received (k : HpConstants) (dataBuf : RespBuf)
    (dataSize expectedOpcode requestId : Nat)
    (h : (validateResp k dataBuf dataSize expectedOpcode requestId).statusCode = HP_STATUS_OK
      ∨ (validateResp k dataBuf dataSize expectedOpcode requestId).statusCode
          = HP_STATUS_DEVICE_RESPONSE_WARNING
      ∨ (validateResp k dataBuf dataSize expectedOpcode requestId).statusCode
          = HP_STATUS_DEVICE_RESPONSE_ERROR
      ∨ (validateResp k dataBuf dataSize expectedOpcode requestId).statusCode
          = HP_STATUS_DEVICE_RESPONSE_ERROR_UNKNOWN) :
    getStructureDataSize dataBuf.header + k.HP_RESP_HEADER_SIZE ≤ dataSize
    ∧ (dataBuf.header.sizeInHalfWords ≤ 0x8000 →
        (dataBuf.header.sizeInHalfWords : Int) * 2 - 2 + (k.HP_RESP_HEADER_SIZE : Int)
          ≤ (dataSize : Int)) := by
  have hsize : ¬ (respDataSizeOf dataBuf.header.sizeInHalfWords + k.HP_RESP_HEADER_SIZE
      > dataSize) := by
    intro hgt
    unfold validateResp at h
    simp only [] at h
    split_ifs at h <;> simp at h
  have hget : getStructureDataSize dataBuf.header
      = respDataSizeOf dataBuf.header.sizeInHalfWords := rfl
  refine ⟨by rw [hget]; omega, ?_⟩
  intro hle
  unfold respDataSizeOf sizeofErrorCode U16 at hsize
  omega

/-- Witness of C2 (amended): a response declaring 3 half-words (4 payload bytes) received as
64 bytes. -/
theorem validateResp_payload_within_received_witness :
    getStructureDataSize (sampleResp 0x4252 3 1 1 0).header
        + sampleConstants.HP_RESP_HEADER_SIZE ≤ 64
    ∧ ((sampleResp 0x4252 3 1 1 0).header.sizeInHalfWords ≤ 0x8000 →
        ((sampleResp 0x4252 3 1 1 0).header.sizeInHalfWords : Int) * 2 - 2
          + (sampleConstants.HP_RESP_HEADER_SIZE : Int) ≤ ((64 : Nat) : Int)) :=
  validateResp_payload_within_received sampleConstants (sampleResp 0x4252 3 1 1 0) 64 1 1
    (Or.inl (by decide))

/-- C3: for a response that passes the magic, id, opcode and size checks, `validateResp`
classifies the error code `e`: `e = 0` gives Ok with an empty message; a non-zero `e` equal to
`HP_RESP_ERROR_UNKNOWN` gives UnknownDeviceError; every other `e` from `0x8000` to `0xfffe` gives
DeviceWarning; every remaining non-zero `e` gives DeviceError; and in all four cases the status
carries `e` as its error code. -/
theorem validateResp_error_code_classes (k : HpConstants) (dataBuf : RespBuf)
    (dataSize expectedOpcode requestId : Nat)
    (hmagic : dataBuf.header.magic = k.HP_RESPONSE_MAGIC)
    (hid : dataBuf.header.requestId = requestId)
    (hop : dataBuf.header.opcode = expectedOpcode)
    (hsize : respDataSizeOf dataBuf.header.sizeInHalfWords + k.HP_RESP_HEADER_SIZE ≤ dataSize) :
    (validateResp k dataBuf dataSize expectedOpcode requestId).respErrorCode
        = dataBuf.header.errorCode
    ∧ (dataBuf.header.errorCode = 0 →
        (validateResp k dataBuf dataSize expectedOpcode requestId).statusCode = HP_STATUS_OK
        ∧ (validateResp k dataBuf dataSize expectedOpcode requestId).msg = [])
    ∧ (dataBuf.header.errorCode ≠ 0 → dataBuf.header.errorCode = k.HP_RESP_ERROR_UNKNOWN →
        (validateResp k dataBuf dataSize expectedOpcode requestId).statusCode
          = HP_STATUS_DEVICE_RESPONSE_ERROR_UNKNOWN)
    ∧ (dataBuf.header.errorCode ≠ k.HP_RESP_ERROR_UNKNOWN →
        0x8000 ≤ dataBuf.header.errorCode → dataBuf.header.errorCode ≤ 0xfffe →
        (validateResp k dataBuf dataSize expectedOpcode requestId).statusCode
          = HP_STATUS_DEVICE_RESPONSE_WARNING)
    ∧ (dataBuf.header.errorCode ≠ 0 → dataBuf.header.errorCode ≠ k.HP_RESP_ERROR_UNKNOWN →
        ¬ (0x8000 ≤ dataBuf.header.errorCode ∧ dataBuf.header.errorCode ≤ 0xfffe) →
        (validateResp k dataBuf dataSize expectedOpcode requestId).statusCode
          = HP_STATUS_DEVICE_RESPONSE_ERROR) := by
  have hsz : ¬ (respDataSizeOf dataBuf.header.sizeInHalfWords + k.HP_RESP_HEADER_SIZE
      > dataSize) := by omega
  refine ⟨?_, ?_, ?_, ?_, ?_⟩
  · unfold validateResp
    simp only [hmagic, hid, hop, hsz, HP_RESP_OK]
    split_ifs <;> simp_all
  · intro h0
    simp [validateResp, hmagic, hid, hop, hsz, HP_RESP_OK, h0]
  · intro h0 hu
    have hu0 : ¬ (k.HP_RESP_ERROR_UNKNOWN = 0) := by rw [← hu]; exact h0
    simp [validateResp, hmagic, hid, hop, hsz, HP_RESP_OK, hu, hu0]
  · intro hu hlo hhi
    have h0 : ¬ (dataBuf.header.errorCode = 0) := by omega
    simp [validateResp, hmagic, hid, hop, hsz, HP_RESP_OK, hu, h0, hlo, hhi]
  · intro h0 hu hr
    simp [validateResp, hmagic, hid, hop, hsz, HP_RESP_OK, hu, h0, hr]

/-- Witness of C3: error code `0x8005` on an otherwise valid response is a DeviceWarning that
carries `0x8005`. -/
theorem validateResp_error_code_classes_witness :
    (validateResp sampleConstants (sampleResp 0x4252 3 1 1 0x8005) 64 1 1).respErrorCode = 0x8005
    ∧ (validateResp sampleConstants (sampleResp 0x4252 3 1 1 0x8005) 64 1 1).statusCode
        = HP_STATUS_DEVICE_RESPONSE_WARNING :=
  ⟨(validateResp_error_code_classes sampleConstants (sampleResp 0x4252 3 1 1 0x8005) 64 1 1
      (by decide) (by decide) (by decide) (by decide)).1,
   (validateResp_error_code_classes sampleConstants (sampleResp 0x4252 3 1 1 0x8005) 64 1 1
      (by decide) (by decide) (by decide) (by decide)).2.2.2.1
      (by decide) (by decide) (by decide)⟩

/-- A response with the right magic and a correlation id other than the request's is reported
as wrong-id with the unknown error code. -/
theorem validateResp_wrong_id (k : HpConstants) (dataBuf : RespBuf)
    (dataSize expectedOpcode requestId : Nat)
    (hmagic : dataBuf.header.magic = k.HP_RESPONSE_MAGIC)
    (hid : dataBuf.header.requestId ≠ requestId) :
    (validateResp k dataBuf dataSize expectedOpcode requestId).statusCode
        = HP_STATUS_DEVICE_RESPONSE_WRONG_ID
    ∧ (validateResp k dataBuf dataSize expectedOpcode requestId).respErrorCode
        = k.HP_RESP_ERROR_UNKNOWN := by
  simp [validateResp, hmagic, hid]

/-! ## `execute` -/

/-- What the loop of `execute` adds to the record of port calls when entered with
`nRetriesLeft = n`: at most `n` calls, at least one when `n > 0`, each with the request and sizes
of the caller; every call but the last asks for a retry; the status returned is that of the last
call; and a last call that asks for a retry is the `n`-th.  Each recorded call holds what the
port returned for it. -/
theorem executeLoop_attempts {σ : Type} (k : HpConstants) (dataPort : VendorDataPort σ)
    (reqData : ReqBuf) (reqDataSize exceptRecLen opcode requestId : Nat) :
    ∀ (n : Nat) (s : ExecState σ),
      ∃ new : List Attempt,
        (executeLoop k dataPort reqData reqDataSize exceptRecLen opcode requestId n s).attempts
            = s.attempts ++ new
        ∧ new.length ≤ n
        ∧ (0 < n → new ≠ [])
        ∧ (new = [] →
            executeLoop k dataPort reqData reqDataSize exceptRecLen opcode requestId n s = s)
        ∧ (∀ a ∈ new, a.reqData = reqData ∧ a.reqDataSize = reqDataSize
            ∧ a.exceptRecLen = exceptRecLen
            ∧ ∃ (p : σ) (b : RespBuf),
                a.respData = (dataPort.sendAndReceive p reqData reqDataSize b exceptRecLen).2.1
                ∧ a.received
                  = (dataPort.sendAndReceive p reqData reqDataSize b exceptRecLen).2.2)
        ∧ (∀ a ∈ new.dropLast, attemptAsksRetry k opcode requestId a)
        ∧ (∀ last, new.getLast? = some last →
            (executeLoop k dataPort reqData reqDataSize exceptRecLen opcode requestId n s).hpStatus
                = attemptStatus k opcode requestId last
            ∧ (attemptAsksRetry k opcode requestId last → new.length = n)) := by
  intro n
  induction n with
  | zero =>
    intro s
    exact ⟨[], by simp [executeLoop], by simp, by simp, by simp [executeLoop], by simp, by simp,
      by simp⟩
  | succ n ih =>
    intro s
    cases hr : (dataPort.sendAndReceive s.port reqData reqDataSize s.respData exceptRecLen).2.2 with
    | none =>
      refine ⟨[⟨reqData, reqDataSize, exceptRecLen,
        (dataPort.sendAndReceive s.port reqData reqDataSize s.respData exceptRecLen).2.1, none⟩],
        ?_, by simp, by simp, by simp, ?_, by simp, ?_⟩
      · simp [executeLoop, hr]
      · intro a ha
        simp at ha
        subst ha
        exact ⟨rfl, rfl, rfl, s.port, s.respData, rfl, hr.symm⟩
      · intro last hlast
        simp at hlast
        subst hlast
        simp [executeLoop, hr, attemptStatus, attemptAsksRetry]
    | some len =>
      by_cases hbreak :
          (validateResp k
              (dataPort.sendAndReceive s.port reqData reqDataSize s.respData exceptRecLen).2.1
              (len % U16) opcode requestId).statusCode ≠ HP_STATUS_DEVICE_RESPONSE_WRONG_ID
          ∧ (validateResp k
              (dataPort.sendAndReceive s.port reqData reqDataSize s.respData exceptRecLen).2.1
              (len % U16) opcode requestId).respErrorCode ≠ k.HP_RESP_ERROR_DEVICE_BUSY
      · refine ⟨[⟨reqData, reqDataSize, exceptRecLen,
          (dataPort.sendAndReceive s.port reqData reqDataSize s.respData exceptRecLen).2.1,
          some len⟩], ?_, by simp, by simp, by simp, ?_, by simp, ?_⟩
        · simp [executeLoop, hr, hbreak]
        · intro a ha
          simp at ha
          subst ha
          exact ⟨rfl, rfl, rfl, s.port, s.respData, rfl, hr.symm⟩
        · intro last hlast
          simp at hlast
          subst hlast
          refine ⟨by simp [executeLoop, hr, hbreak, attemptStatus], ?_⟩
          intro hretry
          exfalso
          rcases hretry.2 with h | h
          · exact hbreak.1 (by simpa [attemptStatus] using h)
          · exact hbreak.2 (by simpa [attemptStatus] using h)
      · obtain ⟨new, hatt, hlen, hne, hnil, hreq, hdrop, hlast⟩ :=
          ih ⟨(dataPort.sendAndReceive s.port reqData reqDataSize s.respData exceptRecLen).1,
            (dataPort.sendAndReceive s.port reqData reqDataSize s.respData exceptRecLen).2.1,
            len % U16,
            validateResp k
              (dataPort.sendAndReceive s.port reqData reqDataSize s.respData exceptRecLen).2.1
              (len % U16) opcode requestId,
            s.attempts ++ [⟨reqData, reqDataSize, exceptRecLen,
              (dataPort.sendAndReceive s.port reqData reqDataSize s.respData exceptRecLen).2.1,
              some len⟩]⟩
        have hstep : executeLoop k dataPort reqData reqDataSize exceptRecLen opcode requestId
            (n + 1) s
            = executeLoop k dataPort reqData reqDataSize exceptRecLen opcode requestId n
              ⟨(dataPort.sendAndReceive s.port reqData reqDataSize s.respData exceptRecLen).1,
                (dataPort.sendAndReceive s.port reqData reqDataSize s.respData exceptRecLen).2.1,
                len % U16,
                validateResp k
                  (dataPort.sendAndReceive s.port reqData reqDataSize s.respData
                    exceptRecLen).2.1
                  (len % U16) opcode requestId,
                s.attempts ++ [⟨reqData, reqDataSize, exceptRecLen,
                  (dataPort.sendAndReceive s.port reqData reqDataSize s.respData
                    exceptRecLen).2.1,
                  some len⟩]⟩ := by
          simp only [executeLoop, hr]
          rw [if_neg hbreak]
        have hfirst : attemptAsksRetry k opcode requestId
            ⟨reqData, reqDataSize, exceptRecLen,
              (dataPort.sendAndReceive s.port reqData reqDataSize s.respData exceptRecLen).2.1,
              some len⟩ := by
          refine ⟨by simp, ?_⟩
          simp only [attemptStatus]
          by_contra hcon
          exact hbreak ⟨fun h => hcon (Or.inl h), fun h => hcon (Or.inr h)⟩
        refine ⟨⟨reqData, reqDataSize, exceptRecLen,
          (dataPort.sendAndReceive s.port reqData reqDataSize s.respData exceptRecLen).2.1,
          some len⟩ :: new, ?_, by simp; omega, by simp, by simp, ?_, ?_, ?_⟩
        · rw [hstep, hatt]
          simp
        · intro a ha
          rcases List.mem_cons.1 ha with h | h
          · subst h
            exact ⟨rfl, rfl, rfl, s.port, s.respData, rfl, hr.symm⟩
          · exact hreq a h
        · intro a ha
          cases new with
          | nil => simp at ha
          | cons b rest =>
            rw [List.dropLast_cons₂] at ha
            rcases List.mem_cons.1 ha with h | h
            · subst h
              exact hfirst
            · exact hdrop a h
        · intro last hl
          cases new with
          | nil =>
            simp at hl
            subst hl
            have hn0 : n = 0 := by
              by_contra hpos
              exact hne (Nat.pos_of_ne_zero hpos) rfl
            rw [hstep, hnil rfl]
            exact ⟨by simp [attemptStatus], fun _ => by simp [hn0]⟩
          | cons b rest =>
            have hl2 : (b :: rest).getLast? = some last := by
              simpa [List.getLast?_cons_cons] using hl
            obtain ⟨h1, h2⟩ := hlast last hl2
            rw [hstep]
            refine ⟨h1, fun hre => ?_⟩
            have := h2 hre
            simp only [List.length_cons] at this ⊢
            omega

/-- C5, as stated, fails: under `sampleConstants` (three attempts) a device that answers every
send with correlation id 7 to a request with id 1 is sent the request three times, not two,
before the wrong-id status is returned. -/
theorem execute_wrong_id_three_sends :
    (∀ (p : Unit) (b : RespBuf),
        (wrongIdPort.sendAndReceive p sampleReq 12 b
            (getExpectedRespSize sampleConstants sampleReq.header.opcode)).2.2 ≠ none
        ∧ (wrongIdPort.sendAndReceive p sampleReq 12 b
            (getExpectedRespSize sampleConstants sampleReq.header.opcode)).2.1.header.requestId
          ≠ sampleReq.header.requestId)
    ∧ (execute sampleConstants wrongIdPort () sampleReq 12 (sampleResp 0 0 0 0 0) 0).attempts.length
        = 3
    ∧ (execute sampleConstants wrongIdPort () sampleReq 12 (sampleResp 0 0 0 0 0)
        0).hpStatus.statusCode = HP_STATUS_DEVICE_RESPONSE_WRONG_ID := by
  refine ⟨fun p b => ⟨by simp [wrongIdPort], ?_⟩, by decide, by decide⟩
  simp [wrongIdPort, sampleResp, sampleReq]

/-- C5, amended: when the device answers every send with the response magic and a correlation
id different from the request's, `execute` sends the request exactly `HP_NOT_READY_RETRIES`
times (that many minus one additional attempts; one additional attempt when the constant is 2)
and then returns the wrong-id status with the unknown error code. -/
theorem execute_wrong_id_uses_all_retries {σ : Type} (k : HpConstants)
    (dataPort : VendorDataPort σ) (port : σ) (reqData : ReqBuf) (reqDataSize : Nat)
    (respData : RespBuf) (respDataSize : Nat)
    (hpos : 0 < k.HP_NOT_READY_RETRIES) (h16 : k.HP_NOT_READY_RETRIES < U16)
    (hdev : ∀ (p : σ) (b : RespBuf),
      (dataPort.sendAndReceive p reqData reqDataSize b
          (getExpectedRespSize k reqData.header.opcode)).2.2 ≠ none
      ∧ (dataPort.sendAndReceive p reqData reqDataSize b
          (getExpectedRespSize k reqData.header.opcode)).2.1.header.magic = k.HP_RESPONSE_MAGIC
      ∧ (dataPort.sendAndReceive p reqData reqDataSize b
          (getExpectedRespSize k reqData.header.opcode)).2.1.header.requestId
        ≠ reqData.header.requestId) :
    (execute k dataPort port reqData reqDataSize respData respDataSize).attempts.length
        = k.HP_NOT_READY_RETRIES
    ∧ (execute k dataPort port reqData reqDataSize respData respDataSize).hpStatus.statusCode
        = HP_STATUS_DEVICE_RESPONSE_WRONG_ID
    ∧ (execute k dataPort port reqData reqDataSize respData respDataSize).hpStatus.respErrorCode
        = k.HP_RESP_ERROR_UNKNOWN := by
  have hmod : k.HP_NOT_READY_RETRIES % U16 = k.HP_NOT_READY_RETRIES := Nat.mod_eq_of_lt h16
  obtain ⟨new, hatt, -, hne, -, hreq, -, hlast⟩ :=
    executeLoop_attempts k dataPort reqData reqDataSize
      (getExpectedRespSize k reqData.header.opcode) reqData.header.opcode
      reqData.header.requestId (k.HP_NOT_READY_RETRIES % U16)
      ⟨port, respData, respDataSize, k.defaultHpStatus, []⟩
  rw [hmod] at hne hlast
  have hatt2 : (execute k dataPort port reqData reqDataSize respData respDataSize).attempts
      = new := by
    simpa [execute] using hatt
  have hst : (execute k dataPort port reqData reqDataSize respData respDataSize).hpStatus
      = (executeLoop k dataPort reqData reqDataSize
          (getExpectedRespSize k reqData.header.opcode) reqData.header.opcode
          reqData.header.requestId (k.HP_NOT_READY_RETRIES % U16)
          ⟨port, respData, respDataSize, k.defaultHpStatus, []⟩).hpStatus := rfl
  rw [hmod] at hst
  rw [hatt2, hst]
  have hnew : new ≠ [] := hne hpos
  obtain ⟨last, hl⟩ : ∃ last, new.getLast? = some last := by
    cases hg : new.getLast? with
    | none => exact absurd (List.getLast?_eq_none_iff.1 hg) hnew
    | some last => exact ⟨last, rfl⟩
  obtain ⟨h1, h2⟩ := hlast last hl
  have hmem : last ∈ new := List.mem_of_getLast?_eq_some hl
  obtain ⟨-, -, -, p, b, hbuf, hrec⟩ := hreq last hmem
  obtain ⟨d1, d2, d3⟩ := hdev p b
  rw [← hrec] at d1
  rw [← hbuf] at d2 d3
  obtain ⟨len, hlen⟩ : ∃ len, last.received = some len := by
    cases hg : last.received with
    | none => exact absurd hg d1
    | some len => exact ⟨len, rfl⟩
  have hval : attemptStatus k reqData.header.opcode reqData.header.requestId last
      = validateResp k last.respData (len % U16) reqData.header.opcode
          reqData.header.requestId := by
    simp [attemptStatus, hlen]
  have hwrong := (validateResp_wrong_id k last.respData (len % U16) reqData.header.opcode
    reqData.header.requestId d2 d3)
  rw [h1, hval]
  refine ⟨h2 ⟨d1, Or.inl ?_⟩, hwrong.1, hwrong.2⟩
  rw [hval]
  exact hwrong.1

/-- Witness of C5 (amended): three sends under `sampleConstants` with `wrongIdPort`. -/
theorem execute_wrong_id_uses_all_retries_witness :
    (execute sampleConstants wrongIdPort () sampleReq 12 (sampleResp 0 0 0 0 0) 0).attempts.length
        = sampleConstants.HP_NOT_READY_RETRIES
    ∧ (execute sampleConstants wrongIdPort () sampleReq 12 (sampleResp 0 0 0 0 0)
        0).hpStatus.statusCode = HP_STATUS_DEVICE_RESPONSE_WRONG_ID
    ∧ (execute sampleConstants wrongIdPort () sampleReq 12 (sampleResp 0 0 0 0 0)
        0).hpStatus.respErrorCode = sampleConstants.HP_RESP_ERROR_UNKNOWN :=
  execute_wrong_id_uses_all_retries sampleConstants wrongIdPort () sampleReq 12
    (sampleResp 0 0 0 0 0) 0 (by decide) (by decide)
    (fun _ _ => ⟨by simp [wrongIdPort], rfl, by simp [wrongIdPort, sampleResp, sampleReq]⟩)

/-! ## Request construction -/

/-- The ceiling of half a natural number is the quotient `(n + 1) / 2` that the code computes. -/
theorem ceil_half_eq (n : Nat) : ⌈(n : ℚ) / 2⌉₊ = (n + 1) / 2 := by
  apply le_antisymm
  · rw [Nat.ceil_le]
    have h : n ≤ 2 * ((n + 1) / 2) := by omega
    have h2 : (n : ℚ) ≤ 2 * (((n + 1) / 2 : Nat) : ℚ) := by exact_mod_cast h
    linarith
  · have hc : (n : ℚ) / 2 ≤ (⌈(n : ℚ) / 2⌉₊ : ℚ) := Nat.le_ceil _
    have h2 : (n : ℚ) ≤ ((2 * ⌈(n : ℚ) / 2⌉₊ : Nat) : ℚ) := by
      push_cast
      linarith
    have h3 : n ≤ 2 * ⌈(n : ℚ) / 2⌉₊ := by exact_mod_cast h2
    omega

/-- C6: for every payload length `dataSize` from 0 to 65535, `initSetStructureDataReq` stores
exactly `2 + ceil(dataSize / 2)` in the 16-bit field `sizeInHalfWords` (the value is below
`2^16`, nothing wraps), and the first `dataSize` bytes of the request's data area are the
payload bytes. -/
theorem initSetStructureDataReq_size_and_payload (k : HpConstants) (ctr : Nat)
    (dataBuf : SetStructureDataReq) (propertyId : Nat) (data : List Nat) (dataSize : Nat)
    (hsize : dataSize ≤ 65535) (hdata : data.length = dataSize) :
    (initSetStructureDataReq k ctr dataBuf propertyId data dataSize).1.header.sizeInHalfWords
        = 2 + ⌈(dataSize : ℚ) / 2⌉₊
    ∧ (initSetStructureDataReq k ctr dataBuf propertyId data dataSize).1.header.sizeInHalfWords
        < U16
    ∧ (initSetStructureDataReq k ctr dataBuf propertyId data dataSize).1.data.take dataSize
        = data := by
  have hfield :
      (initSetStructureDataReq k ctr dataBuf propertyId data dataSize).1.header.sizeInHalfWords
        = (2 + (dataSize + 1) / 2) % U16 := rfl
  have hlt : 2 + (dataSize + 1) / 2 < U16 := by
    unfold U16
    omega
  rw [hfield, Nat.mod_eq_of_lt hlt, ceil_half_eq]
  refine ⟨rfl, hlt, ?_⟩
  show (data.take dataSize ++ dataBuf.data.drop dataSize).take dataSize = data
  rw [List.take_of_length_le (le_of_eq hdata)]
  rw [List.take_append_of_le_length (le_of_eq hdata.symm)]
  exact List.take_of_length_le (le_of_eq hdata)

/-- Witness of C6: a payload of 5 bytes gives `sizeInHalfWords = 2 + 3`. -/
theorem initSetStructureDataReq_size_and_payload_witness :
    (initSetStructureDataReq sampleConstants 0 ⟨⟨0, 0, 0, 0⟩, 0, [9, 9, 9, 9, 9, 9, 9, 9]⟩ 77
        [1, 2, 3, 4, 5] 5).1.header.sizeInHalfWords = 2 + ⌈((5 : Nat) : ℚ) / 2⌉₊
    ∧ (initSetStructureDataReq sampleConstants 0 ⟨⟨0, 0, 0, 0⟩, 0, [9, 9, 9, 9, 9, 9, 9, 9]⟩ 77
        [1, 2, 3, 4, 5] 5).1.header.sizeInHalfWords < U16
    ∧ (initSetStructureDataReq sampleConstants 0 ⟨⟨0, 0, 0, 0⟩, 0, [9, 9, 9, 9, 9, 9, 9, 9]⟩ 77
        [1, 2, 3, 4, 5] 5).1.data.take 5 = [1, 2, 3, 4, 5] :=
  initSetStructureDataReq_size_and_payload sampleConstants 0
    ⟨⟨0, 0, 0, 0⟩, 0, [9, 9, 9, 9, 9, 9, 9, 9]⟩ 77 [1, 2, 3, 4, 5] 5 (by decide) (by decide)

/-- After `n` calls the static counter of `generateRequestId` holds `n mod 2^16`. -/
theorem requestIdAfter_eq (n : Nat) : requestIdAfter n = n % U16 := by
  induction n with
  | zero => rfl
  | succ n ih =>
    show (requestIdAfter n + 1) % U16 = (n + 1) % U16
    rw [ih]
    unfold U16
    omega

/-- The `n`-th call of `generateRequestId` returns `n mod 2^16`. -/
theorem nthRequestId_eq (n : Nat) (hn : 1 ≤ n) : nthRequestId n = n % U16 := by
  show (requestIdAfter (n - 1) + 1) % U16 = n % U16
  rw [requestIdAfter_eq]
  unfold U16
  omega

/-- C7: the correlation id is a 16-bit counter that wraps silently.  The `n`-th call of
`generateRequestId` in a process returns `n mod 2^16` (1 on the first call, 0 on the 65536th);
consecutive calls return ids that differ by 1 modulo `2^16`; the ids of the `n`-th and the
`(n + j)`-th call are equal exactly when `2^16` divides `j`, so an id comes back first after
65536 requests; and each of the twelve request builders puts the id of one call of
`generateRequestId` into the header and advances the counter by that one call. -/
theorem requestId_is_wrapping_counter (k : HpConstants) :
    (∀ n, 1 ≤ n → nthRequestId n = n % 65536)
    ∧ nthRequestId 1 = 1
    ∧ nthRequestId 65536 = 0
    ∧ (∀ n, 1 ≤ n → nthRequestId (n + 1) = (nthRequestId n + 1) % 65536)
    ∧ (∀ n j, 1 ≤ n → (nthRequestId (n + j) = nthRequestId n ↔ 65536 ∣ j))
    ∧ (∀ ctr b p, (initGetPropertyReq k ctr b p).1.header.requestId = (generateRequestId ctr).1
        ∧ (initGetPropertyReq k ctr b p).2 = (generateRequestId ctr).2)
    ∧ (∀ ctr b p v,
        (initSetPropertyReq k ctr b p v).1.header.requestId = (generateRequestId ctr).1
        ∧ (initSetPropertyReq k ctr b p v).2 = (generateRequestId ctr).2)
    ∧ (∀ ctr b p,
        (initGetStructureDataReq k ctr b p).1.header.requestId = (generateRequestId ctr).1
        ∧ (initGetStructureDataReq k ctr b p).2 = (generateRequestId ctr).2)
    ∧ (∀ ctr b p d n,
        (initSetStructureDataReq k ctr b p d n).1.header.requestId = (generateRequestId ctr).1
        ∧ (initSetStructureDataReq k ctr b p d n).2 = (generateRequestId ctr).2)
    ∧ (∀ ctr b p, (initGetCmdVersionReq k ctr b p).1.header.requestId = (generateRequestId ctr).1
        ∧ (initGetCmdVersionReq k ctr b p).2 = (generateRequestId ctr).2)
    ∧ (∀ ctr b p,
        (initGetStructureDataV11Req k ctr b p).1.header.requestId = (generateRequestId ctr).1
        ∧ (initGetStructureDataV11Req k ctr b p).2 = (generateRequestId ctr).2)
    ∧ (∀ ctr b p,
        (initGetStructureDataListV11Req k ctr b p).1.header.requestId = (generateRequestId ctr).1
        ∧ (initGetStructureDataListV11Req k ctr b p).2 = (generateRequestId ctr).2)
    ∧ (∀ ctr b p,
        (initStartGetStructureDataList k ctr b p).1.header.requestId = (generateRequestId ctr).1
        ∧ (initStartGetStructureDataList k ctr b p).2 = (generateRequestId ctr).2)
    ∧ (∀ ctr b p o n,
        (initReadStructureDataList k ctr b p o n).1.header.requestId = (generateRequestId ctr).1
        ∧ (initReadStructureDataList k ctr b p o n).2 = (generateRequestId ctr).2)
    ∧ (∀ ctr b p,
        (initFinishGetStructureDataList k ctr b p).1.header.requestId = (generateRequestId ctr).1
        ∧ (initFinishGetStructureDataList k ctr b p).2 = (generateRequestId ctr).2)
    ∧ (∀ ctr b p c, (initGetRawData k ctr b p c).1.header.requestId = (generateRequestId ctr).1
        ∧ (initGetRawData k ctr b p c).2 = (generateRequestId ctr).2)
    ∧ (∀ ctr b p o n,
        (initReadRawData k ctr b p o n).1.header.requestId = (generateRequestId ctr).1
        ∧ (initReadRawData k ctr b p o n).2 = (generateRequestId ctr).2) := by
  refine ⟨fun n hn => nthRequestId_eq n hn, ?_, ?_, ?_, ?_,
    fun _ _ _ => ⟨rfl, rfl⟩, fun _ _ _ _ => ⟨rfl, rfl⟩, fun _ _ _ => ⟨rfl, rfl⟩,
    fun _ _ _ _ _ => ⟨rfl, rfl⟩, fun _ _ _ => ⟨rfl, rfl⟩, fun _ _ _ => ⟨rfl, rfl⟩,
    fun _ _ _ => ⟨rfl, rfl⟩, fun _ _ _ => ⟨rfl, rfl⟩, fun _ _ _ _ _ => ⟨rfl, rfl⟩,
    fun _ _ _ => ⟨rfl, rfl⟩, fun _ _ _ _ => ⟨rfl, rfl⟩, fun _ _ _ _ _ => ⟨rfl, rfl⟩⟩
  · rw [nthRequestId_eq 1 (le_refl 1)]
    rfl
  · rw [nthRequestId_eq 65536 (by omega)]
    rfl
  · intro n hn
    rw [nthRequestId_eq (n + 1) (by omega), nthRequestId_eq n hn]
    unfold U16
    omega
  · intro n j hn
    rw [nthRequestId_eq (n + j) (by omega), nthRequestId_eq n hn]
    unfold U16
    omega

/-- Witness of C7: the 70000th call returns `70000 mod 2^16 = 4464`. -/
theorem requestId_is_wrapping_counter_witness : nthRequestId 70000 = 70000 % 65536 :=
  (requestId_is_wrapping_counter sampleConstants).1 70000 (by decide)

/-! ## `checkStatus` -/

/-- C8: `checkStatus` returns true if and only if the status is Ok; for DeviceWarning it returns
false and does not throw, whatever the flag; for every other status that is not Ok it throws an
`io_exception` when `throwException` is true and returns false when it is false. -/
theorem checkStatus_outcomes (k : HpConstants) (stat : HpStatus) (throwException : Bool) :
    (checkStatus k stat throwException = .ok true ↔ stat.statusCode = HP_STATUS_OK)
    ∧ (stat.statusCode = HP_STATUS_DEVICE_RESPONSE_WARNING →
        checkStatus k stat throwException = .ok false)
    ∧ (stat.statusCode ≠ HP_STATUS_OK → stat.statusCode ≠ HP_STATUS_DEVICE_RESPONSE_WARNING →
        (throwException = true → ∃ e, checkStatus k stat throwException = .error e)
        ∧ (throwException = false → checkStatus k stat throwException = .ok false)) := by
  obtain ⟨code, err, msg⟩ := stat
  cases code <;> cases throwException <;> simp [checkStatus]

/-- Witness of C8: a wrong-id status with `throwException = true` throws. -/
theorem checkStatus_outcomes_witness :
    ∃ e, checkStatus sampleConstants ⟨HP_STATUS_DEVICE_RESPONSE_WRONG_ID, 0xffff, []⟩ true
      = .error e :=
  ((checkStatus_outcomes sampleConstants ⟨HP_STATUS_DEVICE_RESPONSE_WRONG_ID, 0xffff, []⟩
    true).2.2 (by decide) (by decide)).1 rfl

end protocol

namespace GlobalTimestampFilter

/-! ## The least-squares fit -/

/-- The accumulation loop of the fit adds, to each accumulator, the sum of its terms over the
queue. -/
theorem foldl_accumulate (ox oy : Nat) (queue : List TimestampPair) (acc : FitSums) :
    queue.foldl (accumulate ox oy) acc
      = ⟨acc.Ex + (queue.map fun p => ((subU64 p.deviceTimestamp ox : Nat) : ℚ)).sum,
         acc.Exx + (queue.map fun p =>
            ((mulU64 (subU64 p.deviceTimestamp ox) (subU64 p.deviceTimestamp ox) : Nat) : ℚ)).sum,
         acc.Ey + (queue.map fun p => ((subU64 p.systemTimestamp oy : Nat) : ℚ)).sum,
         acc.Exy + (queue.map fun p =>
            ((mulU64 (subU64 p.deviceTimestamp ox) (subU64 p.systemTimestamp oy) : Nat) : ℚ)).sum⟩
    := by
  induction queue generalizing acc with
  | nil => simp
  | cons p rest ih =>
    rw [List.foldl_cons, ih]
    simp [accumulate, add_assoc]

/-- Sum of the squared distances of the elements of a list to a point, expanded. -/
theorem sum_sq_dist (a : ℚ) (l : List ℚ) :
    (l.map fun x => (a - x) * (a - x)).sum
      = (l.length : ℚ) * (a * a) - 2 * a * l.sum + (l.map fun x => x * x).sum := by
  induction l with
  | nil => simp
  | cons b rest ih =>
    simp only [List.map_cons, List.sum_cons, List.length_cons, ih]
    push_cast
    ring

/-- The squared distances to a point sum to a non-negative number. -/
theorem sum_sq_dist_nonneg (a : ℚ) (l : List ℚ) :
    0 ≤ (l.map fun x => (a - x) * (a - x)).sum := by
  induction l with
  | nil => simp
  | cons b rest ih =>
    simp only [List.map_cons, List.sum_cons]
    have := mul_self_nonneg (a - b)
    linarith

/-- The squared distances to a point sum to a positive number when some element differs from
the point. -/
theorem sum_sq_dist_pos (a : ℚ) (l : List ℚ) (h : ∃ x ∈ l, x ≠ a) :
    0 < (l.map fun x => (a - x) * (a - x)).sum := by
  induction l with
  | nil => simp at h
  | cons b rest ih =>
    simp only [List.map_cons, List.sum_cons]
    by_cases hb : b = a
    · have hrest : ∃ x ∈ rest, x ≠ a := by
        obtain ⟨x, hx, hne⟩ := h
        rcases List.mem_cons.1 hx with h1 | h1
        · exact absurd (h1 ▸ hb) hne
        · exact ⟨x, h1, hne⟩
      have := ih hrest
      have := mul_self_nonneg (a - b)
      linarith
    · have hpos : 0 < (a - b) * (a - b) := by
        have hne : a - b ≠ 0 := sub_ne_zero.2 (fun h' => hb h'.symm)
        exact mul_self_pos.2 hne
      have := sum_sq_dist_nonneg a rest
      linarith

/-- The quantity `n * Σ x² - (Σ x)²` of a list grows, when an element is put in front, by the
squared distances of the old elements to the new one. -/
theorem spread_cons (a : ℚ) (l : List ℚ) :
    ((a :: l).length : ℚ) * ((a :: l).map fun x => x * x).sum - (a :: l).sum * (a :: l).sum
      = ((l.length : ℚ) * (l.map fun x => x * x).sum - l.sum * l.sum)
        + (l.map fun x => (a - x) * (a - x)).sum := by
  rw [sum_sq_dist]
  simp only [List.map_cons, List.sum_cons, List.length_cons]
  push_cast
  ring

/-- The quantity `n * Σ x² - (Σ x)²` is never negative. -/
theorem spread_nonneg (l : List ℚ) :
    0 ≤ (l.length : ℚ) * (l.map fun x => x * x).sum - l.sum * l.sum := by
  induction l with
  | nil => simp
  | cons a rest ih =>
    rw [spread_cons]
    have := sum_sq_dist_nonneg a rest
    linarith

/-- The quantity `n * Σ x² - (Σ x)²` is positive for a list with two different elements. -/
theorem spread_pos (l : List ℚ) (h : ∃ x ∈ l, ∃ y ∈ l, x ≠ y) :
    0 < (l.length : ℚ) * (l.map fun x => x * x).sum - l.sum * l.sum := by
  induction l with
  | nil =>
    obtain ⟨x, hx, _⟩ := h
    simp at hx
  | cons a rest ih =>
    rw [spread_cons]
    by_cases hall : ∃ x ∈ rest, x ≠ a
    · have := sum_sq_dist_pos a rest hall
      have := spread_nonneg rest
      linarith
    · have hall2 : ∀ x ∈ rest, x = a := by
        intro x hx
        by_contra hne
        exact hall ⟨x, hx, hne⟩
      have hrest : ∃ x ∈ rest, ∃ y ∈ rest, x ≠ y := by
        obtain ⟨x, hx, y, hy, hne⟩ := h
        rcases List.mem_cons.1 hx with h1 | h1
        · rcases List.mem_cons.1 hy with h2 | h2
          · exact absurd (h1.trans h2.symm) hne
          · exact absurd (h1.trans (hall2 y h2).symm) hne
        · rcases List.mem_cons.1 hy with h2 | h2
          · exact absurd ((hall2 x h1).trans h2.symm) hne
          · exact ⟨x, h1, y, h2, hne⟩
      have := ih hrest
      have := sum_sq_dist_nonneg a rest
      linarith

/-- When no sample of the queue lies before the front sample in device or host time and the two
64-bit products of every sample fit in 64 bits, the four accumulators hold the exact sums of the
differences to the front sample and of their products. -/
theorem fitSums_exact (front : TimestampPair) (rest : List TimestampPair)
    (hrange : ∀ p ∈ front :: rest, p.deviceTimestamp < U64 ∧ p.systemTimestamp < U64)
    (hfront : ∀ p ∈ front :: rest, front.deviceTimestamp ≤ p.deviceTimestamp
      ∧ front.systemTimestamp ≤ p.systemTimestamp)
    (hprod : ∀ p ∈ front :: rest,
      (p.deviceTimestamp - front.deviceTimestamp) * (p.deviceTimestamp - front.deviceTimestamp)
        < U64
      ∧ (p.deviceTimestamp - front.deviceTimestamp) * (p.systemTimestamp - front.systemTimestamp)
        < U64) :
    fitSums (front :: rest)
      = ⟨((front :: rest).map fun p =>
            (p.deviceTimestamp : ℚ) - (front.deviceTimestamp : ℚ)).sum,
         ((front :: rest).map fun p =>
            ((p.deviceTimestamp : ℚ) - (front.deviceTimestamp : ℚ))
              * ((p.deviceTimestamp : ℚ) - (front.deviceTimestamp : ℚ))).sum,
         ((front :: rest).map fun p =>
            (p.systemTimestamp : ℚ) - (front.systemTimestamp : ℚ)).sum,
         ((front :: rest).map fun p =>
            ((p.deviceTimestamp : ℚ) - (front.deviceTimestamp : ℚ))
              * ((p.systemTimestamp : ℚ) - (front.systemTimestamp : ℚ))).sum⟩ := by
  have hdx : ∀ p ∈ front :: rest,
      subU64 p.deviceTimestamp front.deviceTimestamp
        = p.deviceTimestamp - front.deviceTimestamp := by
    intro p hp
    have h1 := (hrange p hp).1
    have h2 := (hfront p hp).1
    have h3 := (hrange front (List.mem_cons_self _ _)).1
    unfold U64 at h1 h3
    unfold subU64 U64
    omega
  have hdy : ∀ p ∈ front :: rest,
      subU64 p.systemTimestamp front.systemTimestamp
        = p.systemTimestamp - front.systemTimestamp := by
    intro p hp
    have h1 := (hrange p hp).2
    have h2 := (hfront p hp).2
    have h3 := (hrange front (List.mem_cons_self _ _)).2
    unfold U64 at h1 h3
    unfold subU64 U64
    omega
  have e1 : ∀ p ∈ front :: rest,
      ((subU64 p.deviceTimestamp front.deviceTimestamp : Nat) : ℚ)
        = (p.deviceTimestamp : ℚ) - (front.deviceTimestamp : ℚ) := by
    intro p hp
    rw [hdx p hp, Nat.cast_sub (hfront p hp).1]
  have e3 : ∀ p ∈ front :: rest,
      ((subU64 p.systemTimestamp front.systemTimestamp : Nat) : ℚ)
        = (p.systemTimestamp : ℚ) - (front.systemTimestamp : ℚ) := by
    intro p hp
    rw [hdy p hp, Nat.cast_sub (hfront p hp).2]
  have e2 : ∀ p ∈ front :: rest,
      ((mulU64 (subU64 p.deviceTimestamp front.deviceTimestamp)
          (subU64 p.deviceTimestamp front.deviceTimestamp) : Nat) : ℚ)
        = ((p.deviceTimestamp : ℚ) - (front.deviceTimestamp : ℚ))
          * ((p.deviceTimestamp : ℚ) - (front.deviceTimestamp : ℚ)) := by
    intro p hp
    rw [hdx p hp]
    unfold mulU64
    rw [Nat.mod_eq_of_lt (hprod p hp).1, Nat.cast_mul, Nat.cast_sub (hfront p hp).1]
  have e4 : ∀ p ∈ front :: rest,
      ((mulU64 (subU64 p.deviceTimestamp front.deviceTimestamp)
          (subU64 p.systemTimestamp front.systemTimestamp) : Nat) : ℚ)
        = ((p.deviceTimestamp : ℚ) - (front.deviceTimestamp : ℚ))
          * ((p.systemTimestamp : ℚ) - (front.systemTimestamp : ℚ)) := by
    intro p hp
    rw [hdx p hp, hdy p hp]
    unfold mulU64
    rw [Nat.mod_eq_of_lt (hprod p hp).2, Nat.cast_mul, Nat.cast_sub (hfront p hp).1,
      Nat.cast_sub (hfront p hp).2]
  show (front :: rest).foldl (accumulate front.deviceTimestamp front.systemTimestamp) ⟨0, 0, 0, 0⟩
    = _
  rw [foldl_accumulate]
  simp only [zero_add]
  rw [List.map_congr_left e1, List.map_congr_left e2, List.map_congr_left e3,
    List.map_congr_left e4]

/-- Least squares over exact sums of points on a line returns the line: with `Sy = A * Sx`,
`Sxy = A * Sxx` and a non-zero denominator the slope is `A` and the intercept, once the offsets
are put back, is `y0 - A * x0`. -/
theorem line_fit_algebra (n Sx Sxx A x0 y0 : ℚ) (hden : n * Sxx - Sx * Sx ≠ 0) :
    (A * Sxx * n - Sx * (A * Sx)) / (n * Sxx - Sx * Sx) = A
    ∧ (Sxx * (A * Sx) - A * Sxx * Sx) / (n * Sxx - Sx * Sx) + y0
        - (A * Sxx * n - Sx * (A * Sx)) / (n * Sxx - Sx * Sx) * x0 = y0 - A * x0 := by
  have h1 : (A * Sxx * n - Sx * (A * Sx)) / (n * Sxx - Sx * Sx) = A := by
    rw [div_eq_iff hden]
    ring
  refine ⟨h1, ?_⟩
  rw [h1]
  have h2 : Sxx * (A * Sx) - A * Sxx * Sx = 0 := by ring
  rw [h2, zero_div]
  ring

/-- C9, at the failing input: four reads that put the samples of `wideWindow` into the queue,
all on `host = 2 * device + 1000`, in increasing order and with distinct device times, make the
loop publish a `coefficientA` other than 2.  The 64-bit product `(x - x0) * (y - y0)` of the
last sample, whose device time is `2^32 - 1` ticks after the first, wraps modulo `2^64`, which
the offsets are there to prevent according to the comment in the source. -/
theorem fittingLoop_line_fit_wraps :
    (fittingLoop sampleConfig [] ⟨0, 0, 0, 0⟩ wideReads).samplingQueue = wideWindow
    ∧ (∀ p ∈ wideWindow, p.systemTimestamp = 2 * p.deviceTimestamp + 1000)
    ∧ 4 ≤ wideWindow.length
    ∧ (fittingLoop sampleConfig [] ⟨0, 0, 0, 0⟩ wideReads).linearFuncParam.coefficientA ≠ 2 := by
  refine ⟨by decide, by decide, by decide, ?_⟩
  norm_num [fittingLoop, runLoop, iteration, takeSample, evictOldest, enqueueSample, addU64,
    MAX_RETRY_COUNT, wideReads, readAt, sampleConfig, fitLinearFunc, fitSums, accumulate, subU64,
    mulU64, U64]

/-- Where the 64-bit arithmetic does not wrap, the fit recovers the line of C9: for every sample
window of at least 4 pairs that lie exactly on a line
`host = A * device + B`, hold two distinct device times, have no sample before the front sample
in device or host time, and whose 64-bit products `(x - x0) * (x - x0)` and `(x - x0) * (y - y0)`
fit in 64 bits (for `A = 2` this is a device-time span below `2^31`), the fit of `fittingLoop`
gives `coefficientA = A` and `constantB = B` in exact arithmetic, and an iteration that leaves
this window in the queue publishes these two values. -/
theorem fitLinearFunc_recovers_line (front : TimestampPair) (rest : List TimestampPair)
    (A B : ℚ)
    (hlen : 4 ≤ (front :: rest).length)
    (hline : ∀ p ∈ front :: rest, (p.systemTimestamp : ℚ) = A * (p.deviceTimestamp : ℚ) + B)
    (hdistinct : ∃ p ∈ front :: rest, ∃ p' ∈ front :: rest,
      p.deviceTimestamp ≠ p'.deviceTimestamp)
    (hrange : ∀ p ∈ front :: rest, p.deviceTimestamp < U64 ∧ p.systemTimestamp < U64)
    (hfront : ∀ p ∈ front :: rest, front.deviceTimestamp ≤ p.deviceTimestamp
      ∧ front.systemTimestamp ≤ p.systemTimestamp)
    (hprod : ∀ p ∈ front :: rest,
      (p.deviceTimestamp - front.deviceTimestamp) * (p.deviceTimestamp - front.deviceTimestamp)
        < U64
      ∧ (p.deviceTimestamp - front.deviceTimestamp) * (p.systemTimestamp - front.systemTimestamp)
        < U64) :
    (∀ devTime sysTspUsec,
      (fitLinearFunc (front :: rest) devTime sysTspUsec).coefficientA = A
      ∧ (fitLinearFunc (front :: rest) devTime sysTspUsec).constantB = B)
    ∧ (∀ (cfg : FilterConfig) (s : FilterState) (r : DeviceTimeRead) (p : TimestampPair),
        takeSample r = some p →
        enqueueSample (evictOldest cfg s.samplingQueue) p = front :: rest →
        (iteration cfg s r).linearFuncParam.coefficientA = A
        ∧ (iteration cfg s r).linearFuncParam.constantB = B) := by
  have hfit : ∀ devTime sysTspUsec,
      (fitLinearFunc (front :: rest) devTime sysTspUsec).coefficientA = A
      ∧ (fitLinearFunc (front :: rest) devTime sysTspUsec).constantB = B := by
    intro devTime sysTspUsec
    have hsums := fitSums_exact front rest hrange hfront hprod
    have hy : ∀ p ∈ front :: rest,
        (p.systemTimestamp : ℚ) - (front.systemTimestamp : ℚ)
          = A * ((p.deviceTimestamp : ℚ) - (front.deviceTimestamp : ℚ)) := by
      intro p hp
      rw [hline p hp, hline front (List.mem_cons_self _ _)]
      ring
    have hEy : ((front :: rest).map fun p =>
          (p.systemTimestamp : ℚ) - (front.systemTimestamp : ℚ)).sum
        = A * ((front :: rest).map fun p =>
          (p.deviceTimestamp : ℚ) - (front.deviceTimestamp : ℚ)).sum := by
      rw [List.map_congr_left hy, List.sum_map_mul_left]
    have hxy : ∀ p ∈ front :: rest,
        ((p.deviceTimestamp : ℚ) - (front.deviceTimestamp : ℚ))
            * ((p.systemTimestamp : ℚ) - (front.systemTimestamp : ℚ))
          = A * (((p.deviceTimestamp : ℚ) - (front.deviceTimestamp : ℚ))
            * ((p.deviceTimestamp : ℚ) - (front.deviceTimestamp : ℚ))) := by
      intro p hp
      rw [hy p hp]
      ring
    have hExy : ((front :: rest).map fun p =>
          ((p.deviceTimestamp : ℚ) - (front.deviceTimestamp : ℚ))
            * ((p.systemTimestamp : ℚ) - (front.systemTimestamp : ℚ))).sum
        = A * ((front :: rest).map fun p =>
          ((p.deviceTimestamp : ℚ) - (front.deviceTimestamp : ℚ))
            * ((p.deviceTimestamp : ℚ) - (front.deviceTimestamp : ℚ))).sum := by
      rw [List.map_congr_left hxy, List.sum_map_mul_left]
    have hpos : 0 < (((front :: rest).length : Nat) : ℚ)
          * ((front :: rest).map fun p =>
              ((p.deviceTimestamp : ℚ) - (front.deviceTimestamp : ℚ))
                * ((p.deviceTimestamp : ℚ) - (front.deviceTimestamp : ℚ))).sum
          - ((front :: rest).map fun p =>
              (p.deviceTimestamp : ℚ) - (front.deviceTimestamp : ℚ)).sum
            * ((front :: rest).map fun p =>
              (p.deviceTimestamp : ℚ) - (front.deviceTimestamp : ℚ)).sum := by
      have hl : ∃ x ∈ (front :: rest).map (fun p =>
            (p.deviceTimestamp : ℚ) - (front.deviceTimestamp : ℚ)),
          ∃ y ∈ (front :: rest).map (fun p =>
            (p.deviceTimestamp : ℚ) - (front.deviceTimestamp : ℚ)), x ≠ y := by
        obtain ⟨p, hp, p', hp', hne⟩ := hdistinct
        refine ⟨_, List.mem_map_of_mem _ hp, _, List.mem_map_of_mem _ hp', ?_⟩
        intro heq
        have h2 : (p.deviceTimestamp : ℚ) = (p'.deviceTimestamp : ℚ) := by linarith
        exact hne (by exact_mod_cast h2)
      have h := spread_pos _ hl
      rw [List.length_map, List.map_map] at h
      exact h
    have hden := ne_of_gt hpos
    have hB : (front.systemTimestamp : ℚ) - A * (front.deviceTimestamp : ℚ) = B := by
      rw [hline front (List.mem_cons_self _ _)]
      ring
    have halg := line_fit_algebra (((front :: rest).length : Nat) : ℚ)
      ((front :: rest).map fun p =>
        (p.deviceTimestamp : ℚ) - (front.deviceTimestamp : ℚ)).sum
      ((front :: rest).map fun p =>
        ((p.deviceTimestamp : ℚ) - (front.deviceTimestamp : ℚ))
          * ((p.deviceTimestamp : ℚ) - (front.deviceTimestamp : ℚ))).sum
      A (front.deviceTimestamp : ℚ) (front.systemTimestamp : ℚ) hden
    constructor
    · show ((fitSums (front :: rest)).Exy * (((front :: rest).length : Nat) : ℚ)
          - (fitSums (front :: rest)).Ex * (fitSums (front :: rest)).Ey)
        / ((((front :: rest).length : Nat) : ℚ) * (fitSums (front :: rest)).Exx
          - (fitSums (front :: rest)).Ex * (fitSums (front :: rest)).Ex) = A
      rw [hsums]
      simp only [hEy, hExy]
      exact halg.1
    · show ((fitSums (front :: rest)).Exx * (fitSums (front :: rest)).Ey
          - (fitSums (front :: rest)).Exy * (fitSums (front :: rest)).Ex)
        / ((((front :: rest).length : Nat) : ℚ) * (fitSums (front :: rest)).Exx
          - (fitSums (front :: rest)).Ex * (fitSums (front :: rest)).Ex)
        + (front.systemTimestamp : ℚ)
        - ((fitSums (front :: rest)).Exy * (((front :: rest).length : Nat) : ℚ)
          - (fitSums (front :: rest)).Ex * (fitSums (front :: rest)).Ey)
        / ((((front :: rest).length : Nat) : ℚ) * (fitSums (front :: rest)).Exx
          - (fitSums (front :: rest)).Ex * (fitSums (front :: rest)).Ex)
          * (front.deviceTimestamp : ℚ) = B
      rw [hsums]
      simp only [hEy, hExy]
      rw [halg.2]
      exact hB
  refine ⟨hfit, ?_⟩
  intro cfg s r p hsample hqueue
  have hnot : ¬ ((front :: rest).length < 4) := by omega
  have hiter : (iteration cfg s r).linearFuncParam
      = fitLinearFunc (front :: rest) p.deviceTimestamp p.systemTimestamp := by
    simp only [iteration, hsample, hqueue, if_neg hnot]
  rw [hiter]
  exact hfit _ _

/-- The fit without wrap-around at a concrete window: the four samples of `lineWindow` on
`host = 2 * device + 1000` give `coefficientA = 2` and `constantB = 1000`. -/
theorem fitLinearFunc_recovers_line_witness :
    (fitLinearFunc lineWindow 3 1006).coefficientA = 2
    ∧ (fitLinearFunc lineWindow 3 1006).constantB = 1000 :=
  (fitLinearFunc_recovers_line ⟨1000, 0⟩ [⟨1002, 1⟩, ⟨1004, 2⟩, ⟨1006, 3⟩] 2 1000
    (by decide)
    (by
      intro p hp
      simp only [List.mem_cons, List.mem_singleton, List.not_mem_nil, or_false] at hp
      rcases hp with rfl | rfl | rfl | rfl <;> norm_num)
    ⟨⟨1000, 0⟩, by simp, ⟨1002, 1⟩, by simp, by decide⟩
    (by decide) (by decide) (by decide)).1 3 1006

/-! ## The sampling loop -/

/-- An iteration that obtains a sample leaves the retry counter at 0. -/
theorem iteration_success_retryCount (cfg : FilterConfig) (s : FilterState) (r : DeviceTimeRead)
    (p : TimestampPair) (h : takeSample r = some p) : (iteration cfg s r).retryCount = 0 := by
  simp only [iteration, h]
  split_ifs <;> rfl

/-- While every read yields a sample and the loop is not asked to exit, the loop runs one
iteration per read. -/
theorem runLoop_all_success (cfg : FilterConfig) (reads : List DeviceTimeRead)
    (samples : List TimestampPair) (h : reads.map takeSample = samples.map some)
    (s : FilterState) :
    runLoop cfg s (reads.map fun r => (r, false)) = reads.foldl (iteration cfg) s := by
  induction reads generalizing samples s with
  | nil => rfl
  | cons r rest ih =>
    cases samples with
    | nil => simp at h
    | cons p samples' =>
      simp only [List.map_cons, List.cons.injEq] at h
      have hrc := iteration_success_retryCount cfg s r p h.1
      simp only [List.map_cons, runLoop, List.foldl_cons, hrc, MAX_RETRY_COUNT]
      simpa using ih samples' h.2 (iteration cfg s r)

/-- Samples that arrive in strictly increasing device time, continuing a queue that they do
not overfill, are appended one by one; once the queue holds 4 samples the published model is the
fit of the whole queue at the newest sample. -/
theorem foldl_iteration_grow (cfg : FilterConfig) (samples : List TimestampPair) :
    ∀ (reads : List DeviceTimeRead) (s : FilterState),
      reads.map takeSample = samples.map some →
      (s.samplingQueue ++ samples).Pairwise
        (fun a b => a.deviceTimestamp < b.deviceTimestamp) →
      (s.samplingQueue ++ samples).length ≤ cfg.maxQueueSize →
      (reads.foldl (iteration cfg) s).samplingQueue = s.samplingQueue ++ samples
      ∧ (∀ last, samples.getLast? = some last → 4 ≤ (s.samplingQueue ++ samples).length →
          (reads.foldl (iteration cfg) s).linearFuncParam
            = fitLinearFunc (s.samplingQueue ++ samples) last.deviceTimestamp
                last.systemTimestamp) := by
  induction samples with
  | nil =>
    intro reads s h _ _
    have hr : reads = [] := by simpa using h
    subst hr
    simp
  | cons p samples' ih =>
    intro reads s h hpair hmax
    cases reads with
    | nil => simp at h
    | cons r reads' =>
      simp only [List.map_cons, List.cons.injEq] at h
      obtain ⟨hr, hrest⟩ := h
      have hevict : evictOldest cfg s.samplingQueue = s.samplingQueue := by
        have hl : ¬ (s.samplingQueue.length > cfg.maxQueueSize) := by
          simp only [List.length_append, List.length_cons] at hmax
          omega
        simp [evictOldest, hl]
      have hcross : ∀ a ∈ s.samplingQueue, a.deviceTimestamp < p.deviceTimestamp := by
        intro a ha
        exact (List.pairwise_append.1 hpair).2.2 a ha p (List.mem_cons_self _ _)
      have henq : enqueueSample s.samplingQueue p = s.samplingQueue ++ [p] := by
        unfold enqueueSample
        cases hg : s.samplingQueue.getLast? with
        | none => rfl
        | some back =>
          have hb := hcross back (List.mem_of_getLast?_eq_some hg)
          have hnlt : ¬ (p.deviceTimestamp < back.deviceTimestamp) := by omega
          simp [hnlt]
      have hq1 : (iteration cfg s r).samplingQueue = s.samplingQueue ++ [p] := by
        simp only [iteration, hr, hevict, henq]
        split_ifs <;> rfl
      have hm1 : 4 ≤ (s.samplingQueue ++ [p]).length →
          (iteration cfg s r).linearFuncParam
            = fitLinearFunc (s.samplingQueue ++ [p]) p.deviceTimestamp p.systemTimestamp := by
        intro h4
        have hnot : ¬ ((s.samplingQueue ++ [p]).length < 4) := by omega
        simp only [iteration, hr, hevict, henq, if_neg hnot]
      have happ : (iteration cfg s r).samplingQueue ++ samples'
          = s.samplingQueue ++ p :: samples' := by
        rw [hq1]
        simp
      obtain ⟨ihq, ihm⟩ := ih reads' (iteration cfg s r) hrest
        (by rw [happ]; exact hpair) (by rw [happ]; exact hmax)
      rw [List.foldl_cons]
      refine ⟨by rw [ihq, happ], ?_⟩
      intro last hlast h4
      cases samples' with
      | nil =>
        have hr' : reads' = [] := by simpa using hrest
        subst hr'
        have hlp : last = p := by simpa using hlast.symm
        subst hlp
        exact hm1 h4
      | cons p2 samples'' =>
        have hlast2 : (p2 :: samples'').getLast? = some last := by
          simpa [List.getLast?_cons_cons] using hlast
        rw [ihm last hlast2 (by rw [happ]; exact h4), happ]

/-- C10: clock fit idempotence.  Let a sequence of reads yield 4 or more samples with strictly
increasing device times, no more than `maxQueueSize` of them.  Running the loop from an empty
queue over the sequence and then over the same sequence a second time ends with the same
published `coefficientA` and `constantB` as running it over the sequence once. -/
theorem fittingLoop_same_samples_twice (cfg : FilterConfig) (model : LinearFuncParam)
    (reads : List DeviceTimeRead) (samples : List TimestampPair)
    (hreads : reads.map takeSample = samples.map some)
    (hlen : 4 ≤ samples.length) (hmax : samples.length ≤ cfg.maxQueueSize)
    (hinc : samples.Pairwise (fun a b => a.deviceTimestamp < b.deviceTimestamp)) :
    (fittingLoop cfg [] model
        ((reads ++ reads).map fun r => (r, false))).linearFuncParam.coefficientA
      = (fittingLoop cfg [] model (reads.map fun r => (r, false))).linearFuncParam.coefficientA
    ∧ (fittingLoop cfg [] model
        ((reads ++ reads).map fun r => (r, false))).linearFuncParam.constantB
      = (fittingLoop cfg [] model (reads.map fun r => (r, false))).linearFuncParam.constantB := by
  have hreads2 : (reads ++ reads).map takeSample = (samples ++ samples).map some := by
    rw [List.map_append, List.map_append, hreads]
  have hrun1 : fittingLoop cfg [] model (reads.map fun r => (r, false))
      = reads.foldl (iteration cfg) ⟨[], model, 0⟩ :=
    runLoop_all_success cfg reads samples hreads _
  have hrun2 : fittingLoop cfg [] model ((reads ++ reads).map fun r => (r, false))
      = reads.foldl (iteration cfg) (reads.foldl (iteration cfg) ⟨[], model, 0⟩) := by
    have h := runLoop_all_success cfg (reads ++ reads) (samples ++ samples) hreads2
      ⟨[], model, 0⟩
    rw [List.foldl_append] at h
    exact h
  -- the first pass
  obtain ⟨hq1, hm1⟩ := foldl_iteration_grow cfg samples reads ⟨[], model, 0⟩ hreads
    (by simpa using hinc) (by simpa using hmax)
  simp only [List.nil_append] at hq1 hm1
  -- the shape of the sequence
  obtain ⟨p1, samples', hs⟩ : ∃ p1 samples', samples = p1 :: samples' := by
    cases samples with
    | nil => simp at hlen
    | cons a l => exact ⟨a, l, rfl⟩
  obtain ⟨last, hlast⟩ : ∃ last, samples'.getLast? = some last := by
    cases hg : samples'.getLast? with
    | none =>
      have hnil : samples' = [] := List.getLast?_eq_none_iff.1 hg
      rw [hs, hnil] at hlen
      simp at hlen
    | some last => exact ⟨last, rfl⟩
  have hne : samples' ≠ [] := by
    intro hnil
    rw [hnil] at hlast
    simp at hlast
  have hlastAll : samples.getLast? = some last := by
    rw [hs]
    cases samples' with
    | nil => exact absurd rfl hne
    | cons b l => simpa [List.getLast?_cons_cons] using hlast
  obtain ⟨r1, reads', hr⟩ : ∃ r1 reads', reads = r1 :: reads' := by
    cases reads with
    | nil =>
      rw [hs] at hreads
      simp at hreads
    | cons a l => exact ⟨a, l, rfl⟩
  have hreads' : takeSample r1 = some p1 ∧ reads'.map takeSample = samples'.map some := by
    rw [hs, hr] at hreads
    simpa using hreads
  have hmodel1 := hm1 last hlastAll hlen
  -- the first iteration of the second pass clears the queue
  have hback : p1.deviceTimestamp < last.deviceTimestamp := by
    rw [hs] at hinc
    exact (List.pairwise_cons.1 hinc).1 last (List.mem_of_getLast?_eq_some hlast)
  have hevict : evictOldest cfg (reads.foldl (iteration cfg) ⟨[], model, 0⟩).samplingQueue
      = samples := by
    have hl : ¬ (samples.length > cfg.maxQueueSize) := by omega
    rw [hq1]
    simp [evictOldest, hl]
  have henq : enqueueSample samples p1 = [p1] := by
    simp [enqueueSample, hlastAll, hback]
  have hstep : iteration cfg (reads.foldl (iteration cfg) ⟨[], model, 0⟩) r1
      = ⟨[p1], (reads.foldl (iteration cfg) ⟨[], model, 0⟩).linearFuncParam, 0⟩ := by
    simp [iteration, hreads'.1, hevict, henq]
  -- the rest of the second pass rebuilds the same queue
  obtain ⟨-, hm2⟩ := foldl_iteration_grow cfg samples' reads'
    ⟨[p1], (reads.foldl (iteration cfg) ⟨[], model, 0⟩).linearFuncParam, 0⟩ hreads'.2
    (by
      show ([p1] ++ samples').Pairwise _
      rw [List.singleton_append, ← hs]
      exact hinc)
    (by
      show ([p1] ++ samples').length ≤ _
      rw [List.singleton_append, ← hs]
      exact hmax)
  have hmodel2 := hm2 last hlast (by
    show 4 ≤ ([p1] ++ samples').length
    rw [List.singleton_append, ← hs]
    exact hlen)
  have hsame : (fittingLoop cfg [] model
        ((reads ++ reads).map fun r => (r, false))).linearFuncParam
      = (fittingLoop cfg [] model (reads.map fun r => (r, false))).linearFuncParam := by
    rw [hrun2, hrun1, hmodel1]
    conv_lhs => rw [hr, List.foldl_cons, ← hr, hstep]
    rw [hmodel2]
    show fitLinearFunc ([p1] ++ samples') _ _ = _
    rw [List.singleton_append, ← hs]
  rw [hsame]
  exact ⟨rfl, rfl⟩

/-- Witness of C10: the four reads of `lineReads`, fed twice, under `sampleConfig`. -/
theorem fittingLoop_same_samples_twice_witness :
    (fittingLoop sampleConfig [] ⟨0, 0, 0, 0⟩
        ((lineReads ++ lineReads).map fun r => (r, false))).linearFuncParam.coefficientA
      = (fittingLoop sampleConfig [] ⟨0, 0, 0, 0⟩
        (lineReads.map fun r => (r, false))).linearFuncParam.coefficientA
    ∧ (fittingLoop sampleConfig [] ⟨0, 0, 0, 0⟩
        ((lineReads ++ lineReads).map fun r => (r, false))).linearFuncParam.constantB
      = (fittingLoop sampleConfig [] ⟨0, 0, 0, 0⟩
        (lineReads.map fun r => (r, false))).linearFuncParam.constantB :=
  fittingLoop_same_samples_twice sampleConfig ⟨0, 0, 0, 0⟩ lineReads lineWindow
    (by decide) (by decide) (by decide) (by decide)

end GlobalTimestampFilter

namespace GlobalTimestampFilter

/-! ## Out-of-order samples, retries, pause and resume -/

/-- The eviction at the top of a pass leaves a suffix of the queue. -/
theorem evictOldest_suffix (cfg : FilterConfig) (queue : List TimestampPair) :
    evictOldest cfg queue <:+ queue := by
  unfold evictOldest
  split_ifs
  · exact List.tail_suffix queue
  · exact List.suffix_refl queue

/-- Appending a sample to a suffix of the samples collected so far, after the out-of-order
check, gives a suffix of the samples collected with the new one. -/
theorem enqueueSample_suffix (queue collected : List TimestampPair) (p : TimestampPair)
    (h : queue <:+ collected) : enqueueSample queue p <:+ collected ++ [p] := by
  have hkeep : queue ++ [p] <:+ collected ++ [p] := by
    obtain ⟨t, ht⟩ := h
    exact ⟨t, by rw [← ht, List.append_assoc]⟩
  unfold enqueueSample
  cases hg : queue.getLast? with
  | none => simp only []; exact hkeep
  | some back =>
    by_cases hlt : p.deviceTimestamp < back.deviceTimestamp
    · simp [hlt]
    · simpa [hlt] using hkeep

/-- The queue after a pass through the loop body. -/
theorem iteration_samplingQueue (cfg : FilterConfig) (s : FilterState) (r : DeviceTimeRead) :
    (iteration cfg s r).samplingQueue
      = match takeSample r with
        | none => evictOldest cfg s.samplingQueue
        | some p => enqueueSample (evictOldest cfg s.samplingQueue) p := by
  unfold iteration
  cases takeSample r with
  | none => rfl
  | some p =>
    simp only []
    split_ifs <;> rfl

/-- Every event keeps the queue a suffix of the samples collected so far. -/
theorem applyEvent_suffix (cfg : FilterConfig) (s : FilterState) (e : FilterEvent)
    (collected : List TimestampPair) (h : s.samplingQueue <:+ collected) :
    (applyEvent cfg s e).samplingQueue <:+ collected ++ eventSamples [e] := by
  cases e with
  | reFittingCall =>
    show ([] : List TimestampPair) <:+ _
    exact List.nil_suffix
  | loopIteration r =>
    show (iteration cfg s r).samplingQueue <:+ _
    rw [iteration_samplingQueue]
    cases hs : takeSample r with
    | none =>
      simp only [eventSamples, List.filterMap_cons, hs, List.filterMap_nil, List.append_nil]
      exact (evictOldest_suffix cfg _).trans h
    | some p =>
      simp only [eventSamples, List.filterMap_cons, hs, List.filterMap_nil]
      exact enqueueSample_suffix _ _ p ((evictOldest_suffix cfg _).trans h)

/-- After any sequence of events the queue is a suffix of the samples collected so far. -/
theorem foldl_applyEvent_suffix (cfg : FilterConfig) (es : List FilterEvent) :
    ∀ (s : FilterState) (collected : List TimestampPair), s.samplingQueue <:+ collected →
      (es.foldl (applyEvent cfg) s).samplingQueue <:+ collected ++ eventSamples es := by
  induction es with
  | nil =>
    intro s collected h
    simpa [eventSamples] using h
  | cons e rest ih =>
    intro s collected h
    have h1 := applyEvent_suffix cfg s e collected h
    have h2 := ih (applyEvent cfg s e) (collected ++ eventSamples [e]) h1
    have hsplit : eventSamples (e :: rest) = eventSamples [e] ++ eventSamples rest := by
      show (([e] ++ rest).filterMap _) = _
      rw [List.filterMap_append]
      rfl
    rw [List.foldl_cons, hsplit, ← List.append_assoc]
    exact h2

end GlobalTimestampFilter

namespace GlobalTimestampFilter

/-- A pass that obtains a sample and leaves at least 4 samples in the queue publishes the fit of
the queue it leaves, at the new sample. -/
theorem iteration_publishes (cfg : FilterConfig) (s : FilterState) (r : DeviceTimeRead)
    (q : TimestampPair) (hq : takeSample r = some q)
    (h4 : 4 ≤ (iteration cfg s r).samplingQueue.length) :
    (iteration cfg s r).linearFuncParam
      = fitLinearFunc (iteration cfg s r).samplingQueue q.deviceTimestamp q.systemTimestamp := by
  have hnot : ¬ ((enqueueSample (evictOldest cfg s.samplingQueue) q).length < 4) := by
    rw [iteration_samplingQueue, hq] at h4
    simp only [] at h4
    omega
  simp only [iteration, hq, if_neg hnot]

/-- C11: when the queue is not empty and a pass obtains a sample whose device time is strictly
less than that of the queue's most recent entry, the queue after the pass holds exactly that
sample.  From then on, whatever passes and `reFitting` calls follow, the queue is a suffix of the
samples collected from that sample onward, and every pass that publishes a model publishes the
fit of the queue it leaves: the models published next are fitted only from samples collected
from that sample onward. -/
theorem iteration_out_of_order_clears (cfg : FilterConfig) (s : FilterState)
    (r : DeviceTimeRead) (p back : TimestampPair)
    (hsample : takeSample r = some p)
    (hback : s.samplingQueue.getLast? = some back)
    (hlt : p.deviceTimestamp < back.deviceTimestamp) :
    (iteration cfg s r).samplingQueue = [p]
    ∧ ∀ (es : List FilterEvent),
        (es.foldl (applyEvent cfg) (iteration cfg s r)).samplingQueue <:+ p :: eventSamples es
        ∧ ∀ (r' : DeviceTimeRead) (q : TimestampPair), takeSample r' = some q →
            4 ≤ (iteration cfg (es.foldl (applyEvent cfg) (iteration cfg s r))
                  r').samplingQueue.length →
            (iteration cfg (es.foldl (applyEvent cfg) (iteration cfg s r)) r').linearFuncParam
                = fitLinearFunc
                    (iteration cfg (es.foldl (applyEvent cfg) (iteration cfg s r))
                      r').samplingQueue
                    q.deviceTimestamp q.systemTimestamp
            ∧ (iteration cfg (es.foldl (applyEvent cfg) (iteration cfg s r)) r').samplingQueue
                <:+ p :: eventSamples (es ++ [FilterEvent.loopIteration r']) := by
  have hclear : (iteration cfg s r).samplingQueue = [p] := by
    rw [iteration_samplingQueue, hsample]
    simp only []
    unfold evictOldest
    split_ifs with hbig
    · -- the oldest sample is evicted first
      cases hq : s.samplingQueue with
      | nil => rw [hq] at hback; simp at hback
      | cons a rest =>
        cases rest with
        | nil => simp [enqueueSample]
        | cons b rest2 =>
          have hb2 : (b :: rest2).getLast? = some back := by
            rw [hq] at hback
            simpa [List.getLast?_cons_cons] using hback
          simp only [List.tail_cons]
          unfold enqueueSample
          rw [hb2]
          simp [hlt]
    · unfold enqueueSample
      rw [hback]
      simp [hlt]
  refine ⟨hclear, ?_⟩
  intro es
  have hsuf : (es.foldl (applyEvent cfg) (iteration cfg s r)).samplingQueue
      <:+ p :: eventSamples es := by
    have h := foldl_applyEvent_suffix cfg es (iteration cfg s r) [p]
      (by rw [hclear])
    simpa using h
  refine ⟨hsuf, ?_⟩
  intro r' q hq h4
  constructor
  · exact iteration_publishes cfg _ r' q hq h4
  · have h := foldl_applyEvent_suffix cfg (es ++ [FilterEvent.loopIteration r'])
      (iteration cfg s r) [p] (by rw [hclear])
    rw [List.foldl_append] at h
    simpa using h

/-- Witness of C11: a queue whose back has device time 9 and a new sample with device time 3. -/
theorem iteration_out_of_order_clears_witness :
    (iteration sampleConfig ⟨[⟨1000, 5⟩, ⟨1010, 9⟩], ⟨0, 0, 0, 0⟩, 0⟩
      (readAt 1020 3)).samplingQueue = [⟨1020, 3⟩] :=
  (iteration_out_of_order_clears sampleConfig ⟨[⟨1000, 5⟩, ⟨1010, 9⟩], ⟨0, 0, 0, 0⟩, 0⟩
    (readAt 1020 3) ⟨1020, 3⟩ ⟨1010, 9⟩ (by decide) (by decide) (by decide)).1

end GlobalTimestampFilter

namespace GlobalTimestampFilter

/-- A pass that obtains no sample adds one to the retry counter. -/
theorem iteration_failure_retryCount (cfg : FilterConfig) (s : FilterState) (r : DeviceTimeRead)
    (h : takeSample r = none) : (iteration cfg s r).retryCount = s.retryCount + 1 := by
  simp only [iteration, h]

/-- With `n ≥ 1` failures still needed to bring the retry counter to 6, and the next `n` reads
failing while the loop is not asked to exit, the loop makes exactly `n` more passes and ends
with the counter at 6. -/
theorem runLoop_failures (cfg : FilterConfig) (n : Nat) :
    ∀ (s : FilterState) (reads : List (DeviceTimeRead × Bool)),
      1 ≤ n → s.retryCount + n = 6 → n ≤ reads.length →
      (∀ x ∈ reads.take n, takeSample x.1 = none ∧ x.2 = false) →
      iterationsRun cfg s reads = n ∧ (runLoop cfg s reads).retryCount = 6 := by
  induction n with
  | zero =>
    intro s reads h1
    omega
  | succ n ih =>
    intro s reads _ hsum hlen hfail
    cases reads with
    | nil => simp at hlen
    | cons x rest =>
      obtain ⟨r, flag⟩ := x
      have hx := hfail (r, flag) (by simp)
      simp only at hx
      obtain ⟨hr, hflag⟩ := hx
      subst hflag
      have hrc := iteration_failure_retryCount cfg s r hr
      by_cases hn : n = 0
      · subst hn
        have hstop : ¬ ((iteration cfg s r).retryCount ≤ MAX_RETRY_COUNT) := by
          rw [hrc]
          unfold MAX_RETRY_COUNT
          omega
        simp only [iterationsRun, runLoop, hstop, decide_False, Bool.and_false]
        refine ⟨by simp, ?_⟩
        simp only [Bool.false_eq_true, if_false]
        rw [hrc]
        omega
      · have hgo : (iteration cfg s r).retryCount ≤ MAX_RETRY_COUNT := by
          rw [hrc]
          unfold MAX_RETRY_COUNT
          omega
        have hrest := ih (iteration cfg s r) rest (by omega) (by rw [hrc]; omega)
          (by simp only [List.length_cons] at hlen; omega)
          (fun y hy => hfail y (by
            rw [List.take_succ_cons]
            exact List.mem_cons_of_mem _ hy))
        simp only [iterationsRun, runLoop, hgo, decide_True, Bool.not_false, Bool.and_self,
          if_true]
        exact ⟨by omega, hrest.2⟩

/-- C12, as stated, fails: after five consecutive failed reads, from a retry counter of zero,
the loop makes a sixth pass, and the sample that pass obtains is put into the queue and resets
the counter. -/
theorem fittingLoop_sixth_attempt :
    iterationsRun sampleConfig ⟨[], ⟨0, 0, 0, 0⟩, 0⟩ fiveFailuresThenSample = 6
    ∧ (fittingLoop sampleConfig [] ⟨0, 0, 0, 0⟩ fiveFailuresThenSample).samplingQueue
        = [⟨1000, 0⟩]
    ∧ (fittingLoop sampleConfig [] ⟨0, 0, 0, 0⟩ fiveFailuresThenSample).retryCount = 0 := by
  refine ⟨by decide, by decide, by decide⟩

/-- C12, amended: starting from a retry counter of zero, the loop goes on after each of the
first five consecutive failed passes (a read that throws or a round trip above 2000) and ends
after the sixth, when the counter exceeds `MAX_RETRY_COUNT = 5`; it makes no seventh pass.  A
pass that obtains a sample sets the counter to zero, a failed pass adds one to it. -/
theorem fittingLoop_stops_after_sixth_failure (cfg : FilterConfig)
    (samplingQueue : List TimestampPair) (linearFuncParam : LinearFuncParam)
    (reads : List (DeviceTimeRead × Bool))
    (hlen : 6 ≤ reads.length)
    (hfail : ∀ x ∈ reads.take 6, takeSample x.1 = none ∧ x.2 = false) :
    iterationsRun cfg ⟨samplingQueue, linearFuncParam, 0⟩ reads = 6
    ∧ (fittingLoop cfg samplingQueue linearFuncParam reads).retryCount = 6
    ∧ (∀ (s : FilterState) (r : DeviceTimeRead) (p : TimestampPair),
        takeSample r = some p → (iteration cfg s r).retryCount = 0)
    ∧ (∀ (s : FilterState) (r : DeviceTimeRead),
        takeSample r = none → (iteration cfg s r).retryCount = s.retryCount + 1) := by
  have h := runLoop_failures cfg 6 ⟨samplingQueue, linearFuncParam, 0⟩ reads (by omega) rfl hlen
    hfail
  exact ⟨h.1, h.2, fun s r p hp => iteration_success_retryCount cfg s r p hp,
    fun s r hr => iteration_failure_retryCount cfg s r hr⟩

/-- Witness of C12 (amended): seven failed reads are offered, six passes are made. -/
theorem fittingLoop_stops_after_sixth_failure_witness :
    iterationsRun sampleConfig ⟨[], ⟨0, 0, 0, 0⟩, 0⟩ (List.replicate 7 (failedRead, false)) = 6
    ∧ (fittingLoop sampleConfig [] ⟨0, 0, 0, 0⟩
        (List.replicate 7 (failedRead, false))).retryCount = 6 :=
  ⟨(fittingLoop_stops_after_sixth_failure sampleConfig [] ⟨0, 0, 0, 0⟩
      (List.replicate 7 (failedRead, false)) (by decide) (by decide)).1,
   (fittingLoop_stops_after_sixth_failure sampleConfig [] ⟨0, 0, 0, 0⟩
      (List.replicate 7 (failedRead, false)) (by decide) (by decide)).2.1⟩

/-- C13, as stated, fails: the state `pausedState` holds three samples when the loop is paused;
after `resume` the first pass appends its sample to them and publishes a fit of the four
samples, three of which were collected before the pause. -/
theorem resume_uses_old_samples :
    (resume sampleConfig (pause sampleConfig pausedState none)
        [(readAt 1006 3, false)]).samplingQueue = lineWindow
    ∧ (resume sampleConfig (pause sampleConfig pausedState none)
        [(readAt 1006 3, false)]).linearFuncParam = fitLinearFunc lineWindow 3 1006
    ∧ (resume sampleConfig (pause sampleConfig pausedState none)
        [(readAt 1006 3, false)]).linearFuncParam.coefficientA = 2 := by
  have hq : (resume sampleConfig (pause sampleConfig pausedState none)
      [(readAt 1006 3, false)]).samplingQueue = lineWindow := by decide
  have hm : (resume sampleConfig (pause sampleConfig pausedState none)
      [(readAt 1006 3, false)]).linearFuncParam = fitLinearFunc lineWindow 3 1006 := rfl
  refine ⟨hq, hm, ?_⟩
  rw [hm]
  norm_num [fitLinearFunc, fitSums, accumulate, subU64, mulU64, U64, lineWindow]

/-- C13, amended: pause followed by resume restarts the sampling loop with a retry counter of
zero and with the sample queue as the paused loop left it: the queue is not cleared, and a first
sample after the resume that is not older than the queue's back, arriving while the queue is not
over its maximum, is appended to the samples collected before the pause. -/
theorem resume_keeps_queue (cfg : FilterConfig) (s : FilterState)
    (pending : Option DeviceTimeRead) :
    (∀ reads, resume cfg (pause cfg s pending) reads
        = runLoop cfg ⟨(pause cfg s pending).samplingQueue,
            (pause cfg s pending).linearFuncParam, 0⟩ reads)
    ∧ (resume cfg (pause cfg s pending) []).retryCount = 0
    ∧ (resume cfg (pause cfg s pending) []).samplingQueue = (pause cfg s pending).samplingQueue
    ∧ (∀ (r : DeviceTimeRead) (p : TimestampPair) (flag : Bool),
        takeSample r = some p →
        (pause cfg s pending).samplingQueue.length ≤ cfg.maxQueueSize →
        (∀ back, (pause cfg s pending).samplingQueue.getLast? = some back →
          back.deviceTimestamp ≤ p.deviceTimestamp) →
        (resume cfg (pause cfg s pending) [(r, flag)]).samplingQueue
          = (pause cfg s pending).samplingQueue ++ [p]) := by
  refine ⟨fun _ => rfl, rfl, rfl, ?_⟩
  intro r p flag hp hmax hback
  have hrun : (resume cfg (pause cfg s pending) [(r, flag)]).samplingQueue
      = (iteration cfg ⟨(pause cfg s pending).samplingQueue,
          (pause cfg s pending).linearFuncParam, 0⟩ r).samplingQueue := by
    simp only [resume, fittingLoop, runLoop]
    split_ifs <;> rfl
  rw [hrun, iteration_samplingQueue, hp]
  simp only []
  have hevict : evictOldest cfg (pause cfg s pending).samplingQueue
      = (pause cfg s pending).samplingQueue := by
    have hl : ¬ ((pause cfg s pending).samplingQueue.length > cfg.maxQueueSize) := by omega
    simp [evictOldest, hl]
  rw [hevict]
  unfold enqueueSample
  cases hg : (pause cfg s pending).samplingQueue.getLast? with
  | none => rfl
  | some back =>
    have hb := hback back hg
    have hnlt : ¬ (p.deviceTimestamp < back.deviceTimestamp) := by omega
    simp [hnlt]

/-- Witness of C13 (amended): resuming `pausedState` and reading device time 3. -/
theorem resume_keeps_queue_witness :
    (resume sampleConfig (pause sampleConfig pausedState none)
        [(readAt 1006 3, false)]).samplingQueue
      = (pause sampleConfig pausedState none).samplingQueue ++ [⟨1006, 3⟩] :=
  (resume_keeps_queue sampleConfig pausedState none).2.2.2 (readAt 1006 3) ⟨1006, 3⟩ false
    (by decide) (by decide) (by decide)

end GlobalTimestampFilter

/-! ## Parsing of the calibration blobs -/

/-- When every record of the remaining passes lies inside the buffer, the parse loop returns the
records decoded at the successive strides, appended to the output so far. -/
theorem parseRecordsFrom_eq {α : Type} (cast : List Nat → α) (recordSize stride : Nat)
    (data : List Nat) :
    ∀ (remaining i : Nat) (output : List α),
      (∀ j, j < remaining → (i + j) * stride + recordSize ≤ data.length) →
      parseRecordsFrom cast recordSize stride data remaining i output
        = some (output ++ (List.range remaining).map fun j =>
            cast ((data.drop ((i + j) * stride)).take recordSize)) := by
  intro remaining
  induction remaining with
  | zero =>
    intro i output _
    simp [parseRecordsFrom]
  | succ n ih =>
    intro i output hin
    have h0 : i * stride + recordSize ≤ data.length := by
      simpa using hin 0 (Nat.succ_pos n)
    have hrest : ∀ j, j < n → (i + 1 + j) * stride + recordSize ≤ data.length := by
      intro j hj
      have := hin (j + 1) (by omega)
      have e : i + 1 + j = i + (j + 1) := by omega
      rw [e]
      exact this
    rw [parseRecordsFrom]
    simp only [readBytes, if_pos h0]
    rw [ih (i + 1) _ hrest, List.range_succ_eq_map, List.map_cons, List.map_map]
    simp only [Nat.add_zero, List.append_assoc, List.singleton_append]
    congr 3
    apply List.map_congr_left
    intro j _
    simp only [Function.comp]
    have e : i + 1 + j = i + (j + 1) := by omega
    rw [e]

/-- The number of passes of a parse loop over `size / stride` records is the quotient itself when
it is below `2^31`. -/
theorem castToInt_toNat (n : Nat) (h : n < 2147483648) : (castToInt n).toNat = n := by
  unfold castToInt U32
  have hm : n % 4294967296 = n := Nat.mod_eq_of_lt (by omega)
  rw [hm, if_pos h]
  simp

/-- The number of passes of a parse loop never exceeds the quotient it is cast from. -/
theorem castToInt_toNat_le (n : Nat) (h : n < U32) : (castToInt n).toNat ≤ n := by
  unfold castToInt
  have hm : n % U32 = n := Nat.mod_eq_of_lt h
  rw [hm]
  split_ifs
  · simp
  · unfold U32 at h ⊢
    omega

/-- Reading a window of a buffer cut after `m` bytes gives the window of the whole buffer when
the window ends inside the first `m` bytes. -/
theorem take_drop_take (data : List Nat) (m a b : Nat) (h : a + b ≤ m) :
    ((data.take m).drop a).take b = (data.drop a).take b := by
  rw [List.drop_take, List.take_take]
  congr 1
  omega

/-- A blob that holds `count` whole records of `stride` bytes, each read through a cast that
takes `recordSize ≤ stride` bytes, parses into `count` records, record `j` decoded from the
leading bytes of the window `[stride * j, stride * (j + 1))`; the bytes behind the last whole
record make no difference. -/
theorem parseRecordsFrom_blob {α : Type} (cast : List Nat → α) (recordSize stride : Nat)
    (data : List Nat) (count : Nat) (hcount : count * stride ≤ data.length)
    (hrecord : recordSize ≤ stride) :
    parseRecordsFrom cast recordSize stride data count 0 []
        = some ((List.range count).map fun j =>
            cast (((data.drop (stride * j)).take stride).take recordSize))
    ∧ parseRecordsFrom cast recordSize stride (data.take (stride * count)) count 0 []
        = some ((List.range count).map fun j =>
            cast (((data.drop (stride * j)).take stride).take recordSize)) := by
  have hbound : ∀ j, j < count → j * stride + recordSize ≤ count * stride := by
    intro j hj
    have h1 : (j + 1) * stride ≤ count * stride := Nat.mul_le_mul_right stride hj
    have h2 : (j + 1) * stride = j * stride + stride := Nat.succ_mul j stride
    omega
  have hwin : ∀ j, ((data.drop (stride * j)).take stride).take recordSize
      = (data.drop (j * stride)).take recordSize := by
    intro j
    rw [List.take_take, Nat.min_eq_left hrecord, Nat.mul_comm]
  constructor
  · rw [parseRecordsFrom_eq cast recordSize stride data count 0 []
      (fun j hj => by
        have := hbound j hj
        simp only [Nat.zero_add]
        omega)]
    simp only [List.nil_append, Nat.zero_add, hwin]
  · have hlen : (data.take (stride * count)).length = count * stride := by
      rw [List.length_take, Nat.mul_comm]
      exact Nat.min_eq_left hcount
    rw [parseRecordsFrom_eq cast recordSize stride (data.take (stride * count)) count 0 []
      (fun j hj => by
        have := hbound j hj
        simp only [Nat.zero_add]
        omega)]
    simp only [List.nil_append, Nat.zero_add, hwin]
    congr 1
    apply List.map_congr_left
    intro j hj
    have hj2 : j < count := List.mem_range.1 hj
    have := hbound j hj2
    rw [take_drop_take data (stride * count) (j * stride) recordSize
      (by rw [Nat.mul_comm stride count]; exact this)]

/-- C14: for every blob of `s` bytes (`s` a `uint32_t`; the struct `OBCameraParam` taken to fit
into the `0xB0` bytes of an item and `OBD2CProfile` to have at least two bytes),
`alignCalibParamParse` returns exactly `floor(s / 0xB0)` records, record `i` decoded from the
bytes `[0xB0 * i, 0xB0 * (i + 1))` in blob order, and the bytes behind the last whole record are
ignored: the blob cut after the last whole record parses to the same list.  `d2cProfileInfoParse`
does the same with the size of `OBD2CProfile`.  A blob shorter than one record yields an empty
list. -/
theorem blob_parse_floor_records (L : RecordLayout) (data : List Nat)
    (hsize : data.length < U32)
    (hcam : L.sizeofOBCameraParam ≤ D2C_PARAMS_ITEM_SIZE)
    (hd2c : 2 ≤ L.sizeofOBD2CProfile) :
    (∃ records, AlgParseHelper.alignCalibParamParse L data data.length = some records
      ∧ records.length = data.length / 0xB0
      ∧ (∀ i, i < data.length / 0xB0 →
          records.get? i = some (L.castOBCameraParam
            (((data.drop (0xB0 * i)).take 0xB0).take L.sizeofOBCameraParam)))
      ∧ AlgParseHelper.alignCalibParamParse L (data.take (0xB0 * (data.length / 0xB0)))
          (0xB0 * (data.length / 0xB0)) = some records
      ∧ (data.length < 0xB0 → records = []))
    ∧ (∃ profiles, AlgParseHelper.d2cProfileInfoParse L data data.length = some profiles
      ∧ profiles.length = data.length / L.sizeofOBD2CProfile
      ∧ (∀ i, i < data.length / L.sizeofOBD2CProfile →
          profiles.get? i = some (L.castOBD2CProfile
            ((data.drop (L.sizeofOBD2CProfile * i)).take L.sizeofOBD2CProfile)))
      ∧ AlgParseHelper.d2cProfileInfoParse L
          (data.take (L.sizeofOBD2CProfile * (data.length / L.sizeofOBD2CProfile)))
          (L.sizeofOBD2CProfile * (data.length / L.sizeofOBD2CProfile)) = some profiles
      ∧ (data.length < L.sizeofOBD2CProfile → profiles = [])) := by
  have hU : data.length < 4294967296 := hsize
  constructor
  · have hq : data.length / 0xB0 < 2147483648 := by omega
    have hcount : data.length / 0xB0 * D2C_PARAMS_ITEM_SIZE ≤ data.length :=
      Nat.div_mul_le_self _ _
    obtain ⟨h1, h2⟩ := parseRecordsFrom_blob L.castOBCameraParam L.sizeofOBCameraParam
      D2C_PARAMS_ITEM_SIZE data (data.length / 0xB0) hcount hcam
    have hq2 : 0xB0 * (data.length / 0xB0) / 0xB0 = data.length / 0xB0 := by omega
    refine ⟨(List.range (data.length / 0xB0)).map fun j =>
      L.castOBCameraParam
        (((data.drop (D2C_PARAMS_ITEM_SIZE * j)).take D2C_PARAMS_ITEM_SIZE).take
          L.sizeofOBCameraParam), ?_, ?_, ?_, ?_, ?_⟩
    · show parseRecordsFrom _ _ _ _ (castToInt (data.length / 0xB0)).toNat 0 [] = _
      rw [castToInt_toNat _ hq]
      exact h1
    · simp
    · intro i hi
      rw [List.get?_eq_getElem?, List.getElem?_map, List.getElem?_range hi]
      rfl
    · show parseRecordsFrom _ _ _ _ (castToInt (0xB0 * (data.length / 0xB0) / 0xB0)).toNat 0 []
        = _
      rw [hq2, castToInt_toNat _ hq]
      exact h2
    · intro hshort
      have h0 : data.length / 0xB0 = 0 := by omega
      rw [h0]
      rfl
  · have hR : 0 < L.sizeofOBD2CProfile := by omega
    have hq : data.length / L.sizeofOBD2CProfile < 2147483648 := by
      have h1 : data.length / L.sizeofOBD2CProfile ≤ data.length / 2 :=
        Nat.div_le_div_left hd2c (by omega)
      omega
    have hcount : data.length / L.sizeofOBD2CProfile * L.sizeofOBD2CProfile ≤ data.length :=
      Nat.div_mul_le_self _ _
    obtain ⟨h1, h2⟩ := parseRecordsFrom_blob L.castOBD2CProfile L.sizeofOBD2CProfile
      L.sizeofOBD2CProfile data (data.length / L.sizeofOBD2CProfile) hcount (le_refl _)
    have hq2 : L.sizeofOBD2CProfile * (data.length / L.sizeofOBD2CProfile)
        / L.sizeofOBD2CProfile = data.length / L.sizeofOBD2CProfile :=
      Nat.mul_div_cancel_left _ hR
    refine ⟨(List.range (data.length / L.sizeofOBD2CProfile)).map fun j =>
      L.castOBD2CProfile
        (((data.drop (L.sizeofOBD2CProfile * j)).take L.sizeofOBD2CProfile).take
          L.sizeofOBD2CProfile), ?_, ?_, ?_, ?_, ?_⟩
    · show parseRecordsFrom _ _ _ _ (castToInt (data.length / L.sizeofOBD2CProfile)).toNat 0 []
        = _
      rw [castToInt_toNat _ hq]
      exact h1
    · simp
    · intro i hi
      rw [List.get?_eq_getElem?, List.getElem?_map, List.getElem?_range hi]
      simp only [Option.map_some']
      rw [List.take_take, Nat.min_self]
    · show parseRecordsFrom _ _ _ _
        (castToInt (L.sizeofOBD2CProfile * (data.length / L.sizeofOBD2CProfile)
          / L.sizeofOBD2CProfile)).toNat 0 [] = _
      rw [hq2, castToInt_toNat _ hq]
      exact h2
    · intro hshort
      have h0 : data.length / L.sizeofOBD2CProfile = 0 := Nat.div_eq_of_lt hshort
      rw [h0]
      rfl

/-- Witness of C14: a blob of 400 bytes holds two camera-parameter records (48 bytes are left
over) under `sampleLayout`. -/
theorem blob_parse_floor_records_witness :
    ∃ records,
      AlgParseHelper.alignCalibParamParse sampleLayout (List.replicate 400 0)
        (List.replicate 400 0).length = some records
      ∧ records.length = (List.replicate 400 0).length / 0xB0 :=
  let ⟨records, h1, h2, _⟩ :=
    (blob_parse_floor_records sampleLayout (List.replicate 400 0)
      (by rw [List.length_replicate]; unfold U32; omega) (by decide) (by decide)).1
  ⟨records, h1, h2⟩

/-- C15, at the failing input: for a buffer of 256 records (`size = 256 * sizeof
(OBSingleIMUParams)`) the quotient 256 is truncated to the `uint8_t` value 0, so
`parserIMUCalibParamRaw` returns `validNum = 0` and copies no record, whatever the bytes are,
while `min(3, floor(size / recordSize))` is 3. -/
theorem parserIMUCalibParamRaw_count_truncated (L : RecordLayout) (data : List Nat) :
    IMUCorrector.parserIMUCalibParamRaw L data (256 * L.sizeofOBSingleIMUParams)
        = some IMUCorrector.zeroIMUCalibrateParams
    ∧ IMUCorrector.zeroIMUCalibrateParams.validNum = 0
    ∧ min 3 (256 * sampleLayout.sizeofOBSingleIMUParams
        / sampleLayout.sizeofOBSingleIMUParams) = 3 := by
  refine ⟨?_, rfl, by decide⟩
  have hcount : (256 * L.sizeofOBSingleIMUParams / L.sizeofOBSingleIMUParams) % 256 = 0 := by
    rcases Nat.eq_zero_or_pos L.sizeofOBSingleIMUParams with h | h
    · rw [h]
    · rw [Nat.mul_div_cancel _ h]
  simp only [IMUCorrector.parserIMUCalibParamRaw, hcount]
  rfl

/-- C16, at the failing input: an IMU blob of one byte.  `realSize` is the `uint32_t` value
`1 - 60 = 4294967237`; with a record of 688 bytes `paramCount` is 124 and `validNum` 3, and the
first record is read from bytes 60 to 747 of a buffer that holds one byte: the read is outside
the blob. -/
theorem fetchImuCalibParam_short_blob :
    collectRawData (oneChunk [7]) = [7]
    ∧ (([7] : List Nat).length % U32 + U32 - IMU_CALIBRATION_FILE_OFFSET) % U32 = 4294967237
    ∧ (4294967237 / sampleLayout.sizeofOBSingleIMUParams) % 256 = 124
    ∧ readBytes (([7] : List Nat).drop IMU_CALIBRATION_FILE_OFFSET) 0
        sampleLayout.sizeofOBSingleIMUParams = none
    ∧ fetchImuCalibParam sampleLayout (oneChunk [7]) = none := by
  refine ⟨by decide, by decide, by decide, by decide, ?_⟩
  rfl

/-! ## Fetching the calibration -/

/-- A parse loop whose records all lie inside the buffer returns a list. -/
theorem parseRecordsFrom_isSome {α : Type} (cast : List Nat → α) (recordSize stride : Nat)
    (data : List Nat) (count : Nat)
    (h : ∀ j, j < count → j * stride + recordSize ≤ data.length) :
    ∃ l, parseRecordsFrom cast recordSize stride data count 0 [] = some l :=
  ⟨_, parseRecordsFrom_eq cast recordSize stride data count 0 []
    (fun j hj => by simpa using h j hj)⟩

/-- When `OBCameraParam` fits into an item, the first part of `fetchParamFromDevice` reads no
byte outside the blob. -/
theorem fetchCameraParams_isSome (L : RecordLayout) (list : List OBCameraParam)
    (transfer : RawDataTransfer) (hcam : L.sizeofOBCameraParam ≤ D2C_PARAMS_ITEM_SIZE) :
    ∃ l, fetchCameraParams L list transfer = some l := by
  unfold fetchCameraParams
  simp only []
  split_ifs with hne
  · have hlt : (collectRawData transfer).length % U32 / D2C_PARAMS_ITEM_SIZE < U32 := by
      have := Nat.mod_lt (collectRawData transfer).length (by unfold U32; omega : 0 < U32)
      have h2 := Nat.div_le_self ((collectRawData transfer).length % U32) D2C_PARAMS_ITEM_SIZE
      omega
    have hle := castToInt_toNat_le _ hlt
    have hmod := Nat.mod_le (collectRawData transfer).length U32
    obtain ⟨l, hl⟩ := parseRecordsFrom_isSome L.castOBCameraParam L.sizeofOBCameraParam
      D2C_PARAMS_ITEM_SIZE (collectRawData transfer)
      (castToInt ((collectRawData transfer).length % U32 / D2C_PARAMS_ITEM_SIZE)).toNat
      (by
        intro j hj
        unfold D2C_PARAMS_ITEM_SIZE at hle hcam hj ⊢
        omega)
    unfold AlgParseHelper.alignCalibParamParse
    rw [hl]
    exact ⟨_, rfl⟩
  · exact ⟨_, rfl⟩

/-- The second part of `fetchParamFromDevice` reads no byte outside the blob. -/
theorem fetchD2CProfiles_isSome (L : RecordLayout) (list : List OBD2CProfile)
    (transfer : RawDataTransfer) : ∃ l, fetchD2CProfiles L list transfer = some l := by
  unfold fetchD2CProfiles
  simp only []
  split_ifs with hne
  · have hlt : (collectRawData transfer).length % U32 / L.sizeofOBD2CProfile < U32 := by
      have := Nat.mod_lt (collectRawData transfer).length (by unfold U32; omega : 0 < U32)
      have h2 := Nat.div_le_self ((collectRawData transfer).length % U32) L.sizeofOBD2CProfile
      omega
    have hle := castToInt_toNat_le _ hlt
    have hmod := Nat.mod_le (collectRawData transfer).length U32
    have hdiv := Nat.div_mul_le_self ((collectRawData transfer).length % U32)
      L.sizeofOBD2CProfile
    exact parseRecordsFrom_isSome L.castOBD2CProfile L.sizeofOBD2CProfile
      L.sizeofOBD2CProfile (collectRawData transfer) _
      (by
        intro j hj
        have h1 : (j + 1) * L.sizeofOBD2CProfile
            ≤ ((collectRawData transfer).length % U32 / L.sizeofOBD2CProfile)
              * L.sizeofOBD2CProfile :=
          Nat.mul_le_mul_right _ (by omega)
        have h2 : (j + 1) * L.sizeofOBD2CProfile
            = j * L.sizeofOBD2CProfile + L.sizeofOBD2CProfile := Nat.succ_mul _ _
        omega)
  · exact ⟨_, rfl⟩

/-- The array `IdentityMatrix3x3` holds 1 on the diagonal and 0 elsewhere. -/
theorem identity3x3_entries (i j : Fin 3) :
    entry3x3 IMUCorrector.IdentityMatrix3x3 i j = (if i = j then 1 else 0) := by
  fin_cases i <;> fin_cases j <;> rfl

/-- The array `IdentityMatrix4x4` holds 1 on the diagonal and 0 elsewhere. -/
theorem identity4x4_entries (i j : Fin 4) :
    entry4x4 IMUCorrector.IdentityMatrix4x4 i j = (if i = j then 1 else 0) := by
  fin_cases i <;> fin_cases j <;> rfl

/-- C17: when the IMU transfer throws or delivers no byte, `fetchParamFromDevice` completes (the
struct `OBCameraParam` taken to fit into an item, so that the camera records are read inside
their blob) and the cached IMU calibration is the default of `getDefaultImuCalibParam`.  In the
default, the accelerometer and gyroscope scale-misalignment matrices, the body-to-gyroscope
matrix and the accel-to-gyro factor of unit 0 are the 3x3 identity, its IMU-to-camera extrinsic is
the 4x4 identity, both biases and all other members of unit 0 are zero, units 1 and 2 are zero
and `validNum` is 0. -/
theorem fetchParamFromDevice_default_imu (L : RecordLayout) (members : AlgParamMembers)
    (alignCalibParam d2cProfileList imuCalibParam : RawDataTransfer)
    (hcam : L.sizeofOBCameraParam ≤ D2C_PARAMS_ITEM_SIZE)
    (himu : imuCalibParam.throws = true
      ∨ ((imuCalibParam.chunks.filter fun c => c.1).flatMap fun c => c.2) = []) :
    (∃ m, fetchParamFromDevice L members alignCalibParam d2cProfileList imuCalibParam = some m
      ∧ m.imuCalibParam = IMUCorrector.getDefaultImuCalibParam)
    ∧ IMUCorrector.getDefaultImuCalibParam.validNum = 0
    ∧ (∀ i j : Fin 3,
        entry3x3 (IMUCorrector.getDefaultImuCalibParam.singleIMUParams 0).acc.scaleMisalignment
            i j = (if i = j then 1 else 0)
        ∧ entry3x3 (IMUCorrector.getDefaultImuCalibParam.singleIMUParams 0).gyro.scaleMisalignment
            i j = (if i = j then 1 else 0)
        ∧ entry3x3 (IMUCorrector.getDefaultImuCalibParam.singleIMUParams 0).body_to_gyroscope
            i j = (if i = j then 1 else 0)
        ∧ entry3x3 (IMUCorrector.getDefaultImuCalibParam.singleIMUParams 0).acc_to_gyro_factor
            i j = (if i = j then 1 else 0))
    ∧ (∀ i j : Fin 4,
        entry4x4 (IMUCorrector.getDefaultImuCalibParam.singleIMUParams 0).imu_to_cam_extrinsics
            i j = (if i = j then 1 else 0))
    ∧ (∀ i, (IMUCorrector.getDefaultImuCalibParam.singleIMUParams 0).acc.bias i = 0)
    ∧ (∀ i, (IMUCorrector.getDefaultImuCalibParam.singleIMUParams 0).gyro.bias i = 0)
    ∧ (∀ n, (IMUCorrector.getDefaultImuCalibParam.singleIMUParams 0).acc.otherMembers n = 0)
    ∧ (∀ n, (IMUCorrector.getDefaultImuCalibParam.singleIMUParams 0).gyro.otherMembers n = 0)
    ∧ (∀ n, (IMUCorrector.getDefaultImuCalibParam.singleIMUParams 0).otherMembers n = 0)
    ∧ IMUCorrector.getDefaultImuCalibParam.singleIMUParams 1 = IMUCorrector.zeroSingleIMUParams
    ∧ IMUCorrector.getDefaultImuCalibParam.singleIMUParams 2
        = IMUCorrector.zeroSingleIMUParams := by
  have hdata : collectRawData imuCalibParam = [] := by
    unfold collectRawData
    rcases himu with h | h
    · simp [h]
    · split_ifs
      · rfl
      · exact h
  have hfetch : fetchImuCalibParam L imuCalibParam
      = some IMUCorrector.getDefaultImuCalibParam := by
    simp [fetchImuCalibParam, hdata]
  obtain ⟨cams, hcams⟩ := fetchCameraParams_isSome L members.calibrationCameraParamList
    alignCalibParam hcam
  obtain ⟨profiles, hprofiles⟩ := fetchD2CProfiles_isSome L members.d2cProfileList
    d2cProfileList
  refine ⟨⟨⟨cams, profiles, IMUCorrector.getDefaultImuCalibParam⟩, ?_, rfl⟩, rfl, ?_, ?_,
    fun _ => rfl, fun _ => rfl, fun _ => rfl, fun _ => rfl, fun _ => rfl, rfl, rfl⟩
  · simp [fetchParamFromDevice, hcams, hprofiles, hfetch]
  · intro i j
    exact ⟨identity3x3_entries i j, identity3x3_entries i j, identity3x3_entries i j,
      identity3x3_entries i j⟩
  · intro i j
    exact identity4x4_entries i j

/-- Witness of C17: the IMU transfer throws; the other two deliver nothing. -/
theorem fetchParamFromDevice_default_imu_witness :
    ∃ m, fetchParamFromDevice sampleLayout initialMembers (oneChunk []) (oneChunk [])
        failedTransfer = some m
      ∧ m.imuCalibParam = IMUCorrector.getDefaultImuCalibParam :=
  (fetchParamFromDevice_default_imu sampleLayout initialMembers (oneChunk []) (oneChunk [])
    failedTransfer (by decide) (Or.inl rfl)).1

/-! ## Intrinsic resolution -/

/-- With an empty camera-parameter list the resolution of a video stream profile throws:
`unsupported_operation_exception` when no D2C entry is found, `std::out_of_range` from `at`
when one is found. -/
theorem resolveVideoIntrinsic_nil (mirrored : Bool) (d2cProfileList : List OBD2CProfile)
    (vsp : VideoStreamProfile) :
    resolveVideoIntrinsic mirrored d2cProfileList [] vsp
      = if (findBestMatchedD2CProfile d2cProfileList vsp zeroD2CProfile).1 then
          .error .out_of_range
        else .error (.unsupported_operation_exception "Can not find matched camera param!") := by
  unfold resolveVideoIntrinsic
  cases h : (findBestMatchedD2CProfile d2cProfileList vsp zeroD2CProfile).1 <;> simp [h]

/-- C18, as stated, fails: the camera-parameter blob is empty, so the list has no record, and
the D2C list holds a software-capable entry with color size 1280x720; `bindIntrinsic` for the
1280x720 color profile finds that entry and then fails in `at(paramIndex)` with
`std::out_of_range`, not with the unsupported-operation error. -/
theorem bindIntrinsic_empty_params_out_of_range :
    fetchCameraParams sampleLayout [] (oneChunk []) = some []
    ∧ (bindIntrinsic (.value false) IMUCorrector.getDefaultImuCalibParam
        [swProfile 640 576 1280 720] []
        [.video ⟨OB_STREAM_COLOR, 1280, 720⟩]).thrown = some .out_of_range := by
  refine ⟨rfl, ?_⟩
  have hfound : (findBestMatchedD2CProfile [swProfile 640 576 1280 720]
      ⟨OB_STREAM_COLOR, 1280, 720⟩ zeroD2CProfile).1 = true := by decide
  simp only [bindIntrinsic, bindIntrinsicLoop, resolveVideoIntrinsic_nil, hfound, if_true]

/-- C18, amended: after an empty camera-parameter blob (or a failed fetch of it) the
camera-parameter list has zero records, and a subsequent `bindIntrinsic` for a video stream
profile, a color profile in particular, registers nothing and fails: with the exception of the
property server when the mirror status cannot be read; otherwise with
`unsupported_operation_exception` when `findBestMatchedD2CProfile` finds no entry, and with
`std::out_of_range` when it finds one. -/
theorem bindIntrinsic_empty_params_fails (L : RecordLayout) (transfer : RawDataTransfer)
    (hempty : collectRawData transfer = [])
    (mirrorQuery : MirrorQuery) (imuCalibParam : OBIMUCalibrateParams)
    (d2cProfileList : List OBD2CProfile) (vsp : VideoStreamProfile) :
    fetchCameraParams L [] transfer = some []
    ∧ (bindIntrinsic mirrorQuery imuCalibParam d2cProfileList [] [.video vsp]).registered = []
    ∧ (∀ code, mirrorQuery = .throws code →
        (bindIntrinsic mirrorQuery imuCalibParam d2cProfileList [] [.video vsp]).thrown
          = some (.propertyServerException code))
    ∧ ((∀ code, mirrorQuery ≠ .throws code) →
        (findBestMatchedD2CProfile d2cProfileList vsp zeroD2CProfile).1 = false →
        (bindIntrinsic mirrorQuery imuCalibParam d2cProfileList [] [.video vsp]).thrown
          = some (.unsupported_operation_exception "Can not find matched camera param!"))
    ∧ ((∀ code, mirrorQuery ≠ .throws code) →
        (findBestMatchedD2CProfile d2cProfileList vsp zeroD2CProfile).1 = true →
        (bindIntrinsic mirrorQuery imuCalibParam d2cProfileList [] [.video vsp]).thrown
          = some .out_of_range) := by
  refine ⟨by simp [fetchCameraParams, hempty], ?_, ?_, ?_, ?_⟩
  · cases mirrorQuery <;>
      cases h : (findBestMatchedD2CProfile d2cProfileList vsp zeroD2CProfile).1 <;>
      simp [bindIntrinsic, bindIntrinsicLoop, resolveVideoIntrinsic_nil, h]
  · intro code hq
    subst hq
    rfl
  · intro hq hfound
    cases mirrorQuery with
    | throws code => exact absurd rfl (hq code)
    | notSupported =>
      simp [bindIntrinsic, bindIntrinsicLoop, resolveVideoIntrinsic_nil, hfound]
    | value mirrored =>
      simp [bindIntrinsic, bindIntrinsicLoop, resolveVideoIntrinsic_nil, hfound]
  · intro hq hfound
    cases mirrorQuery with
    | throws code => exact absurd rfl (hq code)
    | notSupported =>
      simp [bindIntrinsic, bindIntrinsicLoop, resolveVideoIntrinsic_nil, hfound]
    | value mirrored =>
      simp [bindIntrinsic, bindIntrinsicLoop, resolveVideoIntrinsic_nil, hfound]

/-- Witness of C18 (amended): an empty blob, an empty D2C list and a 1280x720 color profile:
nothing is registered and the unsupported-operation error is thrown. -/
theorem bindIntrinsic_empty_params_fails_witness :
    (bindIntrinsic (.value false) IMUCorrector.getDefaultImuCalibParam [] []
        [.video ⟨OB_STREAM_COLOR, 1280, 720⟩]).thrown
      = some (.unsupported_operation_exception "Can not find matched camera param!") :=
  (bindIntrinsic_empty_params_fails sampleLayout (oneChunk []) rfl (.value false)
    IMUCorrector.getDefaultImuCalibParam [] ⟨OB_STREAM_COLOR, 1280, 720⟩).2.2.2.1
    (fun code h => by cases h) rfl

/-- Every depth-class profile whose width and height differ is taken by no entry in the first
loop of `findBestMatchedD2CProfile`: the loop compares `depthWidth` with both. -/
theorem matchesResolution_depth_not_square (profile : VideoStreamProfile)
    (d2cProfile : OBD2CProfile) (hdepth : isDepthClass profile.type = true)
    (hne : profile.width ≠ profile.height) : matchesResolution profile d2cProfile = false := by
  have hcolor : profile.type ≠ OB_STREAM_COLOR := by
    intro h
    rw [h] at hdepth
    simp [isDepthClass] at hdepth
  unfold matchesResolution
  by_cases hw : castToU32 d2cProfile.depthWidth = profile.width
  · have hh : castToU32 d2cProfile.depthWidth ≠ profile.height := by
      rw [hw]
      exact hne
    simp [hw, hh, hcolor, hne]
  · simp [hw, hcolor]

/-- C19, at the failing input: a 640x576 depth profile and a list whose software-capable entry
with depth size 640x576 is preceded by a software-capable entry with depth size 320x288.  The
first loop takes no entry, because it compares `depthWidth` with the height 576, and the second
loop returns the 320x288 entry, which has the same aspect ratio; the 640x576 entry is not
returned. -/
theorem findBestMatchedD2CProfile_skips_exact_depth :
    (∀ d ∈ [swProfile 320 288 1280 720, swProfile 640 576 1280 720],
      matchesResolution ⟨OB_STREAM_DEPTH, 640, 576⟩ d = false)
    ∧ findBestMatchedD2CProfile [swProfile 320 288 1280 720, swProfile 640 576 1280 720]
        ⟨OB_STREAM_DEPTH, 640, 576⟩ zeroD2CProfile = (true, swProfile 320 288 1280 720)
    ∧ swProfile 320 288 1280 720 ≠ swProfile 640 576 1280 720 := by
  have h1 : ∀ d ∈ [swProfile 320 288 1280 720, swProfile 640 576 1280 720],
      matchesResolution ⟨OB_STREAM_DEPTH, 640, 576⟩ d = false :=
    fun d _ => matchesResolution_depth_not_square _ d rfl (by decide)
  have h2 : matchesRatio ⟨OB_STREAM_DEPTH, 640, 576⟩ (swProfile 320 288 1280 720) = true := by
    simp [matchesRatio, usesSoftwareAlign, swProfile, isDepthClass]
    norm_num
  refine ⟨h1, ?_, by decide⟩
  unfold findBestMatchedD2CProfile
  rw [List.find?_eq_none.2 (fun d hd => by simp [h1 d hd])]
  simp [List.find?, h2]

/-- C20, at the failing input: a 640x640 depth profile and a list whose only entry is
software-capable with depth size 640x480.  The entry matches neither by size nor by aspect
ratio, yet the first loop takes it, because `depthWidth` equals both the width and the height of
the profile; with one camera-parameter record `bindIntrinsic` then registers an intrinsic
instead of failing. -/
theorem findBestMatchedD2CProfile_takes_wrong_height :
    findBestMatchedD2CProfile [swProfile 640 480 1280 720] ⟨OB_STREAM_DEPTH, 640, 640⟩
        zeroD2CProfile = (true, swProfile 640 480 1280 720)
    ∧ castToU32 (swProfile 640 480 1280 720).depthHeight ≠ 640
    ∧ ((swProfile 640 480 1280 720).depthWidth : ℚ) / ((swProfile 640 480 1280 720).depthHeight : ℚ)
        ≠ (640 : ℚ) / (640 : ℚ)
    ∧ (bindIntrinsic (.value false) IMUCorrector.getDefaultImuCalibParam
        [swProfile 640 480 1280 720] [sampleCameraParam]
        [.video ⟨OB_STREAM_DEPTH, 640, 640⟩]).thrown = none := by
  have hfound : findBestMatchedD2CProfile [swProfile 640 480 1280 720]
      ⟨OB_STREAM_DEPTH, 640, 640⟩ zeroD2CProfile = (true, swProfile 640 480 1280 720) := by
    decide
  refine ⟨hfound, by decide, ?_, ?_⟩
  · simp [swProfile]
    norm_num
  · decide

namespace GlobalTimestampFilter

/-! ## Invariants of the sampling loop -/

/-- A property of the state that every pass through the loop body keeps holds when the loop has
ended. -/
theorem runLoop_invariant (cfg : FilterConfig) (P : FilterState → Prop)
    (hstep : ∀ s r, P s → P (iteration cfg s r))
    (reads : List (DeviceTimeRead × Bool)) (s : FilterState) (hs : P s) :
    P (runLoop cfg s reads) := by
  induction reads generalizing s with
  | nil => exact hs
  | cons x rest ih =>
    obtain ⟨r, ex⟩ := x
    simp only [runLoop]
    split_ifs
    · exact ih _ (hstep s r hs)
    · exact hstep s r hs

/-- A property of the state that every event keeps holds after any sequence of events. -/
theorem foldl_applyEvent_invariant (cfg : FilterConfig) (P : FilterState → Prop)
    (hstep : ∀ s e, P s → P (applyEvent cfg s e))
    (es : List FilterEvent) (s : FilterState) (hs : P s) :
    P (es.foldl (applyEvent cfg) s) := by
  induction es generalizing s with
  | nil => exact hs
  | cons e rest ih => exact ih _ (hstep s e hs)

/-- A sample is taken exactly when the read returns and the round trip is at most 2000. -/
theorem takeSample_eq_none_iff (r : DeviceTimeRead) :
    takeSample r = none ↔ r.devTime = none ∨ 2000 < subU64 r.sysTsp2Usec r.sysTsp1Usec := by
  unfold takeSample
  cases h : r.devTime with
  | none => simp
  | some time =>
    by_cases hr : 2000 < subU64 r.sysTsp2Usec r.sysTsp1Usec
    · simp [hr]
    · simp [hr]

/-- C25: the published model changes only in a pass that takes a sample and leaves at least 4
samples in the queue.  A pass fails exactly when the read throws or the round trip is above 2000
(a round trip of exactly 2000 gives a sample); a failed pass leaves the model as it is and its
queue is the old queue after the eviction, so no sample is appended; a pass that takes a sample
and leaves fewer than 4 samples leaves the model as it is, with its four fields. -/
theorem iteration_model_changes_only_on_fit (cfg : FilterConfig) (s : FilterState)
    (r : DeviceTimeRead) :
    (takeSample r = none ↔ r.devTime = none ∨ 2000 < subU64 r.sysTsp2Usec r.sysTsp1Usec)
    ∧ (∀ time, r.devTime = some time → subU64 r.sysTsp2Usec r.sysTsp1Usec = 2000 →
        takeSample r = some ⟨addU64 r.sysTsp2Usec r.sysTsp1Usec / 2, time⟩)
    ∧ (takeSample r = none →
        (iteration cfg s r).linearFuncParam = s.linearFuncParam
        ∧ (iteration cfg s r).samplingQueue = evictOldest cfg s.samplingQueue
        ∧ (iteration cfg s r).samplingQueue <:+ s.samplingQueue)
    ∧ ((iteration cfg s r).samplingQueue.length < 4 →
        (iteration cfg s r).linearFuncParam = s.linearFuncParam
        ∧ (iteration cfg s r).linearFuncParam.coefficientA = s.linearFuncParam.coefficientA
        ∧ (iteration cfg s r).linearFuncParam.constantB = s.linearFuncParam.constantB
        ∧ (iteration cfg s r).linearFuncParam.checkDataX = s.linearFuncParam.checkDataX
        ∧ (iteration cfg s r).linearFuncParam.checkDataY = s.linearFuncParam.checkDataY)
    ∧ ((iteration cfg s r).linearFuncParam ≠ s.linearFuncParam →
        (∃ p, takeSample r = some p) ∧ 4 ≤ (iteration cfg s r).samplingQueue.length) := by
  have hfail : takeSample r = none →
      (iteration cfg s r).linearFuncParam = s.linearFuncParam
      ∧ (iteration cfg s r).samplingQueue = evictOldest cfg s.samplingQueue := by
    intro h
    simp [iteration, h]
  have hshort : (iteration cfg s r).samplingQueue.length < 4 →
      (iteration cfg s r).linearFuncParam = s.linearFuncParam := by
    intro h
    cases ht : takeSample r with
    | none => exact (hfail ht).1
    | some p =>
      by_cases hq : (enqueueSample (evictOldest cfg s.samplingQueue) p).length < 4
      · simp [iteration, ht, hq]
      · exfalso
        apply hq
        have : (iteration cfg s r).samplingQueue
            = enqueueSample (evictOldest cfg s.samplingQueue) p := by
          simp [iteration, ht, hq]
        rw [← this]
        exact h
  refine ⟨takeSample_eq_none_iff r, ?_, ?_, ?_, ?_⟩
  · intro time ht hr
    simp [takeSample, ht, hr]
  · intro h
    refine ⟨(hfail h).1, (hfail h).2, ?_⟩
    rw [(hfail h).2]
    exact evictOldest_suffix cfg s.samplingQueue
  · intro h
    have := hshort h
    exact ⟨this, by rw [this], by rw [this], by rw [this], by rw [this]⟩
  · intro hne
    constructor
    · cases ht : takeSample r with
      | none => exact absurd (hfail ht).1 hne
      | some p => exact ⟨p, rfl⟩
    · by_contra hlt
      exact hne (hshort (by omega))

end GlobalTimestampFilter
namespace GlobalTimestampFilter

/-- The eviction keeps the order of the queue. -/
theorem evictOldest_nonDecreasing (cfg : FilterConfig) (queue : List TimestampPair)
    (h : nonDecreasing queue) : nonDecreasing (evictOldest cfg queue) := by
  unfold evictOldest
  split_ifs
  · exact List.Pairwise.sublist (List.tail_sublist queue) h
  · exact h

/-- The out-of-order check and the append keep the order of the queue. -/
theorem enqueueSample_nonDecreasing (queue : List TimestampPair) (p : TimestampPair)
    (h : nonDecreasing queue) : nonDecreasing (enqueueSample queue p) := by
  unfold enqueueSample
  cases hg : queue.getLast? with
  | none =>
    have : queue = [] := List.getLast?_eq_none_iff.1 hg
    subst this
    simp [nonDecreasing]
  | some back =>
    by_cases hlt : p.deviceTimestamp < back.deviceTimestamp
    · simp [hlt, nonDecreasing]
    · simp only [hlt, if_false]
      obtain ⟨ys, hys⟩ := List.getLast?_eq_some_iff.1 hg
      subst hys
      unfold nonDecreasing at h ⊢
      rw [List.pairwise_append] at h ⊢
      refine ⟨List.pairwise_append.2 h, List.pairwise_singleton _ _, ?_⟩
      intro a ha b hb
      rw [List.mem_singleton] at hb
      subst hb
      rcases List.mem_append.1 ha with h1 | h1
      · have := h.2.2 a h1 back (List.mem_singleton.2 rfl)
        omega
      · rw [List.mem_singleton] at h1
        subst h1
        omega

/-- Every event keeps the order of the queue. -/
theorem applyEvent_nonDecreasing (cfg : FilterConfig) (s : FilterState) (e : FilterEvent)
    (h : nonDecreasing s.samplingQueue) : nonDecreasing (applyEvent cfg s e).samplingQueue := by
  cases e with
  | reFittingCall => simp [applyEvent, reFitting, nonDecreasing]
  | loopIteration r =>
    simp only [applyEvent]
    rw [iteration_samplingQueue]
    cases takeSample r with
    | none => exact evictOldest_nonDecreasing cfg _ h
    | some p => exact enqueueSample_nonDecreasing _ p (evictOldest_nonDecreasing cfg _ h)

end GlobalTimestampFilter

namespace GlobalTimestampFilter

/-- C26: the queue stays in non-decreasing order of device timestamp.  Every loop iteration and
every `reFitting` call keeps the order, so from the empty queue of a new filter the queue is in
order after any sequence of iterations and `reFitting` calls; then no queued device time is
below the front one, and the 64-bit difference `x_i - x0` that the fit computes is the exact
difference for device times below `2^64`. -/
theorem queue_stays_in_device_order (cfg : FilterConfig) (model : LinearFuncParam)
    (es : List FilterEvent) :
    (∀ (s : FilterState) (e : FilterEvent), nonDecreasing s.samplingQueue →
        nonDecreasing (applyEvent cfg s e).samplingQueue)
    ∧ nonDecreasing (es.foldl (applyEvent cfg) ⟨[], model, 0⟩).samplingQueue
    ∧ ∀ front rest, (es.foldl (applyEvent cfg) ⟨[], model, 0⟩).samplingQueue = front :: rest →
        ∀ p ∈ front :: rest, front.deviceTimestamp ≤ p.deviceTimestamp
          ∧ (p.deviceTimestamp < U64 →
              ((subU64 p.deviceTimestamp front.deviceTimestamp : Nat) : Int)
                = (p.deviceTimestamp : Int) - (front.deviceTimestamp : Int)) := by
  have hsorted : nonDecreasing (es.foldl (applyEvent cfg) ⟨[], model, 0⟩).samplingQueue :=
    foldl_applyEvent_invariant cfg (fun s => nonDecreasing s.samplingQueue)
      (fun s e h => applyEvent_nonDecreasing cfg s e h) es ⟨[], model, 0⟩
      (by simp [nonDecreasing])
  refine ⟨fun s e h => applyEvent_nonDecreasing cfg s e h, hsorted, ?_⟩
  intro front rest hq p hp
  rw [hq] at hsorted
  have hle : front.deviceTimestamp ≤ p.deviceTimestamp := by
    rcases List.mem_cons.1 hp with h1 | h1
    · rw [h1]
    · exact (List.pairwise_cons.1 hsorted).1 p h1
  refine ⟨hle, ?_⟩
  intro hlt
  have hU : U64 = 18446744073709551616 := rfl
  unfold subU64
  rw [hU] at hlt ⊢
  omega

/-- The eviction leaves at most `maxQueueSize` samples of a queue of at most
`maxQueueSize + 1`. -/
theorem evictOldest_length_le (cfg : FilterConfig) (queue : List TimestampPair)
    (h : queue.length ≤ cfg.maxQueueSize + 1) :
    (evictOldest cfg queue).length ≤ cfg.maxQueueSize := by
  unfold evictOldest
  split_ifs with hgt
  · rw [List.length_tail]
    omega
  · omega

/-- The out-of-order check and the append make the queue at most one sample longer. -/
theorem enqueueSample_length_le (queue : List TimestampPair) (p : TimestampPair) :
    (enqueueSample queue p).length ≤ queue.length + 1 := by
  unfold enqueueSample
  cases queue.getLast? with
  | none => simp
  | some back =>
    by_cases hlt : p.deviceTimestamp < back.deviceTimestamp
    · simp [hlt]
    · simp [hlt]

/-- Every event keeps the queue at no more than `maxQueueSize + 1` samples. -/
theorem applyEvent_length_le (cfg : FilterConfig) (s : FilterState) (e : FilterEvent)
    (h : s.samplingQueue.length ≤ cfg.maxQueueSize + 1) :
    (applyEvent cfg s e).samplingQueue.length ≤ cfg.maxQueueSize + 1 := by
  cases e with
  | reFittingCall => simp [applyEvent, reFitting]
  | loopIteration r =>
    simp only [applyEvent]
    rw [iteration_samplingQueue]
    have hev := evictOldest_length_le cfg s.samplingQueue h
    cases takeSample r with
    | none => simp only []; omega
    | some p =>
      have := enqueueSample_length_le (evictOldest cfg s.samplingQueue) p
      simp only []
      omega

/-- C27: from an empty queue, after any sequence of loop iterations and `reFitting` calls the
queue holds at most `maxQueueSize + 1` samples, and so does the queue that `fittingLoop` leaves
and fits over.  The eviction of an iteration removes one sample when the size is above
`maxQueueSize` and none otherwise.  The bound is reached: with `maxQueueSize = 3` four reads
leave four samples. -/
theorem queue_length_at_most_max_plus_one (cfg : FilterConfig) (model : LinearFuncParam)
    (es : List FilterEvent) (reads : List (DeviceTimeRead × Bool)) :
    (es.foldl (applyEvent cfg) ⟨[], model, 0⟩).samplingQueue.length ≤ cfg.maxQueueSize + 1
    ∧ (fittingLoop cfg [] model reads).samplingQueue.length ≤ cfg.maxQueueSize + 1
    ∧ (∀ queue : List TimestampPair,
        (cfg.maxQueueSize < queue.length → evictOldest cfg queue = queue.tail
          ∧ (evictOldest cfg queue).length + 1 = queue.length)
        ∧ (queue.length ≤ cfg.maxQueueSize → evictOldest cfg queue = queue))
    ∧ (fittingLoop ⟨3, 1000⟩ [] ⟨0, 0, 0, 0⟩
        [(readAt 1000 0, false), (readAt 1002 1, false), (readAt 1004 2, false),
          (readAt 1006 3, false)]).samplingQueue.length = 4 := by
  refine ⟨?_, ?_, ?_, ?_⟩
  · exact foldl_applyEvent_invariant cfg
      (fun s => s.samplingQueue.length ≤ cfg.maxQueueSize + 1)
      (fun s e h => applyEvent_length_le cfg s e h) es ⟨[], model, 0⟩ (by simp)
  · exact runLoop_invariant cfg (fun s => s.samplingQueue.length ≤ cfg.maxQueueSize + 1)
      (fun s r h => applyEvent_length_le cfg s (.loopIteration r) h) reads ⟨[], model, 0⟩
      (by simp)
  · intro queue
    constructor
    · intro h
      have : evictOldest cfg queue = queue.tail := by simp [evictOldest, h]
      refine ⟨this, ?_⟩
      rw [this, List.length_tail]
      omega
    · intro h
      have : ¬ queue.length > cfg.maxQueueSize := by omega
      simp [evictOldest, this]
  · decide

end GlobalTimestampFilter
namespace GlobalTimestampFilter

/-! ## Wrap-around in the sums and the sign of the denominator -/

/-- C24: the offsets do not keep the 64-bit arithmetic of the fit from wrapping.  The reads of
`setBackReads` arrive in increasing device time with the host clock set back before the fourth
one; they leave `setBackWindow` in the queue, whose difference `y_3 - y0 = 900 - 1000` is
computed as `2^64 - 100`, so that `Ey` is not the exact sum.  The reads of `wideReads` leave
`wideWindow` in the queue, in increasing device and host time; the product
`(x_3 - x0) * (y_3 - y0)` is `2 * (2^32 - 1)^2`, computed modulo `2^64`, so that `Exy` is not
the exact sum. -/
theorem fitSums_wrap_around :
    (fittingLoop sampleConfig [] ⟨0, 0, 0, 0⟩ setBackReads).samplingQueue = setBackWindow
    ∧ nonDecreasing setBackWindow
    ∧ ((subU64 900 1000 : Nat) : Int) = (900 : Int) - 1000 + 18446744073709551616
    ∧ (fitSums setBackWindow).Ey
        = (setBackWindow.map fun p => (p.systemTimestamp : ℚ) - 1000).sum
          + 18446744073709551616
    ∧ (fittingLoop sampleConfig [] ⟨0, 0, 0, 0⟩ wideReads).samplingQueue = wideWindow
    ∧ nonDecreasing wideWindow
    ∧ subU64 4294967295 0 = 4294967295 - 0
    ∧ subU64 8589935590 1000 = 8589935590 - 1000
    ∧ mulU64 (subU64 4294967295 0) (subU64 8589935590 1000) + 18446744073709551616
        = (4294967295 - 0) * (8589935590 - 1000)
    ∧ (fitSums wideWindow).Exy + 18446744073709551616
        = (wideWindow.map fun p =>
            ((p.deviceTimestamp : ℚ) - 0) * ((p.systemTimestamp : ℚ) - 1000)).sum := by
  refine ⟨by decide, by decide, by decide, ?_, by decide, by decide, by decide, by decide,
    by decide, ?_⟩
  · norm_num [setBackWindow, fitSums, accumulate, subU64, mulU64, U64]
  · norm_num [wideWindow, fitSums, accumulate, subU64, mulU64, U64]

/-- The sums `Ex` and `Exx` are the exact sums of the offsets `x_i - x0` and of their squares
when no device time is below the front one and every offset is below `2^32`. -/
theorem fitSums_device_exact (front : TimestampPair) (rest : List TimestampPair)
    (hrange : ∀ p ∈ front :: rest, p.deviceTimestamp < U64)
    (horder : ∀ p ∈ front :: rest, front.deviceTimestamp ≤ p.deviceTimestamp)
    (hspan : ∀ p ∈ front :: rest, p.deviceTimestamp - front.deviceTimestamp < 4294967296) :
    (fitSums (front :: rest)).Ex
      = ((front :: rest).map fun p =>
          (p.deviceTimestamp : ℚ) - (front.deviceTimestamp : ℚ)).sum
    ∧ (fitSums (front :: rest)).Exx
      = (((front :: rest).map fun p =>
          (p.deviceTimestamp : ℚ) - (front.deviceTimestamp : ℚ)).map fun x => x * x).sum := by
  have hdx : ∀ p ∈ front :: rest,
      subU64 p.deviceTimestamp front.deviceTimestamp
        = p.deviceTimestamp - front.deviceTimestamp := by
    intro p hp
    have h1 := hrange p hp
    have h2 := horder p hp
    have h3 := hrange front (List.mem_cons_self _ _)
    unfold U64 at h1 h3
    unfold subU64 U64
    omega
  have e1 : ∀ p ∈ front :: rest,
      ((subU64 p.deviceTimestamp front.deviceTimestamp : Nat) : ℚ)
        = (p.deviceTimestamp : ℚ) - (front.deviceTimestamp : ℚ) := by
    intro p hp
    rw [hdx p hp, Nat.cast_sub (horder p hp)]
  have e2 : ∀ p ∈ front :: rest,
      ((mulU64 (subU64 p.deviceTimestamp front.deviceTimestamp)
          (subU64 p.deviceTimestamp front.deviceTimestamp) : Nat) : ℚ)
        = ((p.deviceTimestamp : ℚ) - (front.deviceTimestamp : ℚ))
          * ((p.deviceTimestamp : ℚ) - (front.deviceTimestamp : ℚ)) := by
    intro p hp
    rw [hdx p hp]
    have hlt := hspan p hp
    have hsq : (p.deviceTimestamp - front.deviceTimestamp)
        * (p.deviceTimestamp - front.deviceTimestamp) < U64 := by
      unfold U64
      nlinarith
    unfold mulU64
    rw [Nat.mod_eq_of_lt hsq, Nat.cast_mul, Nat.cast_sub (horder p hp)]
  have hfold : fitSums (front :: rest)
      = (front :: rest).foldl (accumulate front.deviceTimestamp front.systemTimestamp)
          ⟨0, 0, 0, 0⟩ := rfl
  rw [hfold, foldl_accumulate]
  simp only [zero_add, List.map_map]
  constructor
  · rw [List.map_congr_left e1]
  · rw [List.map_congr_left e2]
    rfl

end GlobalTimestampFilter
namespace GlobalTimestampFilter

/-- C28, at the failing input: the reads of `longReads` leave the four samples of `longWindow`
in the queue, in increasing device time with four distinct device times, and the denominator
that the loop computes for this window is negative.  The 64-bit square `(x_3 - x0)^2 = 2^64` of
the last offset wraps to 0, which the offsets are there to prevent according to the comment in
the source. -/
theorem fitDenominator_negative_after_wrap :
    (fittingLoop sampleConfig [] ⟨0, 0, 0, 0⟩ longReads).samplingQueue = longWindow
    ∧ 4 ≤ longWindow.length
    ∧ nonDecreasing longWindow
    ∧ (∃ p ∈ longWindow, ∃ p' ∈ longWindow, p.deviceTimestamp ≠ p'.deviceTimestamp)
    ∧ mulU64 (subU64 4294967296 0) (subU64 4294967296 0) = 0
    ∧ fitDenominator longWindow = 4 * 5 - (4294967296 + 3) * (4294967296 + 3)
    ∧ fitDenominator longWindow < 0 := by
  have hden : fitDenominator longWindow = 4 * 5 - (4294967296 + 3) * (4294967296 + 3) := by
    norm_num [fitDenominator, longWindow, fitSums, accumulate, subU64, mulU64, U64]
  refine ⟨by decide, by decide, by decide, ?_, by decide, hden, ?_⟩
  · exact ⟨⟨1000, 0⟩, by decide, ⟨1002, 1⟩, by decide, by decide⟩
  · rw [hden]
    norm_num

/-- Where the 64-bit squares do not wrap, the denominator is as C28 says: for every window of at
least 4 samples in which no device time is below the front one (the order that the loop keeps) and every offset `x_i - x0` is below `2^32`, so that
the 64-bit squares do not wrap, the denominator `n * Exx - Ex * Ex` of the fit is non-negative in
exact arithmetic, and it is zero if and only if all device times of the window are equal; the
quotients of the fit divide by this denominator.  A window of equal device times is reachable:
`equalTimeReads` leaves one in the queue, an equal device time not being out of order. -/
theorem fitDenominator_zero_iff_equal_times (front : TimestampPair)
    (rest : List TimestampPair)
    (_hlen : 4 ≤ (front :: rest).length)
    (hrange : ∀ p ∈ front :: rest, p.deviceTimestamp < U64)
    (horder : ∀ p ∈ front :: rest, front.deviceTimestamp ≤ p.deviceTimestamp)
    (hspan : ∀ p ∈ front :: rest, p.deviceTimestamp - front.deviceTimestamp < 4294967296) :
    0 ≤ fitDenominator (front :: rest)
    ∧ (fitDenominator (front :: rest) = 0
        ↔ ∀ p ∈ front :: rest, p.deviceTimestamp = front.deviceTimestamp)
    ∧ (fitDenominator (front :: rest) ≠ 0
        ↔ ∃ p ∈ front :: rest, ∃ p' ∈ front :: rest, p.deviceTimestamp ≠ p'.deviceTimestamp)
    ∧ (∀ devTime sysTspUsec,
        (fitLinearFunc (front :: rest) devTime sysTspUsec).coefficientA
          = ((fitSums (front :: rest)).Exy * ((front :: rest).length : ℚ)
              - (fitSums (front :: rest)).Ex * (fitSums (front :: rest)).Ey)
            / fitDenominator (front :: rest))
    ∧ (fittingLoop sampleConfig [] ⟨0, 0, 0, 0⟩ equalTimeReads).samplingQueue = equalTimeWindow
    ∧ (∀ p ∈ equalTimeWindow, p.deviceTimestamp = 5) := by
  obtain ⟨hEx, hExx⟩ := fitSums_device_exact front rest hrange horder hspan
  have hden : fitDenominator (front :: rest)
      = ((((front :: rest).map fun p =>
            (p.deviceTimestamp : ℚ) - (front.deviceTimestamp : ℚ)).length : ℚ)
          * (((front :: rest).map fun p =>
            (p.deviceTimestamp : ℚ) - (front.deviceTimestamp : ℚ)).map fun x => x * x).sum
          - ((front :: rest).map fun p =>
            (p.deviceTimestamp : ℚ) - (front.deviceTimestamp : ℚ)).sum
            * ((front :: rest).map fun p =>
            (p.deviceTimestamp : ℚ) - (front.deviceTimestamp : ℚ)).sum) := by
    unfold fitDenominator
    rw [hEx, hExx, List.length_map]
  have hnonneg : 0 ≤ fitDenominator (front :: rest) := by
    rw [hden]
    exact spread_nonneg _
  have hzero : fitDenominator (front :: rest) = 0
      ↔ ∀ p ∈ front :: rest, p.deviceTimestamp = front.deviceTimestamp := by
    constructor
    · intro h0 p hp
      by_contra hne
      have hpos := spread_pos ((front :: rest).map fun p =>
          (p.deviceTimestamp : ℚ) - (front.deviceTimestamp : ℚ))
        ⟨(p.deviceTimestamp : ℚ) - (front.deviceTimestamp : ℚ),
          List.mem_map.2 ⟨p, hp, rfl⟩,
          (front.deviceTimestamp : ℚ) - (front.deviceTimestamp : ℚ),
          List.mem_map.2 ⟨front, List.mem_cons_self _ _, rfl⟩,
          by
            intro heq
            apply hne
            have : (p.deviceTimestamp : ℚ) = (front.deviceTimestamp : ℚ) := by linarith
            exact_mod_cast this⟩
      rw [← hden, h0] at hpos
      exact lt_irrefl _ hpos
    · intro hall
      have hz : ∀ x ∈ (front :: rest).map (fun p =>
          (p.deviceTimestamp : ℚ) - (front.deviceTimestamp : ℚ)), x = 0 := by
        intro x hx
        obtain ⟨p, hp, rfl⟩ := List.mem_map.1 hx
        rw [hall p hp]
        ring
      have hs : ((front :: rest).map fun p =>
          (p.deviceTimestamp : ℚ) - (front.deviceTimestamp : ℚ)).sum = 0 :=
        List.sum_eq_zero hz
      have hss : (((front :: rest).map fun p =>
          (p.deviceTimestamp : ℚ) - (front.deviceTimestamp : ℚ)).map fun x => x * x).sum
            = 0 := by
        apply List.sum_eq_zero
        intro y hy
        obtain ⟨x, hx, rfl⟩ := List.mem_map.1 hy
        rw [hz x hx]
        ring
      rw [hden, hs, hss]
      ring
  refine ⟨hnonneg, hzero, ?_, fun _ _ => rfl, by decide, by decide⟩
  rw [Ne, hzero]
  constructor
  · intro h
    by_contra hno
    apply h
    intro p hp
    by_contra hne
    exact hno ⟨p, hp, front, List.mem_cons_self _ _, hne⟩
  · rintro ⟨p, hp, p', hp', hne⟩ hall
    exact hne ((hall p hp).trans (hall p' hp').symm)

/-- The denominator at the window of four samples with the device time 5: it is zero. -/
theorem fitDenominator_zero_iff_equal_times_witness :
    4 ≤ equalTimeWindow.length
    ∧ fitDenominator equalTimeWindow = 0
    ∧ (fittingLoop sampleConfig [] ⟨0, 0, 0, 0⟩ equalTimeReads).samplingQueue
        = equalTimeWindow := by
  have h := fitDenominator_zero_iff_equal_times ⟨1000, 5⟩ [⟨1002, 5⟩, ⟨1004, 5⟩, ⟨1006, 5⟩]
    (by decide) (by decide) (by decide) (by decide)
  exact ⟨by decide, h.2.1.2 (by decide), h.2.2.2.2.1⟩

end GlobalTimestampFilter
namespace CameraParamProcessor

/-! ## Mirror and rotation of camera parameters -/

/-- Mirroring a transform twice gives the transform back. -/
theorem d2cTransformParamsMirror_twice (transform : OBExtrinsic) :
    d2cTransformParamsMirror (d2cTransformParamsMirror transform) = transform := by
  obtain ⟨rot, trans⟩ := transform
  simp only [d2cTransformParamsMirror, scaleEntry]
  congr 1
  · funext i
    fin_cases i <;> simp [Function.update]
  · funext i
    fin_cases i <;> simp [Function.update]


/-- Mirroring a distortion twice gives the distortion back. -/
theorem distortionParamMirror_twice (distort : OBCameraDistortion) :
    distortionParamMirror (distortionParamMirror distort) = distort := by
  obtain ⟨k1, k2, k3, k4, k5, k6, p1, p2, model⟩ := distort
  simp [distortionParamMirror]


end CameraParamProcessor
namespace CameraParamProcessor

/-- Scaling an entry of an array by 1 leaves the array as it is. -/
theorem scaleEntry_one {n : Nat} (array : Fin n → ℚ) (i : Fin n) :
    scaleEntry array i 1 = array := by
  unfold scaleEntry
  rw [mul_one, Function.update_eq_self]


/-- The quarter-turn functions of the distortion undo each other. -/
theorem distortionParamRotate_inverse (distort : OBCameraDistortion) :
    distortionParamRotate270 (distortionParamRotate90 distort) = distort
    ∧ distortionParamRotate90 (distortionParamRotate270 distort) = distort := by
  obtain ⟨k1, k2, k3, k4, k5, k6, p1, p2, model⟩ := distort
  constructor <;> simp [distortionParamRotate270, distortionParamRotate90]

/-- The quarter-turn functions of the transform undo each other. -/
theorem d2cTransformParamsRotate_inverse (transform : OBExtrinsic) :
    d2cTransformParamsRotate270 (d2cTransformParamsRotate90 transform) = transform
    ∧ d2cTransformParamsRotate90 (d2cTransformParamsRotate270 transform) = transform := by
  obtain ⟨rot, trans⟩ := transform
  constructor
  · simp only [d2cTransformParamsRotate270, d2cTransformParamsRotate90, scaleEntry_one]
    congr 1
    funext i
    fin_cases i <;> simp [Function.update]
  · simp only [d2cTransformParamsRotate270, d2cTransformParamsRotate90, scaleEntry_one]
    congr 1
    funext i
    fin_cases i <;> simp [Function.update]


end CameraParamProcessor
namespace CameraParamProcessor

/-! ## Composition and inversion of extrinsics -/

/-- Two extrinsics with the same rotation matrix have the same array `rot`. -/
theorem rot_eq_of_rotation_eq (a b : OBExtrinsic) (h : rotation a = rotation b) :
    a.rot = b.rot := by
  funext idx
  have key : ∀ i j : Fin 3, entry3x3 a.rot i j = entry3x3 b.rot i j := by
    intro i j
    have := congrFun (congrFun h i) j
    simpa [rotation] using this
  fin_cases idx
  · exact key 0 0
  · exact key 0 1
  · exact key 0 2
  · exact key 1 0
  · exact key 1 1
  · exact key 1 2
  · exact key 2 0
  · exact key 2 1
  · exact key 2 2

/-- The rotation matrix of the identity extrinsic is the identity matrix. -/
theorem rotation_identityExtrinsic : rotation identityExtrinsic = 1 := by
  ext i j
  fin_cases i <;> fin_cases j <;> rfl

/-- The rotation of `inverseExtrinsic` is the transposed rotation. -/
theorem rotation_inverseExtrinsic (e : OBExtrinsic) :
    rotation (inverseExtrinsic e) = (rotation e).transpose := by
  ext i j
  fin_cases i <;> fin_cases j <;> rfl

/-- The translation of `inverseExtrinsic` is `-Rᵀ t`. -/
theorem trans_inverseExtrinsic (e : OBExtrinsic) :
    (inverseExtrinsic e).trans = -((rotation e).transpose.mulVec e.trans) := by
  have hinv : (inverseExtrinsic e).trans
      = ![-e.rot 0 * e.trans 0 - e.rot 3 * e.trans 1 - e.rot 6 * e.trans 2,
          -e.rot 1 * e.trans 0 - e.rot 4 * e.trans 1 - e.rot 7 * e.trans 2,
          -e.rot 2 * e.trans 0 - e.rot 5 * e.trans 1 - e.rot 8 * e.trans 2] := rfl
  rw [hinv]
  funext i
  fin_cases i <;>
    simp [rotation, entry3x3, Matrix.mulVec, Matrix.dotProduct, Fin.sum_univ_three] <;> ring

/-- The rotation of `multiplyExtrinsic` is the product of the rotations. -/
theorem rotation_multiplyExtrinsic (a b : OBExtrinsic) :
    rotation (multiplyExtrinsic a b) = rotation a * rotation b := by
  ext i j
  fin_cases i <;> fin_cases j <;>
    simp [multiplyExtrinsic, rotation, entry3x3, Matrix.mul_apply, Fin.sum_univ_three]

/-- The translation of `multiplyExtrinsic` is `Ra tb + ta`. -/
theorem trans_multiplyExtrinsic (a b : OBExtrinsic) :
    (multiplyExtrinsic a b).trans = (rotation a).mulVec b.trans + a.trans := by
  funext i
  fin_cases i <;>
    simp [multiplyExtrinsic, rotation, entry3x3, Matrix.mulVec, Matrix.dotProduct,
      Fin.sum_univ_three]

/-- An extrinsic with the identity rotation matrix and zero translation is the identity
extrinsic. -/
theorem eq_identityExtrinsic (x : OBExtrinsic) (hrot : rotation x = 1) (htrans : x.trans = 0) :
    x = identityExtrinsic := by
  obtain ⟨rot, trans⟩ := x
  have h1 : rot = identityExtrinsic.rot :=
    rot_eq_of_rotation_eq ⟨rot, trans⟩ identityExtrinsic
      (by rw [hrot, rotation_identityExtrinsic])
  have h2 : trans = identityExtrinsic.trans := by
    simp only [] at htrans
    rw [htrans]
    rfl
  rw [h1, h2]

/-- C23: for an extrinsic `e` whose rotation matrix `R` is orthonormal, in exact arithmetic,
`inverseExtrinsic e` has the rotation `Rᵀ` and the translation `-Rᵀ t`, `multiplyExtrinsic a b`
has the rotation `Ra * Rb` and the translation `Ra tb + ta`, and both
`multiplyExtrinsic e (inverseExtrinsic e)` and `multiplyExtrinsic (inverseExtrinsic e) e` are the
identity extrinsic. -/
theorem inverse_composes_to_identity (e : OBExtrinsic)
    (horth : rotation e * (rotation e).transpose = 1) :
    rotation (inverseExtrinsic e) = (rotation e).transpose
    ∧ (inverseExtrinsic e).trans = -((rotation e).transpose.mulVec e.trans)
    ∧ (∀ a b : OBExtrinsic,
        rotation (multiplyExtrinsic a b) = rotation a * rotation b
        ∧ (multiplyExtrinsic a b).trans = (rotation a).mulVec b.trans + a.trans)
    ∧ multiplyExtrinsic e (inverseExtrinsic e) = identityExtrinsic
    ∧ multiplyExtrinsic (inverseExtrinsic e) e = identityExtrinsic := by
  have horth2 : (rotation e).transpose * rotation e = 1 := Matrix.mul_eq_one_comm.1 horth
  refine ⟨rotation_inverseExtrinsic e, trans_inverseExtrinsic e,
    fun a b => ⟨rotation_multiplyExtrinsic a b, trans_multiplyExtrinsic a b⟩, ?_, ?_⟩
  · apply eq_identityExtrinsic
    · rw [rotation_multiplyExtrinsic, rotation_inverseExtrinsic, horth]
    · rw [trans_multiplyExtrinsic, trans_inverseExtrinsic, Matrix.mulVec_neg,
        Matrix.mulVec_mulVec, horth, Matrix.one_mulVec]
      simp
  · apply eq_identityExtrinsic
    · rw [rotation_multiplyExtrinsic, rotation_inverseExtrinsic, horth2]
    · rw [trans_multiplyExtrinsic, trans_inverseExtrinsic, rotation_inverseExtrinsic]
      simp

/-- C23 at the extrinsic of `turnedCameraParam`, a rotation by the 3-4-5 angle about the third
axis with the translation `(10, 20, 30)`. -/
theorem inverse_composes_to_identity_witness :
    rotation turnedCameraParam.transform * (rotation turnedCameraParam.transform).transpose = 1
    ∧ multiplyExtrinsic turnedCameraParam.transform
        (inverseExtrinsic turnedCameraParam.transform) = identityExtrinsic
    ∧ multiplyExtrinsic (inverseExtrinsic turnedCameraParam.transform)
        turnedCameraParam.transform = identityExtrinsic := by
  have horth : rotation turnedCameraParam.transform
      * (rotation turnedCameraParam.transform).transpose = 1 := by
    ext i j
    fin_cases i <;> fin_cases j <;>
      norm_num [rotation, entry3x3, turnedCameraParam, Matrix.mul_apply, Fin.sum_univ_three,
        Matrix.one_apply, Fin.ext_iff]
  have h := inverse_composes_to_identity turnedCameraParam.transform horth
  exact ⟨horth, h.2.2.2.1, h.2.2.2.2⟩

end CameraParamProcessor
namespace IMUCorrector

/-! ## Correction of IMU samples -/

end IMUCorrector
/-! ## The final rescale of the intrinsic -/

namespace CameraParamProcessor

/-! ## Mirror of the principal point in `float` arithmetic -/

/-- When the subtractions are exact, the mirrored coordinate is `size - c - 1` and its mirror
is `c` again. -/
theorem mirror_coordinate_twice (size : Int) (c : ℚ) (h : subtractsExactly size c) :
    roundToFloat (roundToFloat (1 * (size : ℚ) - c) - 1) = (size : ℚ) - c - 1
    ∧ roundToFloat (roundToFloat (1 * (size : ℚ) - ((size : ℚ) - c - 1)) - 1) = c := by
  obtain ⟨hc, hc1, hd, hd1⟩ := h
  constructor
  · rw [one_mul, hd.1, hd1.1]
  · have e1 : 1 * (size : ℚ) - ((size : ℚ) - c - 1) = c + 1 := by ring
    have e2 : c + 1 - 1 = c := by ring
    rw [e1, hc1.1, e2, hc.1]

/-- A coordinate between 0 and a size of at most 32767 that is a multiple of `1/256` is
subtracted exactly. -/
theorem subtractsExactly_of_multiple (size m : Int) (c : ℚ) (hc : c = (m : ℚ) / 256)
    (h0 : 0 ≤ c) (h1 : c ≤ (size : ℚ)) (h2 : size ≤ 32767) : subtractsExactly size c := by
  have hs : (size : ℚ) ≤ 32767 := by exact_mod_cast h2
  refine ⟨isFloat_of_multiple c m hc ?_, isFloat_of_multiple (c + 1) (m + 256) ?_ ?_,
    isFloat_of_multiple ((size : ℚ) - c) (256 * size - m) ?_ ?_,
    isFloat_of_multiple ((size : ℚ) - c - 1) (256 * size - m - 256) ?_ ?_⟩
  · rw [abs_le]; constructor <;> linarith
  · rw [hc]; push_cast; ring
  · rw [abs_le]; constructor <;> linarith
  · rw [hc]; push_cast; ring
  · rw [abs_le]; constructor <;> linarith
  · rw [hc]; push_cast; ring
  · rw [abs_le]; constructor <;> linarith

/-- The `float` nearest to `640 - 200.3f`: the exact difference lies half-way between two
`float` values and goes to the even one. -/
theorem roundToFloat_640_minus : roundToFloat (28816179 / 65536) = 14408090 / 32768 := by
  rw [roundToFloat_of_binade _ 8 (by norm_num) (by norm_num [abs_of_pos])
    (by norm_num [abs_of_pos])]
  rw [roundHalfEven_of_floor _ 14408089 (by rw [Int.floor_eq_iff]; norm_num)]
  norm_num

/-- The `float` nearest to `576 - 200.3f`: the exact difference lies half-way between two
`float` values and goes to the even one. -/
theorem roundToFloat_576_minus : roundToFloat (24621875 / 65536) = 12310938 / 32768 := by
  rw [roundToFloat_of_binade _ 8 (by norm_num) (by norm_num [abs_of_pos])
    (by norm_num [abs_of_pos])]
  rw [roundHalfEven_of_floor _ 12310937 (by rw [Int.floor_eq_iff]; norm_num)]
  norm_num

/-- A quotient `m / 32768` with `|m| < 2^24` is a `float` value. -/
theorem roundToFloat_div_32768 (m : Int) (hm : |m| < 2 ^ 24) :
    roundToFloat ((m : ℚ) / 32768) = (m : ℚ) / 32768 := by
  have h := roundToFloat_exact m (-15) hm (by norm_num)
  have e : (m : ℚ) * (2 : ℚ) ^ (-15 : Int) = (m : ℚ) / 32768 := by norm_num; ring
  rw [e] at h
  exact h

/-- The mirror of the coordinate `200.3f` in a size of 640 is `14375322 / 32768`, about
438.70001, and the mirror of that is `13126860 / 65536`, about 200.29999. -/
theorem mirror_coordinate_640 :
    roundToFloat (roundToFloat (1 * ((640 : Int) : ℚ) - float200_3) - 1) = 14375322 / 32768
    ∧ roundToFloat (roundToFloat (1 * ((640 : Int) : ℚ) - 14375322 / 32768) - 1)
      = 13126860 / 65536 := by
  have e1 : 1 * ((640 : Int) : ℚ) - float200_3 = 28816179 / 65536 := by
    norm_num [float200_3]
  have e2 : (14408090 / 32768 : ℚ) - 1 = ((14375322 : Int) : ℚ) / 32768 := by norm_num
  have e3 : 1 * ((640 : Int) : ℚ) - 14375322 / 32768 = ((6596198 : Int) : ℚ) / 32768 := by
    norm_num
  have e4 : (((6596198 : Int) : ℚ) / 32768) - 1 = ((6563430 : Int) : ℚ) / 32768 := by norm_num
  constructor
  · rw [e1, roundToFloat_640_minus, e2, roundToFloat_div_32768 _ (by norm_num)]
    norm_num
  · rw [e3, roundToFloat_div_32768 _ (by norm_num), e4,
      roundToFloat_div_32768 _ (by norm_num)]
    norm_num

/-- The mirror of the coordinate `200.3f` in a size of 576 is `12278170 / 32768`, about
374.70001, and the mirror of that is `13126860 / 65536`, about 200.29999. -/
theorem mirror_coordinate_576 :
    roundToFloat (roundToFloat (1 * ((576 : Int) : ℚ) - float200_3) - 1) = 12278170 / 32768
    ∧ roundToFloat (roundToFloat (1 * ((576 : Int) : ℚ) - 12278170 / 32768) - 1)
      = 13126860 / 65536 := by
  have e1 : 1 * ((576 : Int) : ℚ) - float200_3 = 24621875 / 65536 := by
    norm_num [float200_3]
  have e2 : (12310938 / 32768 : ℚ) - 1 = ((12278170 : Int) : ℚ) / 32768 := by norm_num
  have e3 : 1 * ((576 : Int) : ℚ) - 12278170 / 32768 = ((6596198 : Int) : ℚ) / 32768 := by
    norm_num
  have e4 : (((6596198 : Int) : ℚ) / 32768) - 1 = ((6563430 : Int) : ℚ) / 32768 := by norm_num
  constructor
  · rw [e1, roundToFloat_576_minus, e2, roundToFloat_div_32768 _ (by norm_num)]
    norm_num
  · rw [e3, roundToFloat_div_32768 _ (by norm_num), e4,
      roundToFloat_div_32768 _ (by norm_num)]
    norm_num

/-- The rational `float200_3` is a finite `float` value. -/
theorem isFloat_float200_3 : isFloat float200_3 := by
  have h := isFloat_of_exact 13126861 (-16) (by norm_num) (by norm_num) (by norm_num)
  have e : ((13126861 : Int) : ℚ) * (2 : ℚ) ^ (-16 : Int) = float200_3 := by
    norm_num [float200_3]
  rw [e] at h
  exact h

end CameraParamProcessor
namespace CameraParamProcessor

/-- Mirroring a distortion changes the sign of `p2` and nothing else. -/
theorem distortionParamMirror_neg (distort : OBCameraDistortion) :
    distortionParamMirror distort = { distort with p2 := -distort.p2 } := by
  simp [distortionParamMirror]

/-- Mirroring an intrinsic twice gives the intrinsic back when the subtractions are exact. -/
theorem cameraIntrinsicParamsMirror_twice (intrinsic : OBCameraIntrinsic)
    (h : subtractsExactly intrinsic.width intrinsic.cx) :
    cameraIntrinsicParamsMirror intrinsic
        = { intrinsic with cx := (intrinsic.width : ℚ) - intrinsic.cx - 1 }
    ∧ cameraIntrinsicParamsMirror (cameraIntrinsicParamsMirror intrinsic) = intrinsic := by
  obtain ⟨fx, fy, cx, cy, width, height⟩ := intrinsic
  obtain ⟨h1, h2⟩ := mirror_coordinate_twice width cx h
  have e1 : cameraIntrinsicParamsMirror ⟨fx, fy, cx, cy, width, height⟩
      = ⟨fx, fy, (width : ℚ) - cx - 1, cy, width, height⟩ := by
    simp only [cameraIntrinsicParamsMirror, h1]
  refine ⟨e1, ?_⟩
  rw [e1]
  simp only [cameraIntrinsicParamsMirror, h2]

/-- C22, as stated, fails: in `float` arithmetic the intrinsic of a 640x576 image with
`cx = 200.3f` is mirrored to `cx = 438.70001` and mirrored again to `cx = 200.29999`, the `float`
below `200.3f`, because `640 - 200.3f` is rounded; neither the intrinsic nor a camera-parameter
record that holds it is returned by two mirror transforms. -/
theorem mirror_twice_moves_cx :
    isFloat float200_3
    ∧ offCentreIntrinsic.cx = float200_3
    ∧ (cameraIntrinsicParamsMirror offCentreIntrinsic).cx = 14375322 / 32768
    ∧ (cameraIntrinsicParamsMirror (cameraIntrinsicParamsMirror offCentreIntrinsic)).cx
        = 13126860 / 65536
    ∧ (13126860 / 65536 : ℚ) ≠ float200_3
    ∧ cameraIntrinsicParamsMirror (cameraIntrinsicParamsMirror offCentreIntrinsic)
        ≠ offCentreIntrinsic
    ∧ mirrorCameraParam (mirrorCameraParam offCentreCameraParam) ≠ offCentreCameraParam := by
  obtain ⟨h1, h2⟩ := mirror_coordinate_640
  have hne : (13126860 / 65536 : ℚ) ≠ float200_3 := by norm_num [float200_3]
  have hm1 : (cameraIntrinsicParamsMirror offCentreIntrinsic).cx = 14375322 / 32768 := h1
  have hm2 : (cameraIntrinsicParamsMirror (cameraIntrinsicParamsMirror offCentreIntrinsic)).cx
      = 13126860 / 65536 := by
    show roundToFloat (roundToFloat (1 * ((640 : Int) : ℚ)
      - (cameraIntrinsicParamsMirror offCentreIntrinsic).cx) - 1) = _
    rw [hm1, h2]
  refine ⟨isFloat_float200_3, rfl, hm1, hm2, hne, ?_, ?_⟩
  · intro heq
    have := congrArg OBCameraIntrinsic.cx heq
    rw [hm2] at this
    exact hne this
  · intro heq
    have := congrArg (fun p : OBCameraParam => p.rgbIntrinsic.cx) heq
    have hcx : (mirrorCameraParam (mirrorCameraParam offCentreCameraParam)).rgbIntrinsic.cx
        = (cameraIntrinsicParamsMirror (cameraIntrinsicParamsMirror offCentreIntrinsic)).cx :=
      rfl
    simp only [] at this
    rw [hcx, hm2] at this
    exact hne this

/-- C22, amended: in `float` arithmetic the mirror transform changes `cx` and `p2` only, and
two applications return `p2` and the depth-to-color transform exactly.  Whenever the subtractions
on `cx` are exact (`cx`, `cx + 1`, `width - cx` and `width - cx - 1` are `float` values, as for
every `cx` between 0 and a width of at most 32767 that is a multiple of `1/256`), the mirror sets
`cx` to `width - cx - 1`, two applications return the intrinsic and distortion pair, and
`mirrorCameraParam` applied twice returns the camera-parameter record, its transform
included. -/
theorem mirror_twice_restores (intrinsic : OBCameraIntrinsic) (distort : OBCameraDistortion)
    (cameraParam : OBCameraParam)
    (hcx : subtractsExactly intrinsic.width intrinsic.cx)
    (hrgb : subtractsExactly cameraParam.rgbIntrinsic.width cameraParam.rgbIntrinsic.cx)
    (hdepth : subtractsExactly cameraParam.depthIntrinsic.width
      cameraParam.depthIntrinsic.cx) :
    cameraIntrinsicParamsMirror intrinsic
        = { intrinsic with cx := (intrinsic.width : ℚ) - intrinsic.cx - 1 }
    ∧ distortionParamMirror distort = { distort with p2 := -distort.p2 }
    ∧ cameraIntrinsicParamsMirror (cameraIntrinsicParamsMirror intrinsic) = intrinsic
    ∧ distortionParamMirror (distortionParamMirror distort) = distort
    ∧ d2cTransformParamsMirror (d2cTransformParamsMirror cameraParam.transform)
        = cameraParam.transform
    ∧ mirrorCameraParam (mirrorCameraParam cameraParam) = cameraParam
    ∧ (∀ i : OBCameraIntrinsic,
        { cameraIntrinsicParamsMirror i with cx := i.cx } = i
        ∧ { cameraIntrinsicParamsMirror (cameraIntrinsicParamsMirror i) with cx := i.cx } = i)
    ∧ (∀ (size m : Int) (c : ℚ), c = (m : ℚ) / 256 → 0 ≤ c → c ≤ (size : ℚ) → size ≤ 32767 →
        subtractsExactly size c) := by
  refine ⟨(cameraIntrinsicParamsMirror_twice intrinsic hcx).1, distortionParamMirror_neg distort,
    (cameraIntrinsicParamsMirror_twice intrinsic hcx).2, distortionParamMirror_twice distort,
    d2cTransformParamsMirror_twice _, ?_, ?_, ?_⟩
  · obtain ⟨di, ri, dd, rd, t, m⟩ := cameraParam
    simp only [mirrorCameraParam, (cameraIntrinsicParamsMirror_twice ri hrgb).2,
      (cameraIntrinsicParamsMirror_twice di hdepth).2, distortionParamMirror_twice,
      d2cTransformParamsMirror_twice]
  · intro i
    exact ⟨rfl, rfl⟩
  · intro size m c hc h0 h1 h2
    exact subtractsExactly_of_multiple size m c hc h0 h1 h2

/-- C22 at the record `halfPixelCameraParam`, whose principal points lie on half pixels: the
subtractions are exact and two mirror transforms return the record. -/
theorem mirror_twice_restores_witness :
    subtractsExactly halfPixelCameraParam.rgbIntrinsic.width halfPixelCameraParam.rgbIntrinsic.cx
    ∧ subtractsExactly halfPixelCameraParam.depthIntrinsic.width
        halfPixelCameraParam.depthIntrinsic.cx
    ∧ (cameraIntrinsicParamsMirror halfPixelCameraParam.depthIntrinsic).cx = 637 / 2
    ∧ mirrorCameraParam (mirrorCameraParam halfPixelCameraParam) = halfPixelCameraParam := by
  have hrgb : subtractsExactly halfPixelCameraParam.rgbIntrinsic.width
      halfPixelCameraParam.rgbIntrinsic.cx :=
    subtractsExactly_of_multiple 1280 163968 (1281 / 2) (by norm_num) (by norm_num)
      (by norm_num) (by norm_num)
  have hdepth : subtractsExactly halfPixelCameraParam.depthIntrinsic.width
      halfPixelCameraParam.depthIntrinsic.cx :=
    subtractsExactly_of_multiple 640 82048 (641 / 2) (by norm_num) (by norm_num)
      (by norm_num) (by norm_num)
  have h := mirror_twice_restores halfPixelCameraParam.depthIntrinsic
    halfPixelCameraParam.depthDistortion halfPixelCameraParam hdepth hrgb hdepth
  refine ⟨hrgb, hdepth, ?_, h.2.2.2.2.2.1⟩
  rw [h.1]
  norm_num [halfPixelCameraParam]

end CameraParamProcessor
namespace CameraParamProcessor

/-! ## Quarter turns in `float` arithmetic -/

/-- A quarter turn by 90 followed by one by 270 returns the intrinsic when the subtractions on
`cy` are exact; in any case it returns every field other than `cy`. -/
theorem cameraIntrinsicParamsRotate90_270 (intrinsic : OBCameraIntrinsic) :
    { cameraIntrinsicParamsRotate270 (cameraIntrinsicParamsRotate90 intrinsic) with
        cy := intrinsic.cy } = intrinsic
    ∧ (subtractsExactly intrinsic.height intrinsic.cy →
        cameraIntrinsicParamsRotate270 (cameraIntrinsicParamsRotate90 intrinsic) = intrinsic) := by
  obtain ⟨fx, fy, cx, cy, width, height⟩ := intrinsic
  refine ⟨rfl, ?_⟩
  intro h
  obtain ⟨h1, h2⟩ := mirror_coordinate_twice height cy h
  have e1 : cameraIntrinsicParamsRotate90 ⟨fx, fy, cx, cy, width, height⟩
      = ⟨fy, fx, (height : ℚ) - cy - 1, cx, height, width⟩ := by
    simp only [cameraIntrinsicParamsRotate90, h1]
  rw [e1]
  simp only [cameraIntrinsicParamsRotate270, h2]

/-- A quarter turn by 270 followed by one by 90 returns the intrinsic when the subtractions on
`cx` are exact; in any case it returns every field other than `cx`. -/
theorem cameraIntrinsicParamsRotate270_90 (intrinsic : OBCameraIntrinsic) :
    { cameraIntrinsicParamsRotate90 (cameraIntrinsicParamsRotate270 intrinsic) with
        cx := intrinsic.cx } = intrinsic
    ∧ (subtractsExactly intrinsic.width intrinsic.cx →
        cameraIntrinsicParamsRotate90 (cameraIntrinsicParamsRotate270 intrinsic) = intrinsic) := by
  obtain ⟨fx, fy, cx, cy, width, height⟩ := intrinsic
  refine ⟨rfl, ?_⟩
  intro h
  obtain ⟨h1, h2⟩ := mirror_coordinate_twice width cx h
  have e1 : cameraIntrinsicParamsRotate270 ⟨fx, fy, cx, cy, width, height⟩
      = ⟨fy, fx, cy, (width : ℚ) - cx - 1, height, width⟩ := by
    simp only [cameraIntrinsicParamsRotate270, h1]
  rw [e1]
  simp only [cameraIntrinsicParamsRotate90, h2]

/-- The record after `rotateCameraParam` by 90 and by 270. -/
theorem rotateCameraParam_90_270_eq (cameraParam : OBCameraParam) :
    rotateCameraParam cameraParam 90
      = ⟨cameraIntrinsicParamsRotate90 cameraParam.depthIntrinsic,
          cameraIntrinsicParamsRotate90 cameraParam.rgbIntrinsic,
          distortionParamRotate90 cameraParam.depthDistortion,
          distortionParamRotate90 cameraParam.rgbDistortion,
          d2cTransformParamsRotate90 cameraParam.transform, cameraParam.isMirrored⟩
    ∧ rotateCameraParam cameraParam 270
      = ⟨cameraIntrinsicParamsRotate270 cameraParam.depthIntrinsic,
          cameraIntrinsicParamsRotate270 cameraParam.rgbIntrinsic,
          distortionParamRotate270 cameraParam.depthDistortion,
          distortionParamRotate270 cameraParam.rgbDistortion,
          d2cTransformParamsRotate270 cameraParam.transform, cameraParam.isMirrored⟩ :=
  ⟨rfl, rfl⟩

/-- C29, as stated, fails: in `float` arithmetic `rotateCameraParam` by 90 and then by 270 on a
record whose 640x576 intrinsics have the principal point `(200.3f, 200.3f)` returns
`cy = 200.29999`, the `float` below `200.3f`, because `576 - 200.3f` is rounded; 270 and then 90
returns `cx = 200.29999`.  Neither order returns the record. -/
theorem rotateCameraParam_quarter_turns_move_principal_point :
    isFloat float200_3
    ∧ offCentreCameraParam.depthIntrinsic = ⟨500, 500, float200_3, float200_3, 640, 576⟩
    ∧ (rotateCameraParam (rotateCameraParam offCentreCameraParam 90) 270).depthIntrinsic.cy
        = 13126860 / 65536
    ∧ (rotateCameraParam (rotateCameraParam offCentreCameraParam 270) 90).depthIntrinsic.cx
        = 13126860 / 65536
    ∧ (13126860 / 65536 : ℚ) ≠ float200_3
    ∧ rotateCameraParam (rotateCameraParam offCentreCameraParam 90) 270 ≠ offCentreCameraParam
    ∧ rotateCameraParam (rotateCameraParam offCentreCameraParam 270) 90
        ≠ offCentreCameraParam := by
  obtain ⟨hy1, hy2⟩ := mirror_coordinate_576
  obtain ⟨hx1, hx2⟩ := mirror_coordinate_640
  have hne : (13126860 / 65536 : ℚ) ≠ float200_3 := by norm_num [float200_3]
  have h90 : (cameraIntrinsicParamsRotate90 offCentreIntrinsic)
      = ⟨500, 500, 12278170 / 32768, float200_3, 576, 640⟩ := by
    show (⟨500, 500, roundToFloat (roundToFloat (1 * ((576 : Int) : ℚ) - float200_3) - 1),
      float200_3, 576, 640⟩ : OBCameraIntrinsic) = _
    rw [hy1]
  have h270 : (cameraIntrinsicParamsRotate270 offCentreIntrinsic)
      = ⟨500, 500, float200_3, 14375322 / 32768, 576, 640⟩ := by
    show (⟨500, 500, float200_3,
      roundToFloat (roundToFloat (1 * ((640 : Int) : ℚ) - float200_3) - 1), 576, 640⟩ :
        OBCameraIntrinsic) = _
    rw [hx1]
  have hcy : (rotateCameraParam (rotateCameraParam offCentreCameraParam 90) 270).depthIntrinsic.cy
      = 13126860 / 65536 := by
    show (cameraIntrinsicParamsRotate270 (cameraIntrinsicParamsRotate90 offCentreIntrinsic)).cy
      = _
    rw [h90]
    exact hy2
  have hcx : (rotateCameraParam (rotateCameraParam offCentreCameraParam 270) 90).depthIntrinsic.cx
      = 13126860 / 65536 := by
    show (cameraIntrinsicParamsRotate90 (cameraIntrinsicParamsRotate270 offCentreIntrinsic)).cx
      = _
    rw [h270]
    exact hx2
  refine ⟨isFloat_float200_3, rfl, hcy, hcx, hne, ?_, ?_⟩
  · intro heq
    have := congrArg (fun p : OBCameraParam => p.depthIntrinsic.cy) heq
    simp only [] at this
    rw [hcy] at this
    exact hne this
  · intro heq
    have := congrArg (fun p : OBCameraParam => p.depthIntrinsic.cx) heq
    simp only [] at this
    rw [hcx] at this
    exact hne this

/-- C29, amended: in `float` arithmetic, whenever the subtractions on the principal points of
both intrinsics are exact (`cy` against the height and `cx` against the width: the coordinate,
the coordinate plus 1, size minus coordinate and size minus coordinate minus 1 are `float`
values, as for every coordinate between 0 and a size of at most 32767 that is a multiple of
`1/256`), `rotateCameraParam` by 90 followed by 270 returns the original record, and so does 270
followed by 90.  Without that condition the distortions and the transform are still restored
exactly, and each intrinsic up to `cy` in the first order and up to `cx` in the second.  An angle
other than 90, 180 and 270 leaves the record unchanged. -/
theorem rotateCameraParam_quarter_turns_cancel (cameraParam : OBCameraParam)
    (hdepthY : subtractsExactly cameraParam.depthIntrinsic.height cameraParam.depthIntrinsic.cy)
    (hrgbY : subtractsExactly cameraParam.rgbIntrinsic.height cameraParam.rgbIntrinsic.cy)
    (hdepthX : subtractsExactly cameraParam.depthIntrinsic.width cameraParam.depthIntrinsic.cx)
    (hrgbX : subtractsExactly cameraParam.rgbIntrinsic.width cameraParam.rgbIntrinsic.cx) :
    rotateCameraParam (rotateCameraParam cameraParam 90) 270 = cameraParam
    ∧ rotateCameraParam (rotateCameraParam cameraParam 270) 90 = cameraParam
    ∧ (∀ intrinsic : OBCameraIntrinsic,
        { cameraIntrinsicParamsRotate270 (cameraIntrinsicParamsRotate90 intrinsic) with
            cy := intrinsic.cy } = intrinsic
        ∧ { cameraIntrinsicParamsRotate90 (cameraIntrinsicParamsRotate270 intrinsic) with
            cx := intrinsic.cx } = intrinsic)
    ∧ (∀ distort : OBCameraDistortion,
        distortionParamRotate270 (distortionParamRotate90 distort) = distort
        ∧ distortionParamRotate90 (distortionParamRotate270 distort) = distort)
    ∧ (∀ transform : OBExtrinsic,
        d2cTransformParamsRotate270 (d2cTransformParamsRotate90 transform) = transform
        ∧ d2cTransformParamsRotate90 (d2cTransformParamsRotate270 transform) = transform)
    ∧ (∀ rotateAngle : Int, rotateAngle ≠ 90 → rotateAngle ≠ 180 → rotateAngle ≠ 270 →
        rotateCameraParam cameraParam rotateAngle = cameraParam)
    ∧ (∀ (size m : Int) (c : ℚ), c = (m : ℚ) / 256 → 0 ≤ c → c ≤ (size : ℚ) → size ≤ 32767 →
        subtractsExactly size c) := by
  refine ⟨?_, ?_,
    fun i => ⟨(cameraIntrinsicParamsRotate90_270 i).1, (cameraIntrinsicParamsRotate270_90 i).1⟩,
    distortionParamRotate_inverse, d2cTransformParamsRotate_inverse, ?_,
    fun size m c hc h0 h1 h2 => subtractsExactly_of_multiple size m c hc h0 h1 h2⟩
  · rw [(rotateCameraParam_90_270_eq cameraParam).1, (rotateCameraParam_90_270_eq _).2]
    obtain ⟨di, ri, dd, rd, t, m⟩ := cameraParam
    simp only [(cameraIntrinsicParamsRotate90_270 di).2 hdepthY,
      (cameraIntrinsicParamsRotate90_270 ri).2 hrgbY, (distortionParamRotate_inverse _).1,
      (d2cTransformParamsRotate_inverse _).1]
  · rw [(rotateCameraParam_90_270_eq cameraParam).2, (rotateCameraParam_90_270_eq _).1]
    obtain ⟨di, ri, dd, rd, t, m⟩ := cameraParam
    simp only [(cameraIntrinsicParamsRotate270_90 di).2 hdepthX,
      (cameraIntrinsicParamsRotate270_90 ri).2 hrgbX, (distortionParamRotate_inverse _).2,
      (d2cTransformParamsRotate_inverse _).2]
  · intro rotateAngle h90 h180 h270
    simp [rotateCameraParam, h90, h180, h270]

/-- C29 at the record `halfPixelCameraParam`, whose principal points lie on half pixels: the
subtractions are exact and the quarter turns cancel in both orders. -/
theorem rotateCameraParam_quarter_turns_cancel_witness :
    subtractsExactly halfPixelCameraParam.depthIntrinsic.height
      halfPixelCameraParam.depthIntrinsic.cy
    ∧ subtractsExactly halfPixelCameraParam.rgbIntrinsic.height
      halfPixelCameraParam.rgbIntrinsic.cy
    ∧ subtractsExactly halfPixelCameraParam.depthIntrinsic.width
      halfPixelCameraParam.depthIntrinsic.cx
    ∧ subtractsExactly halfPixelCameraParam.rgbIntrinsic.width
      halfPixelCameraParam.rgbIntrinsic.cx
    ∧ rotateCameraParam (rotateCameraParam halfPixelCameraParam 90) 270 = halfPixelCameraParam
    ∧ rotateCameraParam (rotateCameraParam halfPixelCameraParam 270) 90
        = halfPixelCameraParam := by
  have hdepthY : subtractsExactly halfPixelCameraParam.depthIntrinsic.height
      halfPixelCameraParam.depthIntrinsic.cy :=
    subtractsExactly_of_multiple 576 73600 (575 / 2) (by norm_num) (by norm_num)
      (by norm_num) (by norm_num)
  have hrgbY : subtractsExactly halfPixelCameraParam.rgbIntrinsic.height
      halfPixelCameraParam.rgbIntrinsic.cy :=
    subtractsExactly_of_multiple 720 92032 (719 / 2) (by norm_num) (by norm_num)
      (by norm_num) (by norm_num)
  have hdepthX : subtractsExactly halfPixelCameraParam.depthIntrinsic.width
      halfPixelCameraParam.depthIntrinsic.cx :=
    subtractsExactly_of_multiple 640 82048 (641 / 2) (by norm_num) (by norm_num)
      (by norm_num) (by norm_num)
  have hrgbX : subtractsExactly halfPixelCameraParam.rgbIntrinsic.width
      halfPixelCameraParam.rgbIntrinsic.cx :=
    subtractsExactly_of_multiple 1280 163968 (1281 / 2) (by norm_num) (by norm_num)
      (by norm_num) (by norm_num)
  have h := rotateCameraParam_quarter_turns_cancel halfPixelCameraParam hdepthY hrgbY hdepthX
    hrgbX
  exact ⟨hdepthY, hrgbY, hdepthX, hrgbX, h.1, h.2.1⟩

end CameraParamProcessor
/-! ## The final rescale of the intrinsic in `float` arithmetic -/

end libobsensor
